import Mathlib

/-! # Shotcut timeline dock and image producer widget

A shallow embedding of `src/docks/timelinedock.cpp` and of the parts of
`src/widgets/imageproducerwidget.cpp` that build and reset an image sequence.
The dock is a record `TimelineDock`, the widget a record `ImageProducerWidget`;
every member function becomes a function on its record.

Conventions of the embedding

* `int` is `Int` (frame counts and indices stay far inside the 32 bit range).
* `Q_ASSERT` is compiled out, as in a release build.
* `QList::at` with an index outside the list and a dereferenced null pointer
  have no defined behaviour: the function stops with a `Fault`.
* Signals emitted by the dock and methods invoked on the QML root object are
  appended, in order, to `TimelineDock.emitted`; calls on `MAIN.undoStack()`
  are appended, in order, to `TimelineDock.undoStack`.
* `MultitrackModel`, the `Timeline::*Command` classes and the MLT library are
  collaborators whose code is not in the sources at hand.  What the dock reads
  of the model is a field of the model record; what the collaborators compute
  is a field of `Collaborators`, a parameter of the functions that call them.
* The notifications that the model raises while it is mutated (`rowsInserted`,
  `rowsRemoved`, `modified`, `inserted`, `overWritten`) are events of their
  own: the slots they reach (`onRowsInserted`, `onRowsRemoved`, ...) are
  functions of the embedding and are not called from inside a mutation.
-/

namespace Shotcut

/-! ## Data model -/

/-- QPoint as used for a selected clip: `x` is the clip index, `y` the track index. -/
structure QPoint where
  x : Int
  y : Int
  deriving DecidableEq, Repr

/-- Mlt::Producer as the dock sees it: identity, the predicates the dock asks
and the properties the dock writes. -/
structure Producer where
  /-- identity of the producer object -/
  id : Nat
  /-- result of `is_valid()` -/
  is_valid : Bool := true
  /-- result of `is_blank()` -/
  is_blank : Bool := false
  /-- whether `get(kShotcutTransitionProperty)` is set -/
  transition : Bool := false
  /-- whether `get_int(kShotcutSequenceProperty)` is non-zero -/
  sequence : Bool := false
  /-- property `kFilterInProperty` -/
  filterIn : Option Int := none
  /-- property `kFilterOutProperty` -/
  filterOut : Option Int := none
  /-- property `kPlaylistStartProperty` -/
  playlistStart : Option Int := none
  /-- property `kMultitrackItemProperty`, the text "clipIndex:trackIndex" kept as a pair -/
  multitrackItem : Option (Int × Int) := none
  /-- property `audio_index`: `none` when `get("audio_index")` is null, else `get_int` -/
  audio_index : Option Int := none
  /-- property `resource`; a text is the list of its characters, `none` the null text -/
  resource : Option (List Char) := none
  /-- property `kShotcutResourceProperty`, the saved original resource -/
  shotcutResource : Option (List Char) := none
  /-- property `mlt_service` -/
  mlt_service : Option (List Char) := none
  /-- property `begin` -/
  begin : Option (List Char) := none
  /-- property `autolength` -/
  autolength : Option Bool := none
  /-- property `ttl` -/
  ttl : Option Int := none
  /-- property `length`, kept as the number of frames that its clock text denotes -/
  length : Option Int := none
  /-- the in point and the out point set by `set_in_and_out` -/
  inPoint : Int := 0
  outPoint : Int := 0
  /-- property `force_aspect_ratio` -/
  force_aspect_ratio : Option (List Char) := none
  /-- property `kAspectRatioNumerator` -/
  aspectRatioNumerator : Option (List Char) := none
  /-- property `kAspectRatioDenominator` -/
  aspectRatioDenominator : Option (List Char) := none
  /-- property `kPlaylistIndexProperty` -/
  playlistIndex : Option (List Char) := none
  /-- property `kCommentProperty` -/
  comment : Option (List Char) := none
  deriving DecidableEq, Repr

/-- Mlt::ClipInfo: what `Mlt::Playlist::clip_info(i)` answers for the i-th
entry of a track playlist. -/
structure ClipInfo where
  /-- the producer, `none` for a null pointer -/
  producer : Option Producer
  start : Int
  frame_in : Int
  frame_out : Int
  frame_count : Int
  length : Int
  deriving DecidableEq, Repr

/-- One entry of `m_model.trackList()`, resolved through its `mlt_index` to the
track producer of the tractor: the playlist of the track and its lock flag
(`get_int(kTrackLockProperty)`). -/
structure Track where
  clips : List ClipInfo
  locked : Bool := false
  deriving DecidableEq, Repr

/-- Mlt::Tractor of the model: its tracks and the properties the dock touches. -/
structure Tractor where
  tracks : List Track
  /-- result of `get_length()` -/
  length : Int := 0
  filterIn : Option Int := none
  filterOut : Option Int := none
  deriving DecidableEq, Repr

/-- MultitrackModel as the dock reads it.  `tractor = none` is the null
tractor; a model without tractor has no track. -/
structure MultitrackModel where
  tractor : Option Tractor
  deriving DecidableEq, Repr

/-- The list `m_model.trackList()`. -/
def MultitrackModel.trackList (m : MultitrackModel) : List Track :=
  match m.tractor with
  | none => []
  | some t => t.tracks

/-- The struct `Selection` of the dock (`m_selection`, `m_savedSelection`). -/
structure Selection where
  selectedClips : List QPoint := []
  selectedTrack : Int := -1
  isMultitrackSelected : Bool := false
  deriving DecidableEq, Repr

/-- UndoHelper: the before-state recorded by `recordBeforeState()` and the
`SkipXML` hint. -/
structure UndoHelper where
  skipXML : Bool
  before : MultitrackModel
  deriving DecidableEq, Repr

/-- The commands a trim call can leave in `m_trimCommand`, with the
arguments the dock passes to their constructors (the model reference left
out; the last flag is the `redo` argument). -/
inductive TrimCommand where
  | AddTransitionByTrimInCommand (trackIndex clipIndex delta trimDelta : Int) (redo : Bool)
  | RemoveTransitionByTrimInCommand (trackIndex clipIndex delta : Int) (redo : Bool)
  | TrimTransitionOutCommand (trackIndex clipIndex delta : Int) (redo : Bool)
  | TrimClipInCommand (trackIndex clipIndex delta : Int) (ripple redo : Bool)
  | AddTransitionByTrimOutCommand (trackIndex clipIndex delta trimDelta : Int) (redo : Bool)
  | RemoveTransitionByTrimOutCommand (trackIndex clipIndex delta : Int) (redo : Bool)
  | TrimTransitionInCommand (trackIndex clipIndex delta : Int) (redo : Bool)
  | TrimClipOutCommand (trackIndex clipIndex delta : Int) (ripple redo : Bool)
  deriving DecidableEq, Repr

/-- Timeline::UpdateCommand held in `m_updateCommand`. -/
structure UpdateCommand where
  trackIndex : Int
  clipIndex : Int
  position : Int
  deriving DecidableEq, Repr

/-- The XML text handed to a command that brings a clip into the timeline. -/
inductive Xml where
  /-- the non-empty text given by the caller, kept as an identifier -/
  | text (id : Nat)
  /-- the text `MLT.XML(nullptr)`: the serialised source producer -/
  | source
  /-- the text `MLT.XML(MLT.savedProducer())`: the serialised copied producer -/
  | saved (producer : ClipInfo)
  /-- the serialised copy of a clip cut to `[frame_in, frame_out]` (detachAudio) -/
  | cut (producer : Producer) (frame_in frame_out : Int)
  deriving DecidableEq, Repr

/-- Commands pushed on the undo stack. -/
inductive UndoCommand where
  /-- a trim command together with the helper given to `setUndoHelper` -/
  | trim (command : TrimCommand) (undoHelper : Option UndoHelper)
  /-- built as `Timeline::RemoveCommand(m_model, trackIndex, clipIndex, xml)`; the XML
  text of the clip is kept as the producer it serialises (`info->producer`) -/
  | RemoveCommand (trackIndex clipIndex : Int) (xml : Option Producer)
  | AppendCommand (trackIndex : Int) (xml : Xml)
  | InsertCommand (trackIndex position : Int) (xml : Xml) (seek : Bool)
  | OverwriteCommand (trackIndex position : Int) (xml : Xml) (seek : Bool)
  | LiftCommand (trackIndex clipIndex : Int) (xml : Option Producer)
  | SplitCommand (trackIndex clipIndex position : Int)
  | FadeInCommand (trackIndex clipIndex duration : Int)
  | FadeOutCommand (trackIndex clipIndex duration : Int)
  | MergeCommand (trackIndex clipIndex : Int)
  | DetachAudioCommand (trackIndex clipIndex position : Int) (xml : Xml)
  deriving DecidableEq, Repr

/-- Calls made on `MAIN.undoStack()`. -/
inductive UndoStackCall where
  | push (command : UndoCommand)
  /-- call `beginMacro(tr("Remove %1 from timeline").arg(n))` -/
  | beginMacro (n : Nat)
  /-- call `beginMacro(tr("Lift %1 from timeline").arg(n))` -/
  | beginLiftMacro (n : Nat)
  | endMacro
  deriving DecidableEq, Repr

/-- The producer carried by the signal `selected`. -/
inductive SelectedProducer where
  /-- the producer of a clip (`info->producer`) -/
  | clip (producer : Producer)
  /-- the track producer handed out by `selectTrackHead` -/
  | track (trackIndex : Int)
  /-- the tractor `m_model.tractor()` -/
  | tractor
  deriving DecidableEq, Repr

/-- Status bar texts of the dock. -/
inductive StatusMessage where
  /-- the text "This track is locked" -/
  | trackLocked
  /-- the text of `kNonSeekableWarning`, "You cannot add a non-seekable source." -/
  | nonSeekable
  /-- the text "You cannot split a transition." -/
  | cannotSplitTransition
  deriving DecidableEq, Repr

/-- Signals emitted by the dock and methods invoked on the QML root object. -/
inductive Event where
  | selectionChanged
  /-- signal `selected(producer)`; `none` is `selected(nullptr)` -/
  | selected (producer : Option SelectedProducer)
  | showStatusMessage (message : StatusMessage)
  | imageDurationChanged
  | clipCopied
  /-- call `invokeMethod(rootObject, "pulseLockButtonOnTrack", trackIndex)` -/
  | pulseLockButtonOnTrack (trackIndex : Int)
  /-- call `invokeMethod(rootObject, "selectMultitrack")` -/
  | selectMultitrack
  | fadeInChanged (duration : Int)
  | fadeOutChanged (duration : Int)
  | clipMoved (fromTrack toTrack clipIndex position : Int) (ripple : Bool)
  | transitionAdded (fromTrack clipIndex position : Int) (ripple : Bool)
  deriving DecidableEq, Repr

/-- The QML root object of `m_quickView`: the properties the dock reads and writes. -/
structure RootObject where
  currentTrack : Int
  ripple : Bool := false
  deriving DecidableEq, Repr

/-- Undefined behaviour reached by the C++ code. -/
inductive Fault where
  /-- call of `QList::at` outside the list -/
  | indexOutOfRange
  /-- a null pointer dereferenced -/
  | nullPointer
  /-- a member read before anything was written to it -/
  | indeterminateValue
  deriving DecidableEq, Repr

/-- The members of TimelineDock, with the undo stack of the main window, the
producer saved by `MLT.setSavedProducer` and the log of emitted events. -/
structure TimelineDock where
  m_model : MultitrackModel
  /-- the pointer `m_quickView.rootObject()`, `none` for a null pointer -/
  rootObject : Option RootObject
  m_position : Int := -1
  m_ignoreNextPositionChange : Bool := false
  m_trimDelta : Int := 0
  m_transitionDelta : Int := 0
  m_selection : Selection := {}
  /-- the member `m_savedSelection`; the constructor of the dock sets the flags of
  `m_selection` and nothing of `m_savedSelection`: `none` until
  saveAndClearSelection writes it -/
  m_savedSelection : Option Selection := none
  m_updateCommand : Option UpdateCommand := none
  m_trimCommand : Option TrimCommand := none
  m_undoHelper : Option UndoHelper := none
  savedProducer : Option ClipInfo := none
  undoStack : List UndoStackCall := []
  emitted : List Event := []
  deriving DecidableEq, Repr

/-- The collaborators of the dock whose code is not in the sources at hand:
the predicates and mutators of MultitrackModel, `Mlt::Playlist::
get_clip_index_at`, `MLT.isImageProducer`, `UpdateCommand::setPosition`, the
answers of the MLT controller and of the main window, and the `redo()` of the
commands. -/
structure Collaborators where
  get_clip_index_at : Track → Int → Int
  isImageProducer : Option Producer → Bool
  setPosition : UpdateCommand → Int → Int → Int → UpdateCommand
  /-- value of `m_model.data(m_model.makeIndex(trackIndex, clipIndex), DurationRole).toInt()` -/
  durationRole : MultitrackModel → Int → Int → Int
  liftClip : MultitrackModel → Int → Int → MultitrackModel
  addTransitionByTrimInValid : MultitrackModel → Int → Int → Int → Bool
  addTransitionByTrimIn : MultitrackModel → Int → Int → Int → MultitrackModel
  removeTransitionByTrimInValid : MultitrackModel → Int → Int → Int → Bool
  trimTransitionOutValid : MultitrackModel → Int → Int → Int → Bool
  trimTransitionOut : MultitrackModel → Int → Int → Int → MultitrackModel
  trimClipInValid : MultitrackModel → Int → Int → Int → Bool → Bool
  /-- the call `trimClipIn` answers the clip index after the trim -/
  trimClipIn : MultitrackModel → Int → Int → Int → Bool → Int × MultitrackModel
  addTransitionByTrimOutValid : MultitrackModel → Int → Int → Int → Bool
  addTransitionByTrimOut : MultitrackModel → Int → Int → Int → MultitrackModel
  removeTransitionByTrimOutValid : MultitrackModel → Int → Int → Int → Bool
  trimTransitionInValid : MultitrackModel → Int → Int → Int → Bool
  trimTransitionIn : MultitrackModel → Int → Int → Int → MultitrackModel
  trimClipOutValid : MultitrackModel → Int → Int → Int → Bool → Bool
  trimClipOut : MultitrackModel → Int → Int → Int → Bool → MultitrackModel
  /-- answer of `MAIN.isSourceClipMyProject()` -/
  isSourceClipMyProject : Bool := false
  /-- answer of `MLT.isSeekableClip()` -/
  isSeekableClip : Bool := true
  /-- answer of `MLT.isClip()` -/
  isClip : Bool := true
  /-- the `redo()` of the commands that bring in, lift, split, fade, merge or detach -/
  redo : UndoCommand → MultitrackModel → MultitrackModel := fun _ m => m
  appendFromPlaylist : MultitrackModel → List ClipInfo → Int → MultitrackModel := fun m _ _ => m
  /-- the call `m_model.mergeClipWithNext(trackIndex, clipIndex, true)`, a dry run -/
  mergeClipWithNextDryRun : MultitrackModel → Int → Int → Bool := fun _ _ _ => false
  moveClipValid : MultitrackModel → Int → Int → Int → Int → Bool → Bool :=
    fun _ _ _ _ _ _ => false
  addTransitionValid : MultitrackModel → Int → Int → Int → Int → Bool := fun _ _ _ _ _ => false

/-! ## Small helpers of the dock -/

/-- Modelled from the spec: MultitrackModel::removeClip is missing from the
sources; removing a clip (ripple delete) takes the clip out of the clip
sequence of its track, so that the later clips of the track shift down by one
index.  Frame positions are not recomputed. -/
def MultitrackModel.removeClip (m : MultitrackModel) (trackIndex clipIndex : Int) :
    MultitrackModel :=
  if 0 ≤ trackIndex ∧ 0 ≤ clipIndex then
    { tractor := m.tractor.map fun t =>
        { t with tracks := List.modify
                            (fun tr => { tr with clips := List.eraseIdx tr.clips clipIndex.toNat })
                            trackIndex.toNat t.tracks } }
  else m

/-- Modelled from the spec: the `redo()` of the commands is missing from the
sources.  A trim command built with `redo = false` leaves the model alone the
first time (the gesture has already mutated it); a RemoveCommand removes its
clip from the model.  The other commands are pushed with
`TimelineDock.pushCommand`, which leaves their `redo()` to the collaborators. -/
def UndoCommand.redo : UndoCommand → MultitrackModel → MultitrackModel
  | .trim _ _, m => m
  | .RemoveCommand trackIndex clipIndex _, m => m.removeClip trackIndex clipIndex
  | _, m => m

/-- The call `MAIN.undoStack()->push(command)`: the stack records the command and
runs its `redo()`. -/
def TimelineDock.push (d : TimelineDock) (command : UndoCommand) : TimelineDock :=
  { d with undoStack := d.undoStack ++ [UndoStackCall.push command],
           m_model := command.redo d.m_model }

/-- Emission of a signal, or a method invoked on the QML side. -/
def TimelineDock.emit (d : TimelineDock) (e : Event) : TimelineDock :=
  { d with emitted := d.emitted ++ [e] }

/-- QList::at on the track list. -/
def trackAt (m : MultitrackModel) (trackIndex : Int) : Except Fault Track :=
  if 0 ≤ trackIndex then
    match m.trackList.get? trackIndex.toNat with
    | some t => .ok t
    | none => .error .indexOutOfRange
  else .error .indexOutOfRange

/-- Result of `Mlt::Playlist::clip_info(clipIndex)`: null outside the playlist. -/
def Track.clip_info (t : Track) (clipIndex : Int) : Option ClipInfo :=
  if 0 ≤ clipIndex then t.clips.get? clipIndex.toNat else none

/-- TimelineDock::getClipInfo -/
def getClipInfo (d : TimelineDock) (trackIndex clipIndex : Int) : Except Fault (Option ClipInfo) :=
  if clipIndex ≥ 0 ∧ trackIndex ≥ 0 then do
    let track ← trackAt d.m_model trackIndex
    pure (track.clip_info clipIndex)
  else pure none

/-- TimelineDock::currentTrack -/
def currentTrack (d : TimelineDock) : Int :=
  match d.rootObject with
  | none => 0
  | some r => r.currentTrack

/-- TimelineDock::selection -/
def selection (d : TimelineDock) : List QPoint :=
  match d.rootObject with
  | none => []
  | some _ => d.m_selection.selectedClips

/-- The guarded call `m_updateCommand->setPosition(...)` shared by the trim
branches: done when an update command is pending for `(trackIndex, clipIndex)`;
the new position may depend on the pending one. -/
def updateCommandSetPosition (ops : Collaborators) (d : TimelineDock)
    (trackIndex clipIndex : Int) (newTrack newClip : Int) (newPosition : UpdateCommand → Int) :
    TimelineDock :=
  match d.m_updateCommand with
  | none => d
  | some u =>
    if u.trackIndex = trackIndex ∧ u.clipIndex = clipIndex then
      { d with m_updateCommand := some (ops.setPosition u newTrack newClip (newPosition u)) }
    else d

/-- The block `if (!m_undoHelper) { ... recordBeforeState(); }` of the plain trim branches. -/
def ensureUndoHelper (d : TimelineDock) (ripple : Bool) : TimelineDock :=
  match d.m_undoHelper with
  | some _ => d
  | none => { d with m_undoHelper := some { skipXML := ripple, before := d.m_model } }

/-- The block "Update duration in properties for image clip" of the plain trim branches. -/
def emitImageDurationChanged (ops : Collaborators) (d : TimelineDock)
    (trackIndex clipIndex : Int) : Except Fault TimelineDock := do
  let info ← getClipInfo d trackIndex clipIndex
  match info with
  | none => pure d
  | some i =>
    if ops.isImageProducer i.producer then
      match i.producer with
      | none => .error .nullPointer
      | some p => if !p.sequence then pure (d.emit .imageDurationChanged) else pure d
    else pure d

/-! ## Trim session -/

/-- TimelineDock::trimClipIn -/
def trimClipIn (ops : Collaborators) (d : TimelineDock)
    (trackIndex clipIndex oldClipIndex delta : Int) (ripple : Bool) :
    Except Fault (Bool × TimelineDock) :=
  if !ripple && ops.addTransitionByTrimInValid d.m_model trackIndex clipIndex delta then
    let d := { d with m_model := ops.addTransitionByTrimIn d.m_model trackIndex clipIndex delta }
    let d := { d with m_transitionDelta := d.m_transitionDelta + delta }
    let d := { d with m_trimCommand := some (.AddTransitionByTrimInCommand trackIndex
      (clipIndex - 1) d.m_transitionDelta d.m_trimDelta false) }
    pure (true, updateCommandSetPosition ops d trackIndex clipIndex trackIndex clipIndex (fun _ => -1))
  else if !ripple && ops.removeTransitionByTrimInValid d.m_model trackIndex clipIndex delta then
    let n := ops.durationRole d.m_model trackIndex (clipIndex - 1)
    let d := { d with m_model := ops.liftClip d.m_model trackIndex (clipIndex - 1) }
    let d := { d with m_model := (ops.trimClipIn d.m_model trackIndex clipIndex (-n) false).2 }
    let d := { d with m_trimDelta := d.m_trimDelta + delta }
    let d := { d with m_trimCommand := some (.RemoveTransitionByTrimInCommand trackIndex
      (clipIndex - 1) d.m_trimDelta false) }
    pure (true, updateCommandSetPosition ops d trackIndex clipIndex trackIndex (clipIndex - 1)
      (fun _ => -1))
  else if !ripple && ops.trimTransitionOutValid d.m_model trackIndex clipIndex delta then
    let d := { d with m_model := ops.trimTransitionOut d.m_model trackIndex clipIndex delta }
    let d := { d with m_trimDelta := d.m_trimDelta + delta }
    let d := { d with m_trimCommand := some (.TrimTransitionOutCommand trackIndex clipIndex
      d.m_trimDelta false) }
    pure (true, d)
  else if ops.trimClipInValid d.m_model trackIndex clipIndex delta ripple then do
    let d := ensureUndoHelper d ripple
    let r := ops.trimClipIn d.m_model trackIndex clipIndex delta ripple
    let clipIndex := r.1
    let d := { d with m_model := r.2 }
    let d ← emitImageDurationChanged ops d trackIndex clipIndex
    let d := { d with m_trimDelta := d.m_trimDelta + delta }
    let d := { d with m_trimCommand := some (.TrimClipInCommand trackIndex oldClipIndex
      d.m_trimDelta ripple false) }
    pure (true, updateCommandSetPosition ops d trackIndex clipIndex trackIndex clipIndex
      (fun u => u.position + delta))
  else pure (false, d)

/-- TimelineDock::trimClipOut -/
def trimClipOut (ops : Collaborators) (d : TimelineDock)
    (trackIndex clipIndex delta : Int) (ripple : Bool) :
    Except Fault (Bool × TimelineDock) :=
  if !ripple && ops.addTransitionByTrimOutValid d.m_model trackIndex clipIndex delta then
    let d := { d with m_model := ops.addTransitionByTrimOut d.m_model trackIndex clipIndex delta }
    let d := { d with m_transitionDelta := d.m_transitionDelta + delta }
    let d := { d with m_trimCommand := some (.AddTransitionByTrimOutCommand trackIndex
      clipIndex d.m_transitionDelta d.m_trimDelta false) }
    pure (true, updateCommandSetPosition ops d trackIndex clipIndex trackIndex clipIndex (fun _ => -1))
  else if !ripple && ops.removeTransitionByTrimOutValid d.m_model trackIndex clipIndex delta then
    let n := ops.durationRole d.m_model trackIndex (clipIndex + 1)
    let d := { d with m_model := ops.liftClip d.m_model trackIndex (clipIndex + 1) }
    let d := { d with m_model := ops.trimClipOut d.m_model trackIndex clipIndex (-n) false }
    let d := { d with m_trimDelta := d.m_trimDelta + delta }
    let d := { d with m_trimCommand := some (.RemoveTransitionByTrimOutCommand trackIndex
      (clipIndex + 1) d.m_trimDelta false) }
    pure (true, updateCommandSetPosition ops d trackIndex clipIndex trackIndex clipIndex (fun _ => -1))
  else if !ripple && ops.trimTransitionInValid d.m_model trackIndex clipIndex delta then
    let d := { d with m_model := ops.trimTransitionIn d.m_model trackIndex clipIndex delta }
    let d := { d with m_trimDelta := d.m_trimDelta + delta }
    let d := { d with m_trimCommand := some (.TrimTransitionInCommand trackIndex clipIndex
      d.m_trimDelta false) }
    pure (true, d)
  else if ops.trimClipOutValid d.m_model trackIndex clipIndex delta ripple then do
    let d := ensureUndoHelper d ripple
    let d := { d with m_model := ops.trimClipOut d.m_model trackIndex clipIndex delta ripple }
    let d ← emitImageDurationChanged ops d trackIndex clipIndex
    let d := { d with m_trimDelta := d.m_trimDelta + delta }
    let d := { d with m_trimCommand := some (.TrimClipOutCommand trackIndex clipIndex
      d.m_trimDelta ripple false) }
    pure (true, updateCommandSetPosition ops d trackIndex clipIndex trackIndex clipIndex (fun _ => -1))
  else pure (false, d)

/-- TimelineDock::commitTrimCommand -/
def commitTrimCommand (d : TimelineDock) : TimelineDock :=
  let d :=
    match d.m_trimCommand with
    | some c =>
      if d.m_trimDelta ≠ 0 ∨ d.m_transitionDelta ≠ 0 then
        let helper := d.m_undoHelper
        let d := { d with m_undoHelper := none, m_trimCommand := none }
        d.push (UndoCommand.trim c helper)
      else d
    | none => d
  { d with m_trimDelta := 0, m_transitionDelta := 0 }

/-- One call of a trim gesture, as the timeline view makes it while the mouse moves. -/
inductive TrimCall where
  | trimClipIn (trackIndex clipIndex oldClipIndex delta : Int) (ripple : Bool)
  | trimClipOut (trackIndex clipIndex delta : Int) (ripple : Bool)
  deriving DecidableEq, Repr

/-- The delta of a trim call. -/
def TrimCall.delta : TrimCall → Int
  | .trimClipIn _ _ _ delta _ => delta
  | .trimClipOut _ _ delta _ => delta

/-- The call made on the dock. -/
def TrimCall.run (ops : Collaborators) (d : TimelineDock) : TrimCall → Except Fault (Bool × TimelineDock)
  | .trimClipIn trackIndex clipIndex oldClipIndex delta ripple =>
    Shotcut.trimClipIn ops d trackIndex clipIndex oldClipIndex delta ripple
  | .trimClipOut trackIndex clipIndex delta ripple =>
    Shotcut.trimClipOut ops d trackIndex clipIndex delta ripple

/-- The four branches of a trim call (section 4.4 of the specification). -/
inductive TrimBranch where
  | createTransition
  | removeTransition
  | resizeTransition
  | plainTrim
  deriving DecidableEq, Repr

/-- The branch that accepts a trim call on model `m`: the first whose condition
holds, in the order of the `if` chain of trimClipIn and trimClipOut; `none`
when the delta is rejected. -/
def TrimCall.branch (ops : Collaborators) (m : MultitrackModel) : TrimCall → Option TrimBranch
  | .trimClipIn trackIndex clipIndex _ delta ripple =>
    if !ripple && ops.addTransitionByTrimInValid m trackIndex clipIndex delta then
      some .createTransition
    else if !ripple && ops.removeTransitionByTrimInValid m trackIndex clipIndex delta then
      some .removeTransition
    else if !ripple && ops.trimTransitionOutValid m trackIndex clipIndex delta then
      some .resizeTransition
    else if ops.trimClipInValid m trackIndex clipIndex delta ripple then some .plainTrim
    else none
  | .trimClipOut trackIndex clipIndex delta ripple =>
    if !ripple && ops.addTransitionByTrimOutValid m trackIndex clipIndex delta then
      some .createTransition
    else if !ripple && ops.removeTransitionByTrimOutValid m trackIndex clipIndex delta then
      some .removeTransition
    else if !ripple && ops.trimTransitionInValid m trackIndex clipIndex delta then
      some .resizeTransition
    else if ops.trimClipOutValid m trackIndex clipIndex delta ripple then some .plainTrim
    else none

/-- The undo command of a branch for a call, parameterized by a transition
delta and a trim delta. -/
def TrimCall.command (transitionDelta trimDelta : Int) : TrimCall → TrimBranch → TrimCommand
  | .trimClipIn trackIndex clipIndex _ _ _, .createTransition =>
    .AddTransitionByTrimInCommand trackIndex (clipIndex - 1) transitionDelta trimDelta false
  | .trimClipIn trackIndex clipIndex _ _ _, .removeTransition =>
    .RemoveTransitionByTrimInCommand trackIndex (clipIndex - 1) trimDelta false
  | .trimClipIn trackIndex clipIndex _ _ _, .resizeTransition =>
    .TrimTransitionOutCommand trackIndex clipIndex trimDelta false
  | .trimClipIn trackIndex _ oldClipIndex _ ripple, .plainTrim =>
    .TrimClipInCommand trackIndex oldClipIndex trimDelta ripple false
  | .trimClipOut trackIndex clipIndex _ _, .createTransition =>
    .AddTransitionByTrimOutCommand trackIndex clipIndex transitionDelta trimDelta false
  | .trimClipOut trackIndex clipIndex _ _, .removeTransition =>
    .RemoveTransitionByTrimOutCommand trackIndex (clipIndex + 1) trimDelta false
  | .trimClipOut trackIndex clipIndex _ _, .resizeTransition =>
    .TrimTransitionInCommand trackIndex clipIndex trimDelta false
  | .trimClipOut trackIndex clipIndex _ ripple, .plainTrim =>
    .TrimClipOutCommand trackIndex clipIndex trimDelta ripple false

/-- What the specification keeps of a gesture: the sum of the deltas accepted
by the create-transition branch, the sum of the deltas accepted by the other
branches, and the last accepted call with its branch. -/
structure GestureLedger where
  transitionSum : Int := 0
  trimSum : Int := 0
  lastAccepted : Option (TrimCall × TrimBranch) := none
  deriving DecidableEq, Repr

/-- The ledger after one more call, accepted by `branch` or rejected (`none`). -/
def GestureLedger.record (l : GestureLedger) (call : TrimCall) : Option TrimBranch → GestureLedger
  | none => l
  | some .createTransition =>
    { transitionSum := l.transitionSum + call.delta, trimSum := l.trimSum,
      lastAccepted := some (call, .createTransition) }
  | some br =>
    { transitionSum := l.transitionSum, trimSum := l.trimSum + call.delta,
      lastAccepted := some (call, br) }

/-- The pending command that a ledger announces. -/
def GestureLedger.command (l : GestureLedger) : Option TrimCommand :=
  match l.lastAccepted with
  | none => none
  | some (call, br) => some (call.command l.transitionSum l.trimSum br)

/-- The calls of a gesture made in order on the dock, the ledger being kept beside. -/
def runTrimCalls (ops : Collaborators) :
    TimelineDock → GestureLedger → List TrimCall → Except Fault (TimelineDock × GestureLedger)
  | d, l, [] => pure (d, l)
  | d, l, call :: rest => do
    let r ← call.run ops d
    runTrimCalls ops r.2 (l.record call (call.branch ops d.m_model)) rest

/-- The counters and the pending command of the dock are those of the ledger. -/
def LedgerAgrees (d : TimelineDock) (l : GestureLedger) : Prop :=
  d.m_transitionDelta = l.transitionSum ∧ d.m_trimDelta = l.trimSum ∧
    d.m_trimCommand = l.command

/-- The part of the dock that a trim session owns: both counters, the pending
command, the captured undo snapshot and the undo stack. -/
def trimSession (d : TimelineDock) :
    Int × Int × Option TrimCommand × Option UndoHelper × List UndoStackCall :=
  (d.m_transitionDelta, d.m_trimDelta, d.m_trimCommand, d.m_undoHelper, d.undoStack)

/-- A session is idle when both counters are zero and no command is pending. -/
def TimelineDock.idle (d : TimelineDock) : Prop :=
  d.m_trimDelta = 0 ∧ d.m_transitionDelta = 0 ∧ d.m_trimCommand = none

instance (d : TimelineDock) : Decidable d.idle := by
  unfold TimelineDock.idle; infer_instance

/-! ## Sample project used by the examples -/

/-- A clip of 100 frames with producer `id`, placed at `start`. -/
def sampleClip (id : Nat) (start : Int) : ClipInfo :=
  { producer := some { id := id }, start := start, frame_in := 0, frame_out := 99,
    frame_count := 100, length := 100 }

/-- A blank of 100 frames placed at `start`. -/
def sampleBlank (id : Nat) (start : Int) : ClipInfo :=
  { producer := some { id := id, is_blank := true }, start := start, frame_in := 0,
    frame_out := 99, frame_count := 100, length := 100 }

/-- A model made of the given tracks. -/
def sampleModel (tracks : List Track) : MultitrackModel :=
  { tractor := some { tracks := tracks, length := 300 } }

/-- The clip lookup of MLT: the index of the entry that holds `position`, the
number of entries when the position is past the end. -/
def sampleClipIndexAt : List ClipInfo → Int → Int
  | [], _ => 0
  | c :: rest, position =>
    if position < c.frame_count then 0 else 1 + sampleClipIndexAt rest (position - c.frame_count)

/-- Sample collaborators: mutators leave the model alone, a trim-in of clip 1 by
3 frames is accepted as a transition, every other delta as a plain trim. -/
def sampleOps : Collaborators where
  get_clip_index_at := fun t position => sampleClipIndexAt t.clips position
  isImageProducer := fun _ => false
  setPosition := fun _ t c p => { trackIndex := t, clipIndex := c, position := p }
  durationRole := fun _ _ _ => 0
  liftClip := fun m _ _ => m
  addTransitionByTrimInValid := fun _ _ c delta => c == 1 && delta == 3
  addTransitionByTrimIn := fun m _ _ _ => m
  removeTransitionByTrimInValid := fun _ _ _ _ => false
  trimTransitionOutValid := fun _ _ _ _ => false
  trimTransitionOut := fun m _ _ _ => m
  trimClipInValid := fun _ _ _ _ _ => true
  trimClipIn := fun m _ c _ _ => (c, m)
  addTransitionByTrimOutValid := fun _ _ _ _ => false
  addTransitionByTrimOut := fun m _ _ _ => m
  removeTransitionByTrimOutValid := fun _ _ _ _ => false
  trimTransitionInValid := fun _ _ _ _ => false
  trimTransitionIn := fun m _ _ _ => m
  trimClipOutValid := fun _ _ _ _ _ => true
  trimClipOut := fun m _ _ _ _ => m

/-- A dock on one track with two clips, nothing selected, session idle. -/
def sampleDock : TimelineDock :=
  { m_model := sampleModel [{ clips := [sampleClip 1 0, sampleClip 2 100] }],
    rootObject := some { currentTrack := 0 },
    m_position := 0 }

/-! ## Reading the model -/

/-- The entry of the track list at `trackIndex` when `0 <= trackIndex < size`. -/
def MultitrackModel.track? (m : MultitrackModel) (trackIndex : Int) : Option Track :=
  if 0 ≤ trackIndex then m.trackList.get? trackIndex.toNat else none

/-- Modelled from the spec: MultitrackModel::index and MultitrackModel::data for
`IsBlankRole` are missing from the sources; this is the blank-check of the edit
model (a blank is a placeholder occupying a gap in the clip sequence of a
track).  A coordinate that designates no clip is not blank (the invalid
QVariant converts to `false`). -/
def MultitrackModel.isBlankRole (m : MultitrackModel) (trackIndex clipIndex : Int) : Bool :=
  match m.track? trackIndex with
  | none => false
  | some t =>
    match t.clip_info clipIndex with
    | some i =>
      match i.producer with
      | some p => p.is_blank
      | none => false
    | none => false

/-- TimelineDock::isBlank -/
def isBlank (d : TimelineDock) (trackIndex clipIndex : Int) : Bool :=
  decide (trackIndex ≥ 0) && decide (clipIndex ≥ 0) &&
    d.m_model.isBlankRole trackIndex clipIndex

/-- TimelineDock::isTrackLocked -/
def isTrackLocked (d : TimelineDock) (trackIndex : Int) : Bool :=
  match d.m_model.track? trackIndex with
  | none => false
  | some t => t.locked

/-- TimelineDock::clipCount -/
def clipCount (d : TimelineDock) (trackIndex : Int) : Int :=
  let trackIndex := if trackIndex < 0 then currentTrack d else trackIndex
  match d.m_model.track? trackIndex with
  | some t => t.clips.length
  | none => 0

/-- TimelineDock::clipIndexAtPosition -/
def clipIndexAtPosition (ops : Collaborators) (d : TimelineDock) (trackIndex position : Int) : Int :=
  let trackIndex := if trackIndex < 0 then currentTrack d else trackIndex
  match d.m_model.track? trackIndex with
  | some t => ops.get_clip_index_at t position
  | none => -1

/-- TimelineDock::clipIndexAtPlayhead -/
def clipIndexAtPlayhead (ops : Collaborators) (d : TimelineDock) (trackIndex : Int) : Int :=
  clipIndexAtPosition ops d trackIndex d.m_position

/-- TimelineDock::pulseLockButtonOnTrack -/
def pulseLockButtonOnTrack (d : TimelineDock) (trackIndex : Int) : TimelineDock :=
  (d.emit (.pulseLockButtonOnTrack trackIndex)).emit (.showStatusMessage .trackLocked)

/-- TimelineDock::setCurrentTrack, with `qBound(min, v, max) = qMax(min, qMin(max, v))`. -/
def setCurrentTrack (d : TimelineDock) (currentTrack : Int) : TimelineDock :=
  match d.rootObject with
  | none => d
  | some r =>
    { d with rootObject := some { r with
        currentTrack := max 0 (min ((d.m_model.trackList.length : Int) - 1) currentTrack) } }

/-! ## Clip resolution policy -/

/-- The loop "look through the other tracks" of chooseClipAtPosition, over the
track indices still to visit; `(-1, -1)` when the loop runs to its end. -/
def chooseClipOnOtherTracks (ops : Collaborators) (d : TimelineDock) (position : Int) :
    List Nat → Int × Int
  | [] => (-1, -1)
  | i :: rest =>
    let trackIndex : Int := i
    if trackIndex = currentTrack d then chooseClipOnOtherTracks ops d position rest
    else if isTrackLocked d trackIndex then chooseClipOnOtherTracks ops d position rest
    else
      let clipIndex := clipIndexAtPosition ops d trackIndex position
      if clipIndex ≠ -1 ∧ !isBlank d trackIndex clipIndex then (trackIndex, clipIndex)
      else chooseClipOnOtherTracks ops d position rest

/-- The part of chooseClipAtPosition from "Next we try the current track" on. -/
def chooseClipFromCurrentTrack (ops : Collaborators) (d : TimelineDock) (position : Int) :
    Int × Int :=
  let trackIndex := currentTrack d
  let clipIndex := min (clipIndexAtPosition ops d trackIndex position) (clipCount d trackIndex - 1)
  if !isTrackLocked d trackIndex ∧ clipIndex ≠ -1 ∧ !isBlank d trackIndex clipIndex then
    (trackIndex, clipIndex)
  else chooseClipOnOtherTracks ops d position (List.range d.m_model.trackList.length)

/-- TimelineDock::chooseClipAtPosition; the two reference arguments come back
as the pair `(trackIndex, clipIndex)`. -/
def chooseClipAtPosition (ops : Collaborators) (d : TimelineDock)
    (position trackIndex clipIndex : Int) : Int × Int :=
  if trackIndex ≠ -1 ∧ !isTrackLocked d trackIndex then
    let clipIndex := clipIndexAtPosition ops d trackIndex position
    if clipIndex ≠ -1 ∧ !isBlank d trackIndex clipIndex then (trackIndex, clipIndex)
    else chooseClipFromCurrentTrack ops d position
  else
    -- the value that came in through `clipIndex` is overwritten before any use
    let _ := clipIndex
    chooseClipFromCurrentTrack ops d position

/-! ## Selection controller -/

/-- The producer of entry `clipIndex` of a playlist replaced by `p`. -/
def Track.setProducer (t : Track) (clipIndex : Nat) (p : Producer) : Track :=
  { t with clips := List.modify (fun c => { c with producer := some p }) clipIndex t.clips }

/-- The producer of clip `clipIndex` of track `trackIndex` replaced by `p`
(the writes `info->producer->set(...)` reach the producer inside the model). -/
def MultitrackModel.setProducer (m : MultitrackModel) (trackIndex clipIndex : Int) (p : Producer) :
    MultitrackModel :=
  { tractor := m.tractor.map fun t =>
      { t with tracks :=
          List.modify (fun tr => tr.setProducer clipIndex.toNat p) trackIndex.toNat t.tracks } }

/-- Whether a neighbour found by getClipInfo is a transition
(`info2 && info2->producer && info2->producer->is_valid() &&
info2->producer->get(kShotcutTransitionProperty)`); answers its clip info. -/
def transitionNeighbour (info2 : Option ClipInfo) : Option ClipInfo :=
  match info2 with
  | some i =>
    match i.producer with
    | some p => if p.is_valid ∧ p.transition then some i else none
    | none => none
  | none => none

/-- The body of TimelineDock::setSelection; `emitSelected` stands for the call
of emitSelectedFromSelection. -/
def setSelectionWith (emitSelected : TimelineDock → Except Fault TimelineDock)
    (d : TimelineDock) (newSelection : List QPoint) (trackIndex : Int) (isMultitrack : Bool) :
    Except Fault TimelineDock :=
  if newSelection ≠ selection d ∨ trackIndex ≠ d.m_selection.selectedTrack
      ∨ isMultitrack ≠ d.m_selection.isMultitrackSelected then
    let d := { d with m_selection :=
      { selectedClips := newSelection, selectedTrack := trackIndex,
        isMultitrackSelected := isMultitrack } }
    let d := d.emit .selectionChanged
    if ¬ d.m_selection.selectedClips.isEmpty then emitSelected d
    else pure (d.emit (.selected none))
  else pure d

/-- TimelineDock::selectMultitrack.  Its call `setSelection(QList<QPoint>(), -1, true)`
stores an empty list, so that call never reaches emitSelectedFromSelection
(see `selectMultitrack_eq`). -/
def selectMultitrack (d : TimelineDock) : Except Fault TimelineDock := do
  let d ← setSelectionWith pure d [] (-1) true
  let d := d.emit .selectMultitrack
  pure (d.emit (.selected (some .tractor)))

/-- The block `if (info && info->producer && info->producer->is_valid()) { ... }`
of emitSelectedFromSelection. -/
def emitSelectedClip (d : TimelineDock) (trackIndex clipIndex : Int) (info : Option ClipInfo) :
    Except Fault TimelineDock :=
  match info with
  | none => pure d
  | some i =>
    match i.producer with
    | none => pure d
    | some producer =>
      if producer.is_valid then do
        let d := { d with m_updateCommand := some (UpdateCommand.mk trackIndex clipIndex i.start) }
        let info2 ← getClipInfo d trackIndex (clipIndex - 1)
        let producer :=
          match transitionNeighbour info2 with
          | some i2 =>
            { producer with filterIn := some (i.frame_in - i2.frame_count),
                            playlistStart := some i2.start }
          | none =>
            { producer with filterIn := some i.frame_in, playlistStart := some i.start }
        let info2 ← getClipInfo d trackIndex (clipIndex + 1)
        let producer :=
          match transitionNeighbour info2 with
          | some i2 => { producer with filterOut := some (i.frame_out + i2.frame_count) }
          | none => { producer with filterOut := some i.frame_out }
        let producer := { producer with multitrackItem := some (clipIndex, trackIndex) }
        let d := { d with m_model := d.m_model.setProducer trackIndex clipIndex producer }
        let d := { d with m_ignoreNextPositionChange := true }
        pure (d.emit (.selected (some (.clip producer))))
      else pure d

/-- TimelineDock::emitSelectedFromSelection -/
def emitSelectedFromSelection (d : TimelineDock) : Except Fault TimelineDock :=
  if d.m_model.trackList.length = 0 then
    match d.m_model.tractor with
    | some _ => selectMultitrack d
    | none => pure (d.emit (.selected none))
  else do
    let trackIndex :=
      if (selection d).isEmpty then currentTrack d else ((selection d).head?.map QPoint.y).getD 0
    let clipIndex :=
      if (selection d).isEmpty then 0 else ((selection d).head?.map QPoint.x).getD 0
    let info ← getClipInfo d trackIndex clipIndex
    let d ← emitSelectedClip d trackIndex clipIndex info
    pure { d with m_model := { tractor := d.m_model.tractor.map fun t =>
      { t with filterIn := some 0, filterOut := some (t.length - 1) } } }

/-- TimelineDock::setSelection -/
def setSelection (d : TimelineDock) (newSelection : List QPoint) (trackIndex : Int)
    (isMultitrack : Bool) : Except Fault TimelineDock :=
  setSelectionWith emitSelectedFromSelection d newSelection trackIndex isMultitrack

/-- TimelineDock::selectClipUnderPlayhead -/
def selectClipUnderPlayhead (ops : Collaborators) (d : TimelineDock) : Except Fault TimelineDock :=
  let r := chooseClipAtPosition ops d d.m_position (-1) (-1)
  let track := r.1
  let clip := r.2
  if clip = -1 then
    if isTrackLocked d (currentTrack d) then
      pure (pulseLockButtonOnTrack d (currentTrack d))
    else
      let idx := clipIndexAtPlayhead ops d (-1)
      if idx = -1 then setSelection d [] (-1) false
      else setSelection d [⟨idx, track⟩] (-1) false
  else
    let d := setCurrentTrack d track
    setSelection d [⟨clip, track⟩] (-1) false

/-- TimelineDock::onRowsInserted; `parentRow` is `parent.row()`. -/
def onRowsInserted (d : TimelineDock) (parentRow first last : Int) : Except Fault TimelineDock :=
  if -1 = d.m_selection.selectedTrack then
    let n := last - first + 1
    let newSelection := d.m_selection.selectedClips.map fun i =>
      if i.x < first then (⟨i.x, parentRow⟩ : QPoint) else ⟨i.x + n, parentRow⟩
    setSelection d newSelection (-1) false
  else pure d

/-- TimelineDock::onRowsRemoved; `parentRow` is `parent.row()`. -/
def onRowsRemoved (d : TimelineDock) (parentRow first last : Int) : Except Fault TimelineDock :=
  if -1 = d.m_selection.selectedTrack then
    let n := last - first + 1
    let newSelection := d.m_selection.selectedClips.filterMap fun i =>
      if i.x < first then some (⟨i.x, parentRow⟩ : QPoint)
      else if i.x > last then some ⟨i.x - n, parentRow⟩
      else none
    setSelection d newSelection (-1) false
  else pure d

/-- The test of setSelection: the arguments differ from the current
`(selection(), selectedTrack, isMultitrackSelected)`. -/
def selectionDiffers (d : TimelineDock) (newSelection : List QPoint) (trackIndex : Int)
    (isMultitrack : Bool) : Prop :=
  newSelection ≠ selection d ∨ trackIndex ≠ d.m_selection.selectedTrack
    ∨ isMultitrack ≠ d.m_selection.isMultitrackSelected

instance (d : TimelineDock) (newSelection : List QPoint) (trackIndex : Int) (isMultitrack : Bool) :
    Decidable (selectionDiffers d newSelection trackIndex isMultitrack) := by
  unfold selectionDiffers; infer_instance

/-- A dock whose model has a tractor and no track. -/
def trackLessDock : TimelineDock :=
  { m_model := sampleModel [], rootObject := some { currentTrack := 0 } }

/-! ## Clip resolution policy: the tests that the code makes -/

/-- The test `clipIndex != -1 && !isBlank(trackIndex, clipIndex)` on the lookup
of a position: the lookup result when the test passes.  The test does not ask
whether the track holds a clip at the index; a lookup that is the clip count of
the track, where no clip is, passes it. -/
def lookupNotBlank (ops : Collaborators) (d : TimelineDock) (trackIndex position : Int) :
    Option Int :=
  let clipIndex := clipIndexAtPosition ops d trackIndex position
  if clipIndex ≠ -1 ∧ isBlank d trackIndex clipIndex = false then some clipIndex else none

/-- The first test of chooseClipAtPosition: the hint is not -1, its track is
not locked, and the lookup on it passes the test of lookupNotBlank. -/
def hintTest (ops : Collaborators) (d : TimelineDock) (position hint : Int) : Option (Int × Int) :=
  if hint ≠ -1 ∧ isTrackLocked d hint = false then
    (lookupNotBlank ops d hint position).map fun c => (hint, c)
  else none

/-- The second test of chooseClipAtPosition: the active track is not locked,
and the lookup on it, clamped with qMin to the clip count less one, is not -1
and not blank. -/
def activeTest (ops : Collaborators) (d : TimelineDock) (position : Int) : Option (Int × Int) :=
  let c := min (clipIndexAtPosition ops d (currentTrack d) position)
    (clipCount d (currentTrack d) - 1)
  if isTrackLocked d (currentTrack d) = false ∧ c ≠ -1 ∧ isBlank d (currentTrack d) c = false
  then some (currentTrack d, c) else none

/-- The test of one round of the loop of chooseClipAtPosition: the track is
not the active one, it is not locked, and the lookup on it passes the test of
lookupNotBlank. -/
def otherTest (ops : Collaborators) (d : TimelineDock) (position : Int) (t : Nat) :
    Option (Int × Int) :=
  if (t : Int) ≠ currentTrack d ∧ isTrackLocked d t = false then
    (lookupNotBlank ops d t position).map fun c => ((t : Int), c)
  else none

/-- The tests of chooseClipAtPosition in the order of the code: the hint
test, else the active-track test, else the first track of the loop, in
ascending index order, that passes otherTest, else (-1, -1). -/
def chooseClipAtPositionTests (ops : Collaborators) (d : TimelineDock) (position hint : Int) :
    Int × Int :=
  match hintTest ops d position hint with
  | some r => r
  | none =>
    match activeTest ops d position with
    | some r => r
    | none =>
      match (List.range d.m_model.trackList.length).findSome? (otherTest ops d position) with
      | some r => r
      | none => (-1, -1)

/-- A dock on two tracks of one clip each; track 0 is locked, track 1 is the
active track, and the playhead is inside both clips. -/
def lockedHintDock : TimelineDock :=
  { m_model := sampleModel [{ clips := [sampleClip 1 0], locked := true },
                            { clips := [sampleClip 2 0] }],
    rootObject := some { currentTrack := 1 },
    m_position := 50 }

/-- The clip index of a selected clip after `last - first + 1` rows came in at `first`. -/
def shiftOnInsert (first last : Int) (c : Int) : Int :=
  if c < first then c else c + (last - first + 1)

/-- A dock on one track of six clips with clip 3 selected and no single track
selected. -/
def rowsDock : TimelineDock :=
  { m_model := sampleModel [{ clips := [sampleClip 1 0, sampleClip 2 100, sampleClip 3 200,
      sampleClip 4 300, sampleClip 5 400, sampleClip 6 500] }],
    rootObject := some { currentTrack := 0 },
    m_selection := { selectedClips := [⟨3, 0⟩] } }

/-- A dock on two tracks, `[N, A, B]` and `[C, D]`, as it is right after clip
N came in as row 0 of track 0; clip D, at (clip 1, track 1), is selected. -/
def twoTrackDock : TimelineDock :=
  { m_model := sampleModel [{ clips := [sampleClip 10 0, sampleClip 1 100, sampleClip 2 200] },
                            { clips := [sampleClip 3 0, sampleClip 4 100] }],
    rootObject := some { currentTrack := 0 },
    m_selection := { selectedClips := [⟨1, 1⟩] } }

/-- The identity of the producer that a coordinate designates in the model. -/
def designatedClip (d : TimelineDock) (p : QPoint) : Option Nat :=
  match d.m_model.track? p.y with
  | none => none
  | some t =>
    match t.clip_info p.x with
    | some i => i.producer.map Producer.id
    | none => none

/-! ## Removing the selection -/

/-- TimelineDock::producerForClip; `none` is the null result, `some p` the
producer object made from `info->producer`. -/
def producerForClip (d : TimelineDock) (trackIndex clipIndex : Int) :
    Except Fault (Option (Option Producer)) := do
  let info ← getClipInfo d trackIndex clipIndex
  match info with
  | some i => pure (some i.producer)
  | none => pure none

/-- TimelineDock::copyClip; the producer handed to `MLT.setSavedProducer` is kept
as the clip info it is built from. -/
def copyClip (d : TimelineDock) (trackIndex clipIndex : Int) : Except Fault TimelineDock := do
  let info ← getClipInfo d trackIndex clipIndex
  match info with
  | some i => pure ({ d with savedProducer := some i }.emit .clipCopied)
  | none => pure d

/-- TimelineDock::remove -/
def remove (d : TimelineDock) (trackIndex clipIndex : Int) : Except Fault TimelineDock :=
  if d.m_model.trackList.length = 0 then pure d
  else if isTrackLocked d trackIndex then pure (pulseLockButtonOnTrack d trackIndex)
  else do
    let clip ← producerForClip d trackIndex clipIndex
    match clip with
    | some xml => pure (d.push (UndoCommand.RemoveCommand trackIndex clipIndex xml))
    | none => pure d

/-- The inner loop of the ripple delete: `adjustment` after the walk over
`clipsRemoved`. -/
def removeAdjustment (clip : QPoint) (clipsRemoved : List QPoint) : Int :=
  clipsRemoved.foldl (fun adjustment i =>
    if clip.y = i.y ∧ clip.x > i.x then adjustment - 1 else adjustment) 0

/-- The loop "Ripple delete" of removeSelection over the clips of the list that
`selection()` answered, with the list `clipsRemoved` built so far. -/
def removeClips : TimelineDock → List QPoint → List QPoint → Except Fault TimelineDock
  | d, [], _ => pure d
  | d, clip :: rest, clipsRemoved =>
    if ¬ clipsRemoved.contains clip then do
      let adjustment := removeAdjustment clip clipsRemoved
      let d ← remove d clip.y (clip.x + adjustment)
      removeClips d rest (clipsRemoved ++ [clip])
    else removeClips d rest clipsRemoved

/-- The part of removeSelection that follows the lookup of a clip under the
playhead. -/
def removeSelected (d : TimelineDock) (withCopy : Bool) : Except Fault TimelineDock :=
  if (selection d).isEmpty ∨ currentTrack d < 0 then pure d
  else if withCopy then
    match (selection d).head? with
    | some clip => do
      let d ← copyClip d clip.y clip.x
      remove d clip.y clip.x
    | none => pure d
  else do
    let n := (selection d).length
    let d0 := if n > 1 then { d with undoStack := d.undoStack ++ [UndoStackCall.beginMacro n] } else d
    let d1 ← removeClips d0 (selection d) []
    pure (if n > 1 then { d1 with undoStack := d1.undoStack ++ [UndoStackCall.endMacro] } else d1)

/-- TimelineDock::removeSelection -/
def removeSelection (ops : Collaborators) (d : TimelineDock) (withCopy : Bool) :
    Except Fault TimelineDock :=
  if isTrackLocked d (currentTrack d) then
    pure (pulseLockButtonOnTrack d (currentTrack d))
  else if (selection d).isEmpty then do
    let d ← selectClipUnderPlayhead ops d
    removeSelected d withCopy
  else removeSelected d withCopy

/-- The list without the entries whose index, counted from `k`, is in `xs`. -/
def dropIndicesFrom {α : Type} (xs : List Nat) : Nat → List α → List α
  | _, [] => []
  | k, a :: l => if k ∈ xs then dropIndicesFrom xs (k + 1) l else a :: dropIndicesFrom xs (k + 1) l

/-- The list without the entries at the indices `xs`. -/
def withoutIndices {α : Type} (l : List α) (xs : List Int) : List α :=
  dropIndicesFrom (xs.map Int.toNat) 0 l

/-- A track with the clips A, B, C, D (producers 1 to 4). -/
def rippleTrack : Track :=
  { clips := [sampleClip 1 0, sampleClip 2 100, sampleClip 3 200, sampleClip 4 300] }

/-- A dock on the track `rippleTrack` with the given clips selected. -/
def rippleDock (selectedClips : List QPoint) : TimelineDock :=
  { m_model := sampleModel [rippleTrack],
    rootObject := some { currentTrack := 0 },
    m_selection := { selectedClips := selectedClips } }

/-- The clips 2, 0 and 1 of track 0, clicked in that order. -/
def clickOrder : List QPoint := [⟨2, 0⟩, ⟨0, 0⟩, ⟨1, 0⟩]

/-- The number of indices of `xs` in `[k, c)`. -/
def countBelow (xs : List Nat) (k c : Nat) : Nat :=
  (xs.filter fun p => decide (k ≤ p ∧ p < c)).length

/-- The model with the clip sequence of track `t` replaced by `clips`, all the
rest being kept. -/
def MultitrackModel.setTrackClips (m : MultitrackModel) (t : Nat) (clips : List ClipInfo) :
    MultitrackModel :=
  { tractor := m.tractor.map fun tt =>
      { tt with tracks := List.modify (fun tr => { tr with clips := clips }) t tt.tracks } }

/-- The track and clip index of a pushed RemoveCommand. -/
def removeTarget : UndoStackCall → Option (Int × Int)
  | .push (.RemoveCommand trackIndex clipIndex _) => some (trackIndex, clipIndex)
  | _ => none

/-- The removals that the specification announces for a ripple delete: each
selected clip is removed at its index lowered by the number of already removed
clips of the same track with a smaller index. -/
def rippleTargets : List QPoint → List QPoint → List (Int × Int)
  | _, [] => []
  | removed, clip :: rest =>
    (clip.y, clip.x - ((removed.filter fun i => decide (i.y = clip.y ∧ i.x < clip.x)).length : Int))
      :: rippleTargets (removed ++ [clip]) rest

/-! ## Selection controller, continued -/

/-- Modelled from the spec: MultitrackModel::rowCount is missing from the
sources; without parent it is the number of tracks (track enumeration). -/
def MultitrackModel.rowCount (m : MultitrackModel) : Nat :=
  m.trackList.length

/-- Modelled from the spec: MultitrackModel::rowCount for the parent
`m_model.index(y)` is the number of clips of track `y` (clip enumeration). -/
def MultitrackModel.clipRowCount (m : MultitrackModel) (y : Nat) : Nat :=
  match m.trackList.get? y with
  | some t => t.clips.length
  | none => 0

/-- The list built by the two loops of selectAll. -/
def allNonBlankClips (d : TimelineDock) : List QPoint :=
  (List.range d.m_model.rowCount).flatMap fun (y : Nat) =>
    (List.range (d.m_model.clipRowCount y)).filterMap fun (x : Nat) =>
      if !isBlank d y x then some (QPoint.mk x y) else none

/-- TimelineDock::selectAll -/
def selectAll (d : TimelineDock) : Except Fault TimelineDock :=
  setSelection d (allNonBlankClips d) (-1) false

/-- TimelineDock::setSelectionFromJS; the QVariantList is the list of its points. -/
def setSelectionFromJS (d : TimelineDock) (list : List QPoint) : Except Fault TimelineDock :=
  setSelection d (list.filter fun p => !isBlank d p.y p.x) (-1) false

/-- TimelineDock::saveAndClearSelection -/
def saveAndClearSelection (d : TimelineDock) : TimelineDock :=
  let d := { d with m_savedSelection := some d.m_selection }
  let d := { d with m_selection := ⟨[], -1, false⟩ }
  d.emit .selectionChanged

/-- TimelineDock::restoreSelection -/
def restoreSelection (d : TimelineDock) : Except Fault TimelineDock :=
  match d.m_savedSelection with
  | none => .error .indeterminateValue
  | some saved =>
    let d := { d with m_selection := saved }
    emitSelectedFromSelection (d.emit .selectionChanged)

/-- TimelineDock::selectTrackHead; a track of the list has a valid producer. -/
def selectTrackHead (d : TimelineDock) (trackIndex : Int) : Except Fault TimelineDock :=
  if trackIndex ≥ 0 then do
    let d ← setSelection d [] trackIndex false
    let _ ← trackAt d.m_model trackIndex
    pure (d.emit (.selected (some (.track trackIndex))))
  else pure d

/-- TimelineDock::clearSelectionIfInvalid -/
def clearSelectionIfInvalid (d : TimelineDock) : Except Fault TimelineDock := do
  let count := clipCount d (currentTrack d)
  let newSelection := (selection d).filter fun clip => decide (¬ clip.x ≥ count)
  let d ← setSelection d newSelection (-1) false
  pure (d.emit .selectionChanged)

/-- TimelineDock::onInserted -/
def onInserted (d : TimelineDock) (trackIndex clipIndex : Int) : Except Fault TimelineDock :=
  setSelection d [⟨clipIndex, trackIndex⟩] (-1) false

/-- TimelineDock::onOverWritten -/
def onOverWritten (d : TimelineDock) (trackIndex clipIndex : Int) : Except Fault TimelineDock :=
  setSelection d [⟨clipIndex, trackIndex⟩] (-1) false

/-! ## Edit coordinator -/

/-- The call `MAIN.undoStack()->push(command)` for a command whose `redo()` is
left to the collaborators. -/
def TimelineDock.pushCommand (ops : Collaborators) (d : TimelineDock) (command : UndoCommand) :
    TimelineDock :=
  { d with undoStack := d.undoStack ++ [UndoStackCall.push command],
           m_model := ops.redo command d.m_model }

/-- The text `MLT.XML(MLT.isClip()? nullptr : MLT.savedProducer())`. -/
def sourceXml (ops : Collaborators) (d : TimelineDock) : Xml :=
  if ops.isClip then .source
  else
    match d.savedProducer with
    | some p => .saved p
    | none => .source

/-- TimelineDock::append -/
def append (ops : Collaborators) (d : TimelineDock) (trackIndex : Int) :
    Except Fault TimelineDock :=
  let trackIndex := if trackIndex < 0 then currentTrack d else trackIndex
  if isTrackLocked d trackIndex then pure (pulseLockButtonOnTrack d trackIndex)
  else if ops.isSourceClipMyProject then pure d
  else if ops.isSeekableClip ∨ d.savedProducer.isSome then
    selectClipUnderPlayhead ops
      (d.pushCommand ops (UndoCommand.AppendCommand trackIndex (sourceXml ops d)))
  else if !ops.isSeekableClip then pure (d.emit (.showStatusMessage .nonSeekable))
  else pure d

/-- The position that insert and overwrite hand to their command. -/
def insertPosition (d : TimelineDock) (position : Int) : Int :=
  let position := if position < 0 then d.m_position else position
  if d.m_model.trackList.length = 0 then 0 else position

/-- The text `xmlToUse` of insert and overwrite; `xml = none` is the empty text. -/
def xmlToUse (ops : Collaborators) (d : TimelineDock) (xml : Option Nat) : Xml :=
  match xml with
  | some id => .text id
  | none => sourceXml ops d

/-- TimelineDock::insert -/
def insert (ops : Collaborators) (d : TimelineDock) (trackIndex position : Int)
    (xml : Option Nat) (seek : Bool) : Except Fault TimelineDock :=
  let trackIndex := if trackIndex < 0 then currentTrack d else trackIndex
  if isTrackLocked d trackIndex then pure (pulseLockButtonOnTrack d trackIndex)
  else if ops.isSourceClipMyProject then pure d
  else if ops.isSeekableClip ∨ d.savedProducer.isSome ∨ xml.isSome then
    pure (d.pushCommand ops
      (UndoCommand.InsertCommand trackIndex (insertPosition d position) (xmlToUse ops d xml) seek))
  else if !ops.isSeekableClip then pure (d.emit (.showStatusMessage .nonSeekable))
  else pure d

/-- TimelineDock::overwrite -/
def overwrite (ops : Collaborators) (d : TimelineDock) (trackIndex position : Int)
    (xml : Option Nat) (seek : Bool) : Except Fault TimelineDock :=
  let trackIndex := if trackIndex < 0 then currentTrack d else trackIndex
  if isTrackLocked d trackIndex then pure (pulseLockButtonOnTrack d trackIndex)
  else if ops.isSourceClipMyProject then pure d
  else if ops.isSeekableClip ∨ d.savedProducer.isSome ∨ xml.isSome then
    pure (d.pushCommand ops
      (UndoCommand.OverwriteCommand trackIndex (insertPosition d position) (xmlToUse ops d xml)
        seek))
  else if !ops.isSeekableClip then pure (d.emit (.showStatusMessage .nonSeekable))
  else pure d

/-- TimelineDock::appendFromPlaylist -/
def appendFromPlaylist (ops : Collaborators) (d : TimelineDock) (playlist : List ClipInfo) :
    Except Fault TimelineDock :=
  let trackIndex := currentTrack d
  if isTrackLocked d trackIndex then pure (pulseLockButtonOnTrack d trackIndex)
  else
    selectClipUnderPlayhead ops
      { d with m_model := ops.appendFromPlaylist d.m_model playlist trackIndex }

/-- The test `clip->is_blank()` of lift on the producer object made from
`info->producer`; MLT answers true for a null producer. -/
def producerIsBlank (producer : Option Producer) : Bool :=
  match producer with
  | some p => p.is_blank
  | none => true

/-- TimelineDock::lift -/
def lift (ops : Collaborators) (d : TimelineDock) (trackIndex clipIndex : Int) :
    Except Fault TimelineDock :=
  if d.m_model.trackList.length = 0 then pure d
  else if isTrackLocked d trackIndex then pure (pulseLockButtonOnTrack d trackIndex)
  else do
    let clip ← producerForClip d trackIndex clipIndex
    match clip with
    | some xml =>
      if producerIsBlank xml then pure d
      else
        let d := d.pushCommand ops (UndoCommand.LiftCommand trackIndex clipIndex xml)
        setSelection d [] (-1) false
    | none => pure d

/-- TimelineDock::fadeIn -/
def fadeIn (ops : Collaborators) (d : TimelineDock) (trackIndex clipIndex duration : Int) :
    TimelineDock :=
  if isTrackLocked d trackIndex then pulseLockButtonOnTrack d trackIndex
  else if duration < 0 then d
  else
    (d.pushCommand ops (UndoCommand.FadeInCommand trackIndex clipIndex duration)).emit
      (.fadeInChanged duration)

/-- TimelineDock::fadeOut -/
def fadeOut (ops : Collaborators) (d : TimelineDock) (trackIndex clipIndex duration : Int) :
    TimelineDock :=
  if isTrackLocked d trackIndex then pulseLockButtonOnTrack d trackIndex
  else if duration < 0 then d
  else
    (d.pushCommand ops (UndoCommand.FadeOutCommand trackIndex clipIndex duration)).emit
      (.fadeOutChanged duration)

/-- Modelled from the spec: MultitrackModel::isTransition is missing from the
sources; a transition is a model element addressable as a clip-like index, told
by the property `kShotcutTransitionProperty` of its producer. -/
def Track.isTransition (t : Track) (clipIndex : Int) : Bool :=
  match t.clip_info clipIndex with
  | some i =>
    match i.producer with
    | some p => p.transition
    | none => false
  | none => false

/-- The coordinate that splitClip works on: the given one, or the answer of
chooseClipAtPosition when one of the two indices is negative. -/
def splitTarget (ops : Collaborators) (d : TimelineDock) (trackIndex clipIndex : Int) :
    Int × Int :=
  if trackIndex < 0 ∨ clipIndex < 0 then
    chooseClipAtPosition ops d d.m_position trackIndex clipIndex
  else (trackIndex, clipIndex)

/-- TimelineDock::splitClip -/
def splitClip (ops : Collaborators) (d : TimelineDock) (trackIndex clipIndex : Int) :
    Except Fault TimelineDock :=
  let r := splitTarget ops d trackIndex clipIndex
  let trackIndex := r.1
  let clipIndex := r.2
  if trackIndex < 0 ∨ clipIndex < 0 then pure d
  else
    let d := setCurrentTrack d trackIndex
    if clipIndex ≥ 0 ∧ trackIndex ≥ 0 then do
      let track ← trackAt d.m_model trackIndex
      if !track.isTransition clipIndex then do
        let info ← getClipInfo d trackIndex clipIndex
        match info with
        | some i =>
          if d.m_position > i.start ∧ d.m_position < i.start + i.frame_count then
            pure (d.pushCommand ops (UndoCommand.SplitCommand trackIndex clipIndex d.m_position))
          else pure d
        | none => pure d
      else pure (d.emit (.showStatusMessage .cannotSplitTransition))
    else pure d

/-- TimelineDock::detachAudio -/
def detachAudio (ops : Collaborators) (d : TimelineDock) (trackIndex clipIndex : Int) :
    Except Fault TimelineDock :=
  if d.m_model.trackList.length = 0 then pure d
  else do
    let info ← getClipInfo d trackIndex clipIndex
    match info with
    | some i =>
      match i.producer with
      | some p =>
        match p.audio_index with
        | some a =>
          if p.is_valid ∧ !p.is_blank ∧ a ≥ 0 then
            pure (d.pushCommand ops (UndoCommand.DetachAudioCommand trackIndex clipIndex i.start
              (Xml.cut p i.frame_in i.frame_out)))
          else pure d
        | none => pure d
      | none => pure d
    | none => pure d

/-- TimelineDock::mergeClipWithNext; the Boolean is the value returned. -/
def mergeClipWithNext (ops : Collaborators) (d : TimelineDock) (trackIndex clipIndex : Int)
    (dryrun : Bool) : Bool × TimelineDock :=
  if dryrun then (ops.mergeClipWithNextDryRun d.m_model trackIndex clipIndex, d)
  else (true, d.pushCommand ops (UndoCommand.MergeCommand trackIndex clipIndex))

/-- The calls `if (m_updateCommand) m_updateCommand->setPosition(...)` of moveClip. -/
def moveUpdateCommand (ops : Collaborators) (d : TimelineDock) (toTrack clipIndex position : Int) :
    TimelineDock :=
  match d.m_updateCommand with
  | some u => { d with m_updateCommand := some (ops.setPosition u toTrack clipIndex position) }
  | none => d

/-- TimelineDock::moveClip; the Boolean is the value returned.  The signals
clipMoved and transitionAdded reach their slots through the event queue. -/
def moveClip (ops : Collaborators) (d : TimelineDock)
    (fromTrack toTrack clipIndex position : Int) (ripple : Bool) : Bool × TimelineDock :=
  if ops.moveClipValid d.m_model fromTrack toTrack clipIndex position ripple then
    (true, moveUpdateCommand ops
      (d.emit (.clipMoved fromTrack toTrack clipIndex position ripple)) toTrack clipIndex position)
  else if ops.addTransitionValid d.m_model fromTrack toTrack clipIndex position then
    (true, moveUpdateCommand ops
      (d.emit (.transitionAdded fromTrack clipIndex position ripple)) toTrack clipIndex position)
  else (false, d)

/-! ## Sample projects of the edit coordinator -/

/-- A dock on two tracks: track 0 holds a blank and the clips A, B (producers
1, 2), track 1 holds the clip C (producer 3) and a blank. -/
def selectAllDock : TimelineDock :=
  { m_model := sampleModel
      [{ clips := [sampleBlank 10 0, sampleClip 1 100, sampleClip 2 200] },
       { clips := [sampleClip 3 0, sampleBlank 11 100] }],
    rootObject := some { currentTrack := 0 } }

/-- A dock on one track that starts with a blank, the playhead inside the blank. -/
def blankUnderPlayheadDock : TimelineDock :=
  { m_model := sampleModel [{ clips := [sampleBlank 10 0, sampleClip 1 100] }],
    rootObject := some { currentTrack := 0 },
    m_position := 50 }

/-- A dock on one track without clips, the playhead at frame 20. -/
def emptyTrackDock : TimelineDock :=
  { m_model := sampleModel [{ clips := [] }],
    rootObject := some { currentTrack := 0 },
    m_position := 20 }

/-! ## Selection controller, as the specification words it -/

/-- Ascending (track, clip) order of two coordinates: the first lies on a lower
track, or on the same track at a lower clip index. -/
def QPoint.before (p q : QPoint) : Prop :=
  p.y < q.y ∨ (p.y = q.y ∧ p.x < q.x)

instance (p q : QPoint) : Decidable (p.before q) := by
  unfold QPoint.before; infer_instance

/-- Whether a coordinate designates a clip slot of the model that is not blank. -/
def designatesNonBlank (d : TimelineDock) (p : QPoint) : Bool :=
  match d.m_model.track? p.y with
  | none => false
  | some t => (t.clip_info p.x).isSome && !isBlank d p.y p.x

/-! ## Clip resolution policy, as the specification words it -/

/-- The position maps to a non-blank clip on a track: the index that the
lookup gives, when the track holds a clip at that index and the clip is not
blank. -/
def nonBlankClipAt (ops : Collaborators) (d : TimelineDock) (trackIndex position : Int) :
    Option Int :=
  let clipIndex := clipIndexAtPosition ops d trackIndex position
  if designatesNonBlank d ⟨clipIndex, trackIndex⟩ then some clipIndex else none

/-- Rule (a): the hint track, when it is given, unlocked, and the position maps
to a non-blank clip there. -/
def hintHit (ops : Collaborators) (d : TimelineDock) (position hint : Int) : Option (Int × Int) :=
  if hint ≠ -1 ∧ isTrackLocked d hint = false then
    (nonBlankClipAt ops d hint position).map fun c => (hint, c)
  else none

/-- Rule (b): the active track, when it is unlocked and the clip index, clamped
to the last clip, is a non-blank clip. -/
def activeHit (ops : Collaborators) (d : TimelineDock) (position : Int) : Option (Int × Int) :=
  let c := min (clipIndexAtPosition ops d (currentTrack d) position)
    (clipCount d (currentTrack d) - 1)
  if isTrackLocked d (currentTrack d) = false ∧ designatesNonBlank d ⟨c, currentTrack d⟩ = true
  then some (currentTrack d, c) else none

/-- Rule (c) for one track: a track other than the active one that is unlocked
and has a non-blank clip at the position. -/
def otherHit (ops : Collaborators) (d : TimelineDock) (position : Int) (t : Nat) :
    Option (Int × Int) :=
  if (t : Int) ≠ currentTrack d ∧ isTrackLocked d t = false then
    (nonBlankClipAt ops d t position).map fun c => ((t : Int), c)
  else none

/-- The clip resolution policy of section 4.2: (a), else (b), else the hit of
(c) on the smallest-index track that has one, else (-1, -1). -/
def chooseClipAtPositionSpec (ops : Collaborators) (d : TimelineDock) (position hint : Int) :
    Int × Int :=
  match hintHit ops d position hint with
  | some r => r
  | none =>
    match activeHit ops d position with
    | some r => r
    | none =>
      match (List.range d.m_model.trackList.length).findSome? (otherHit ops d position) with
      | some r => r
      | none => (-1, -1)

/-- A dock on three unlocked tracks, `[A, blank, X]`, `[B]` and `[C, D]`, of
100 frames an entry; track 0 is the active track. -/
def scanDock : TimelineDock :=
  { m_model := sampleModel [{ clips := [sampleClip 1 0, sampleBlank 2 100, sampleClip 3 200] },
                            { clips := [sampleClip 4 0] },
                            { clips := [sampleClip 5 0, sampleClip 6 100] }],
    rootObject := some { currentTrack := 0 } }

/-- The track that emitSelectedFromSelection looks at
(`selection().isEmpty()? currentTrack() : selection().first().y()`). -/
def firstSelectedTrack (d : TimelineDock) : Int :=
  if (selection d).isEmpty then currentTrack d else ((selection d).head?.map QPoint.y).getD 0

/-- A dock whose model has no tractor, with the coordinate (clip 3, track 0)
selected. -/
def tractorLessDock : TimelineDock :=
  { m_model := { tractor := none }, rootObject := some { currentTrack := 0 },
    m_selection := { selectedClips := [⟨3, 0⟩] } }

/-- The clip index that emitSelectedFromSelection looks at
(`selection().isEmpty()? 0 : selection().first().x()`). -/
def firstSelectedClip (d : TimelineDock) : Int :=
  if (selection d).isEmpty then 0 else ((selection d).head?.map QPoint.x).getD 0

/-- The producer that emitSelectedFromSelection announces on a model with
tracks: the producer of the clip at the coordinate it looks at, when the
coordinate designates a clip and the producer of the clip is valid. -/
def announcedProducer (d : TimelineDock) : Option Producer :=
  match d.m_model.track? (firstSelectedTrack d) with
  | none => none
  | some t =>
    match t.clip_info (firstSelectedClip d) with
    | some i =>
      match i.producer with
      | some p => if p.is_valid then some p else none
      | none => none
    | none => none

/-- The invariant of a Selection: a multitrack selection holds no clip and no
track. -/
def SelectionInvariant (s : Selection) : Prop :=
  s.isMultitrackSelected = true → s.selectedClips = [] ∧ s.selectedTrack = -1

instance (s : Selection) : Decidable (SelectionInvariant s) := by
  unfold SelectionInvariant; infer_instance

/-- The selection operations of the dock, with their arguments. -/
inductive SelectionOp where
  | setSelectionFromJS (list : List QPoint)
  | selectClipUnderPlayhead
  | selectTrackHead (trackIndex : Int)
  | selectMultitrack
  | selectAll
  | saveAndClearSelection
  | restoreSelection
  | clearSelectionIfInvalid
  | onRowsInserted (parentRow first last : Int)
  | onRowsRemoved (parentRow first last : Int)
  | onInserted (trackIndex clipIndex : Int)
  | onOverWritten (trackIndex clipIndex : Int)
  deriving DecidableEq, Repr

/-- The call of a selection operation on the dock. -/
def SelectionOp.run (ops : Collaborators) (d : TimelineDock) :
    SelectionOp → Except Fault TimelineDock
  | .setSelectionFromJS list => Shotcut.setSelectionFromJS d list
  | .selectClipUnderPlayhead => Shotcut.selectClipUnderPlayhead ops d
  | .selectTrackHead trackIndex => Shotcut.selectTrackHead d trackIndex
  | .selectMultitrack => Shotcut.selectMultitrack d
  | .selectAll => Shotcut.selectAll d
  | .saveAndClearSelection => pure (Shotcut.saveAndClearSelection d)
  | .restoreSelection => Shotcut.restoreSelection d
  | .clearSelectionIfInvalid => Shotcut.clearSelectionIfInvalid d
  | .onRowsInserted parentRow first last => Shotcut.onRowsInserted d parentRow first last
  | .onRowsRemoved parentRow first last => Shotcut.onRowsRemoved d parentRow first last
  | .onInserted trackIndex clipIndex => Shotcut.onInserted d trackIndex clipIndex
  | .onOverWritten trackIndex clipIndex => Shotcut.onOverWritten d trackIndex clipIndex

/-- The selection members as the constructor of the dock leaves them: an empty
clip list, `selectedTrack = -1`, `isMultitrackSelected = false`, and nothing
written to `m_savedSelection`. -/
def TimelineDock.initialSelection (d : TimelineDock) : Prop :=
  d.m_selection = ⟨[], -1, false⟩ ∧ d.m_savedSelection = none

instance (d : TimelineDock) : Decidable d.initialSelection := by
  unfold TimelineDock.initialSelection; infer_instance

/-- The states reachable from an initial state: through a selection operation
that runs to its end, whatever the collaborators answer, and through any other
change of the dock (edits of the model, moves of the playhead, of the current
track, ...) that leaves `m_selection` and `m_savedSelection` alone. -/
inductive Reachable : TimelineDock → Prop where
  | initial (d : TimelineDock) (h : d.initialSelection) : Reachable d
  | step (ops : Collaborators) (d d1 : TimelineDock) (op : SelectionOp)
      (h : Reachable d) (hrun : op.run ops d = .ok d1) : Reachable d1
  | environment (d d1 : TimelineDock) (h : Reachable d)
      (hsel : d1.m_selection = d.m_selection)
      (hsaved : d1.m_savedSelection = d.m_savedSelection) : Reachable d1

/-- The dock `trackLessDock` after a call of selectMultitrack. -/
def multitrackSelectedDock : TimelineDock :=
  { trackLessDock with
    m_selection := ⟨[], -1, true⟩,
    emitted := [Event.selectionChanged, Event.selected none, Event.selectMultitrack,
      Event.selected (some SelectedProducer.tractor)] }

/-! ## Edit coordinator, as the specification words it -/

/-- The first step of the skeleton of an edit operation: the target track is
the given track, or the active track when the given index is negative. -/
def lockTarget (d : TimelineDock) (trackIndex : Int) : Int :=
  if trackIndex < 0 then currentTrack d else trackIndex

/-- The dock `d1` is the dock `d` after an operation aborted on the locked track
`t`: no undo command pushed, the model and the selection as they were, and one
track-locked notice raised for `t` (the lock button pulsed, the status text
shown). -/
def AbortedOnLock (d d1 : TimelineDock) (t : Int) : Prop :=
  d1.undoStack = d.undoStack ∧ d1.m_model = d.m_model ∧ d1.m_selection = d.m_selection ∧
    d1.emitted = d.emitted ++
      [Event.pulseLockButtonOnTrack t, Event.showStatusMessage StatusMessage.trackLocked]

instance (d d1 : TimelineDock) (t : Int) : Decidable (AbortedOnLock d d1 t) := by
  unfold AbortedOnLock; infer_instance

/-- A dock on one locked track with two clips, the playhead inside the first. -/
def lockedActiveDock : TimelineDock :=
  { m_model := sampleModel [{ clips := [sampleClip 1 0, sampleClip 2 100], locked := true }],
    rootObject := some { currentTrack := 0 },
    m_position := 50 }

/-- A clip of 100 frames with producer `id` and an audio stream (`audio_index`
0), placed at `start`. -/
def sampleAudioClip (id : Nat) (start : Int) : ClipInfo :=
  { producer := some { id := id, audio_index := some 0 }, start := start, frame_in := 0,
    frame_out := 99, frame_count := 100, length := 100 }

/-- A dock on one locked track with two clips, the first with an audio stream,
the playhead inside the first. -/
def lockedAudioDock : TimelineDock :=
  { m_model := sampleModel [{ clips := [sampleAudioClip 1 0, sampleClip 2 100], locked := true }],
    rootObject := some { currentTrack := 0 },
    m_position := 50 }

/-- Whether an event is part of the track-locked notice of
pulseLockButtonOnTrack. -/
def Event.isLockNotice : Event → Bool
  | .pulseLockButtonOnTrack _ => true
  | .showStatusMessage .trackLocked => true
  | _ => false

/-- The events that `d1` has emitted after those of `d`. -/
def newEvents (d d1 : TimelineDock) : List Event :=
  d1.emitted.drop d.emitted.length

/-- From `d` to `d1` events were only added, and no track-locked notice is
among them. -/
def NoLockNotice (d d1 : TimelineDock) : Prop :=
  d.emitted <+: d1.emitted ∧ ∀ e ∈ newEvents d d1, e.isLockNotice = false

instance (d d1 : TimelineDock) : Decidable (NoLockNotice d d1) := by
  unfold NoLockNotice; infer_instance

/-- The outcome of splitClip on the clip `clipIndex` of the track `tr` at index
`trackIndex`, once the coordinate is resolved: a notice on a transition, a
split command when the playhead is strictly inside the clip, else nothing. -/
def splitResolved (ops : Collaborators) (d : TimelineDock) (tr : Track)
    (trackIndex clipIndex : Int) : TimelineDock :=
  if tr.isTransition clipIndex then
    (setCurrentTrack d trackIndex).emit (.showStatusMessage .cannotSplitTransition)
  else
    match tr.clip_info clipIndex with
    | some i =>
      if d.m_position > i.start ∧ d.m_position < i.start + i.frame_count then
        (setCurrentTrack d trackIndex).pushCommand ops
          (UndoCommand.SplitCommand trackIndex clipIndex d.m_position)
      else setCurrentTrack d trackIndex
    | none => setCurrentTrack d trackIndex

/-- A transition producer between two clips. -/
def sampleTransition (id : Nat) (start : Int) : ClipInfo :=
  { producer := some { id := id, transition := true }, start := start, frame_in := 0,
    frame_out := 24, frame_count := 25, length := 25 }

/-- A dock on one track that holds clip A, a transition and clip B, the
playhead inside the transition. -/
def transitionDock : TimelineDock :=
  { m_model := sampleModel [{ clips := [sampleClip 1 0, sampleTransition 5 100, sampleClip 2 125] }],
    rootObject := some { currentTrack := 0 },
    m_position := 110 }

/-- Collaborators with a source that is not seekable. -/
def nonSeekableOps : Collaborators :=
  { sampleOps with isSeekableClip := false }

/-- The rule of the specification for a split: a clip is resolved, it is not a
transition, and the playhead lies strictly inside its span, `start < playhead <
start + length`, the length being that of the clip on the track
(`frame_count`). -/
def splitAllowed (ops : Collaborators) (d : TimelineDock) (trackIndex clipIndex : Int) : Bool :=
  match d.m_model.track? (splitTarget ops d trackIndex clipIndex).1 with
  | none => false
  | some tr =>
    match tr.clip_info (splitTarget ops d trackIndex clipIndex).2 with
    | none => false
    | some i =>
      !tr.isTransition (splitTarget ops d trackIndex clipIndex).2 &&
        decide (i.start < d.m_position ∧ d.m_position < i.start + i.frame_count)

/-- The dock `sampleDock` with the playhead at `position`. -/
def sampleDockAt (position : Int) : TimelineDock :=
  { sampleDock with m_position := position }

/-! ## Trim session, as the specification words it -/

/-- The strict priority order of the branches of a trim call. -/
def TrimBranch.order : List TrimBranch :=
  [.createTransition, .removeTransition, .resizeTransition, .plainTrim]

/-- Whether the gesture is a ripple trim. -/
def TrimCall.ripple : TrimCall → Bool
  | .trimClipIn _ _ _ _ ripple => ripple
  | .trimClipOut _ _ _ ripple => ripple

/-- The track of a trim call. -/
def TrimCall.trackIndex : TrimCall → Int
  | .trimClipIn trackIndex _ _ _ _ => trackIndex
  | .trimClipOut trackIndex _ _ _ => trackIndex

/-- Whether a branch is applicable to a trim call on model `m`: the three
transition branches ask for a gesture that is not a ripple trim and for the
validity predicate of the model; the plain trim asks for its validity
predicate. -/
def TrimCall.applicable (ops : Collaborators) (m : MultitrackModel) :
    TrimCall → TrimBranch → Bool
  | .trimClipIn t c _ delta ripple, .createTransition =>
    !ripple && ops.addTransitionByTrimInValid m t c delta
  | .trimClipIn t c _ delta ripple, .removeTransition =>
    !ripple && ops.removeTransitionByTrimInValid m t c delta
  | .trimClipIn t c _ delta ripple, .resizeTransition =>
    !ripple && ops.trimTransitionOutValid m t c delta
  | .trimClipIn t c _ delta ripple, .plainTrim => ops.trimClipInValid m t c delta ripple
  | .trimClipOut t c delta ripple, .createTransition =>
    !ripple && ops.addTransitionByTrimOutValid m t c delta
  | .trimClipOut t c delta ripple, .removeTransition =>
    !ripple && ops.removeTransitionByTrimOutValid m t c delta
  | .trimClipOut t c delta ripple, .resizeTransition =>
    !ripple && ops.trimTransitionInValid m t c delta
  | .trimClipOut t c delta ripple, .plainTrim => ops.trimClipOutValid m t c delta ripple

/-- The first applicable branch in the strict priority order. -/
def TrimCall.firstApplicable (ops : Collaborators) (m : MultitrackModel) (call : TrimCall) :
    Option TrimBranch :=
  TrimBranch.order.find? (call.applicable ops m)

/-- The model after the mutation of one branch of a trim call. -/
def TrimCall.mutation (ops : Collaborators) (m : MultitrackModel) :
    TrimCall → TrimBranch → MultitrackModel
  | .trimClipIn t c _ delta _, .createTransition => ops.addTransitionByTrimIn m t c delta
  | .trimClipIn t c _ _ _, .removeTransition =>
    (ops.trimClipIn (ops.liftClip m t (c - 1)) t c (-(ops.durationRole m t (c - 1))) false).2
  | .trimClipIn t c _ delta _, .resizeTransition => ops.trimTransitionOut m t c delta
  | .trimClipIn t c _ delta ripple, .plainTrim => (ops.trimClipIn m t c delta ripple).2
  | .trimClipOut t c delta _, .createTransition => ops.addTransitionByTrimOut m t c delta
  | .trimClipOut t c _ _, .removeTransition =>
    ops.trimClipOut (ops.liftClip m t (c + 1)) t c (-(ops.durationRole m t (c + 1))) false
  | .trimClipOut t c delta _, .resizeTransition => ops.trimTransitionIn m t c delta
  | .trimClipOut t c delta ripple, .plainTrim => ops.trimClipOut m t c delta ripple

/-- The two counters after a branch took the delta: the create-transition
branch adds it to the transition counter, the other branches to the trim
counter. -/
def TrimBranch.counters (transitionDelta trimDelta delta : Int) : TrimBranch → Int × Int
  | .createTransition => (transitionDelta + delta, trimDelta)
  | _ => (transitionDelta, trimDelta + delta)

/-- Sample collaborators that reject a plain trim of 50 frames or more. -/
def strictOps : Collaborators :=
  { sampleOps with
    trimClipInValid := fun _ _ _ delta _ => decide (delta < 50)
    trimClipOutValid := fun _ _ _ delta _ => decide (delta < 50) }

/-- A dock on two tracks, `[A]` and `[B, C, D]`, with the given active track and
selected clips. -/
def unevenDock (activeTrack : Int) (selectedClips : List QPoint) : TimelineDock :=
  { m_model := sampleModel [{ clips := [sampleClip 1 0] },
                            { clips := [sampleClip 2 0, sampleClip 3 100, sampleClip 4 200] }],
    rootObject := some { currentTrack := activeTrack },
    m_selection := { selectedClips := selectedClips } }

/-! ## Lifting the selection -/

/-- The loop of liftSelection over the clips of the list that `selection()`
answered, with the list `clipsRemoved` built so far. -/
def liftClips (ops : Collaborators) :
    TimelineDock → List QPoint → List QPoint → Except Fault TimelineDock
  | d, [], _ => pure d
  | d, clip :: rest, clipsRemoved => do
    let adjustment := removeAdjustment clip clipsRemoved
    let clip : QPoint := ⟨clip.x + adjustment, clip.y⟩
    -- Blanks will be consolidated by the model.
    let clipsRemoved :=
      if isBlank d clip.y (clip.x - 1) then clipsRemoved ++ [clip] else clipsRemoved
    let clipsRemoved :=
      if isBlank d clip.y (clip.x + 1) then clipsRemoved ++ [clip] else clipsRemoved
    let d ← lift ops d clip.y clip.x
    liftClips ops d rest clipsRemoved

/-- The part of liftSelection that follows the lookup of a clip under the
playhead. -/
def liftSelected (ops : Collaborators) (d : TimelineDock) : Except Fault TimelineDock :=
  if (selection d).isEmpty then pure d
  else do
    let n := (selection d).length
    let d0 :=
      if n > 1 then { d with undoStack := d.undoStack ++ [UndoStackCall.beginLiftMacro n] } else d
    let d1 ← liftClips ops d0 (selection d) []
    pure (if n > 1 then { d1 with undoStack := d1.undoStack ++ [UndoStackCall.endMacro] } else d1)

/-- TimelineDock::liftSelection -/
def liftSelection (ops : Collaborators) (d : TimelineDock) : Except Fault TimelineDock :=
  if isTrackLocked d (currentTrack d) then
    pure (pulseLockButtonOnTrack d (currentTrack d))
  else if (selection d).isEmpty then do
    let d ← selectClipUnderPlayhead ops d
    liftSelected ops d
  else liftSelected ops d

/-- Whether the entry of a playlist is a blank. -/
def ClipInfo.isBlank (i : ClipInfo) : Bool :=
  match i.producer with
  | some p => p.is_blank
  | none => false

/-- Adjacent blanks of a clip sequence merged into one blank each. -/
def coalesceBlanks (clips : List ClipInfo) : List ClipInfo :=
  clips.foldr (fun a acc =>
    match acc with
    | b :: rest =>
      if a.isBlank ∧ b.isBlank then
        { a with frame_out := a.frame_out + b.frame_count,
                 frame_count := a.frame_count + b.frame_count,
                 length := a.length + b.length } :: rest
      else a :: acc
    | [] => [a]) []

/-- Modelled from the spec: MultitrackModel::liftClip and the `redo()` of
Timeline::LiftCommand are missing from the sources; lifting a clip (remove,
leave gap) replaces it by a blank of the same span, and adjacent blanks
coalesce into one. -/
def MultitrackModel.liftClip (m : MultitrackModel) (trackIndex clipIndex : Int) :
    MultitrackModel :=
  let toBlank : ClipInfo → ClipInfo :=
    fun c => { c with producer := some { id := 0, is_blank := true } }
  let liftIn : Track → Track :=
    fun tr => { tr with clips := coalesceBlanks (List.modify toBlank clipIndex.toNat tr.clips) }
  if 0 ≤ trackIndex ∧ 0 ≤ clipIndex then
    { tractor := m.tractor.map fun t =>
        { t with tracks := List.modify liftIn trackIndex.toNat t.tracks } }
  else m

/-- Sample collaborators whose LiftCommand lifts the clip as the specification
says. -/
def liftOps : Collaborators :=
  { sampleOps with
    redo := fun command m =>
      match command with
      | .LiftCommand trackIndex clipIndex _ => m.liftClip trackIndex clipIndex
      | _ => m }

/-- A dock on the track `[blank, A, blank, L, R, blank, Z]` (producers 1, 2, 3
and 4 for A, L, R and Z) with the given clips selected. -/
def liftDock (selectedClips : List QPoint) : TimelineDock :=
  { m_model := sampleModel [{ clips := [sampleBlank 10 0, sampleClip 1 100, sampleBlank 11 200,
      sampleClip 2 300, sampleClip 3 400, sampleBlank 12 500, sampleClip 4 600] }],
    rootObject := some { currentTrack := 0 },
    m_selection := { selectedClips := selectedClips } }

/-- The producer identities of the clips of track 0 that are not blank. -/
def clipsOfTrack0 (d : TimelineDock) : List Nat :=
  match d.m_model.trackList.head? with
  | some tr => tr.clips.filterMap fun i => if i.isBlank then none else i.producer.map Producer.id
  | none => []

/-! ## Image producer widget -/

/-- Status bar texts of the widget. -/
inductive WidgetStatus where
  /-- the text "Getting length of image sequence..." -/
  | gettingLength
  /-- the text "Reloading image sequence..." -/
  | reloading
  deriving DecidableEq, Repr

/-- What the widget emits or hands over, in order. -/
inductive WidgetEvent where
  /-- call `MAIN.showStatusMessage(text)` -/
  | showStatusMessage (message : WidgetStatus)
  /-- call `QCoreApplication::processEvents()` -/
  | processEvents
  /-- signal `producerChanged(p)` -/
  | producerChanged (p : Producer)
  /-- the call `reopen(p)`, which hands the new producer to the MLT controller
  and to the widget -/
  | reopen (p : Producer)
  deriving DecidableEq, Repr

/-- The members of ImageProducerWidget that the embedded functions touch:
the producer `m_producer` points to (`none` for a null pointer), the values of
the spin boxes, and the log of emitted events.  A spin box is taken to hold
any value handed to `setValue`. -/
structure ImageProducerWidget where
  m_producer : Option Producer
  /-- value of `ui->durationSpinBox` -/
  durationSpinBox : Int := 0
  /-- value of `ui->repeatSpinBox` -/
  repeatSpinBox : Int := 1
  /-- whether `ui->repeatSpinBox` is enabled -/
  repeatSpinBoxEnabled : Bool := false
  emitted : List WidgetEvent := []
  deriving DecidableEq, Repr

/-- The library calls of the widget: Qt text and file functions, the MLT
producer factory and the settings. -/
structure WidgetCollaborators where
  /-- the producer made by `new Mlt::Producer(profile, resource)` -/
  newMltProducer : Option (List Char) → Producer
  /-- the second producer after `Mlt::Controller::copyFilters(first, second)` -/
  copyFilters : Producer → Producer → Producer
  /-- result of `QFileInfo(resource).fileName()` -/
  fileName : List Char → List Char
  /-- result of `QFileInfo(resource).path()` -/
  path : List Char → List Char
  /-- result of `QChar::isDigit()` -/
  isDigit : Char → Bool
  /-- result of `QString::toLatin1()` -/
  toLatin1 : List Char → List Char
  /-- result of `QString::toInt()` -/
  toInt : List Char → Int
  /-- the value of `i` at the end of the loop "Count the number of consecutive
  files" started at `j`: the first number from `j` on for which
  `QFile::exists(resource.arg(i, count, 10, QChar('0')))` is false -/
  firstMissing : List Char → Int → Nat → Int
  /-- value of `qRound(MLT.profile().fps() * Mlt::kMaxImageDurationSecs)` -/
  maxImageLength : Int
  /-- value of `qRound(MLT.profile().fps() * Settings.imageDuration())` -/
  defaultImageLength : Int

/-- Result of `Mlt::Producer::get_playtime()`. -/
def Producer.get_playtime (p : Producer) : Int :=
  p.outPoint - p.inPoint + 1

/-- ImageProducerWidget::updateDuration; `get_int` of a property that is not
set is 0. -/
def updateDuration (w : ImageProducerWidget) : Except Fault ImageProducerWidget :=
  match w.m_producer with
  | none => .error .nullPointer
  | some p =>
    match p.filterOut with
    | some filterOut => pure { w with durationSpinBox := filterOut - p.filterIn.getD 0 + 1 }
    | none => pure { w with durationSpinBox := p.get_playtime }

/-- Whether a resource text starts with "qimage:" or with "pixbuf:". -/
def hasServicePrefix (resource : List Char) : Bool :=
  "qimage:".toList.isPrefixOf resource || "pixbuf:".toList.isPrefixOf resource

/-- ImageProducerWidget::newProducer for the producer `m` that `m_producer`
points to. -/
def newProducer (ops : WidgetCollaborators) (w : ImageProducerWidget) (m : Producer) : Producer :=
  let p := ops.newMltProducer m.resource
  if p.is_valid then
    let p := if w.durationSpinBox > p.length.getD 0 then { p with length := some w.durationSpinBox }
      else p
    { p with inPoint := 0, outPoint := w.durationSpinBox - 1 }
  else p

/-- The call `p->pass_list(*m_producer, ...)` of recreateProducer: each listed
property that is set in `m` is set in `p`.  A new producer carries no Shotcut
property, so that `kShotcutSequenceProperty` reads in `p` as it reads in `m`. -/
def passList (m p : Producer) : Producer :=
  { p with
    force_aspect_ratio := m.force_aspect_ratio.or p.force_aspect_ratio
    aspectRatioNumerator := m.aspectRatioNumerator.or p.aspectRatioNumerator
    resource := m.resource.or p.resource
    aspectRatioDenominator := m.aspectRatioDenominator.or p.aspectRatioDenominator
    begin := m.begin.or p.begin
    ttl := m.ttl.or p.ttl
    shotcutResource := m.shotcutResource.or p.shotcutResource
    autolength := m.autolength.or p.autolength
    length := m.length.or p.length
    sequence := m.sequence
    playlistIndex := m.playlistIndex.or p.playlistIndex
    comment := m.comment.or p.comment }

/-- The first block of recreateProducer: a resource without "qimage:" or
"pixbuf:" in front gets the service name and a colon in front, when the service
name is not empty. -/
def prefixService (m : Producer) : Producer :=
  let resource := m.resource.getD []
  if !hasServicePrefix resource then
    let serviceName := m.mlt_service.getD []
    if serviceName ≠ [] then { m with resource := some (serviceName ++ ':' :: resource) }
    else m
  else m

/-- The text `resource.mid(resource.indexOf(':') + 1)`. -/
def afterColon (resource : List Char) : List Char :=
  (resource.dropWhile fun c => c != ':').drop 1

/-- The end of recreateProducer and of on_resetButton_clicked: the new producer
goes to the timeline when the old one is a clip of the timeline, else it is
reopened. -/
def handOver (w : ImageProducerWidget) (m p : Producer) : ImageProducerWidget :=
  if m.multitrackItem.isSome then { w with emitted := w.emitted ++ [WidgetEvent.producerChanged p] }
  else { w with emitted := w.emitted ++ [WidgetEvent.reopen p] }

/-- ImageProducerWidget::recreateProducer -/
def recreateProducer (ops : WidgetCollaborators) (w : ImageProducerWidget) :
    Except Fault ImageProducerWidget :=
  match w.m_producer with
  | none => .error .nullPointer
  | some m =>
    let m := prefixService m
    let w := { w with m_producer := some m }
    let p := passList m (newProducer ops w m)
    let resource := p.resource.getD []
    let p := if hasServicePrefix resource then { p with resource := some (afterColon resource) }
      else p
    let p := ops.copyFilters m p
    pure (handOver w m p)

/-- ImageProducerWidget::on_resetButton_clicked -/
def on_resetButton_clicked (ops : WidgetCollaborators) (w : ImageProducerWidget) :
    Except Fault ImageProducerWidget :=
  match w.m_producer with
  | none => .error .nullPointer
  | some m =>
    let s := m.shotcutResource
    let s := if s.isNone then m.shotcutResource else s
    let p := ops.newMltProducer s
    let p := ops.copyFilters m p
    pure (handOver w m p)

/-- The loop "find the last numeric digit" of on_sequenceCheckBox_clicked,
started at `i`: the value of `i` at its end. -/
def skipToLastDigit (isDigit : Char → Bool) (name : List Char) : Nat → Nat
  | 0 => 0
  | i + 1 => if !isDigit (name.getD i ' ') then skipToLastDigit isDigit name i else i + 1

/-- The loop "count the digits and build the begin value", started at `i` with
the text `begin` and the number `count`: `(i, begin, count)` at its end. -/
def collectDigits (isDigit : Char → Bool) (name : List Char) :
    Nat → List Char → Nat → Nat × List Char × Nat
  | 0, begin, count => (0, begin, count)
  | i + 1, begin, count =>
    if isDigit (name.getD i ' ') then
      collectDigits isDigit name i (name.getD i ' ' :: begin) (count + 1)
    else (i + 1, begin, count)

/-- Both loops on a file name: `(i, begin, count)` when the second loop ends. -/
def scanDigits (isDigit : Char → Bool) (name : List Char) : Nat × List Char × Nat :=
  collectDigits isDigit name (skipToLastDigit isDigit name name.length) [] 0

/-- The text after `QString::replace(position, n, after)`. -/
def replaceAt (s : List Char) (position n : Nat) (after : List Char) : List Char :=
  s.take position ++ after ++ s.drop (position + n)

/-- The block `if (count) { ... }` of on_sequenceCheckBox_clicked for the
producer `m`, with the answer `(i, begin, count)` of the two loops on the file
name of `resource`. -/
def makeSequence (ops : WidgetCollaborators) (w : ImageProducerWidget) (m : Producer)
    (resource : List Char) (i : Nat) (begin : List Char) (count : Nat) : ImageProducerWidget :=
  let name := ops.fileName resource
  let m := { m with begin := some (ops.toLatin1 begin) }
  let j := ops.toInt begin
  let name1 := replaceAt name i count ('%' :: begin ++ ['d'])
  let serviceName := m.mlt_service.getD []
  let resource1 :=
    if serviceName ≠ [] then serviceName ++ ':' :: ops.path resource ++ '/' :: name1
    else ops.path resource ++ '/' :: name1
  let m := { m with resource := some resource1 }
  -- Count the number of consecutive files.
  let name2 := replaceAt name i count "%1".toList
  let resource2 := ops.path resource ++ '/' :: name2
  let n := ops.firstMissing resource2 j count - j
  let m := { m with length := some (n * m.ttl.getD 0) }
  { w with m_producer := some m, durationSpinBox := n,
           emitted := w.emitted ++ [WidgetEvent.showStatusMessage .gettingLength,
             WidgetEvent.processEvents, WidgetEvent.showStatusMessage .reloading,
             WidgetEvent.processEvents] }

/-- ImageProducerWidget::on_sequenceCheckBox_clicked -/
def on_sequenceCheckBox_clicked (ops : WidgetCollaborators) (w : ImageProducerWidget)
    (checked : Bool) : Except Fault ImageProducerWidget :=
  match w.m_producer with
  | none => .error .nullPointer
  | some m =>
    let resource := m.resource.getD []
    let w := { w with repeatSpinBoxEnabled := checked }
    let m := if checked ∧ m.shotcutResource.isNone then { m with shotcutResource := some resource }
      else m
    let m := { m with sequence := checked, autolength := some checked, ttl := some w.repeatSpinBox }
    let w := { w with m_producer := some m }
    if checked then
      let r := scanDigits ops.isDigit (ops.fileName resource)
      if r.2.2 ≠ 0 then recreateProducer ops (makeSequence ops w m resource r.1 r.2.1 r.2.2)
      else recreateProducer ops w
    else
      let m := { m with resource := m.shotcutResource, length := some ops.maxImageLength }
      recreateProducer ops { w with m_producer := some m, durationSpinBox := ops.defaultImageLength }

/-! ## Image sequence, in the words of the claim -/

/-- The characters of a file name after its last digit. -/
def afterLastDigit (isDigit : Char → Bool) (name : List Char) : List Char :=
  name.rtakeWhile fun c => !isDigit c

/-- The last maximal run of consecutive digits of a file name. -/
def lastDigitRun (isDigit : Char → Bool) (name : List Char) : List Char :=
  (name.rdropWhile fun c => !isDigit c).rtakeWhile isDigit

/-- The characters of a file name before its last run of digits. -/
def beforeLastDigitRun (isDigit : Char → Bool) (name : List Char) : List Char :=
  (name.rdropWhile fun c => !isDigit c).rdropWhile isDigit

/-- The sequence pattern of a file name: the last run of digits replaced by
'%', the run and 'd'. -/
def sequencePattern (isDigit : Char → Bool) (name : List Char) : List Char :=
  beforeLastDigitRun isDigit name ++ '%' :: lastDigitRun isDigit name
    ++ 'd' :: afterLastDigit isDigit name

/-! ## Sample widget -/

/-- The decimal value of a run of digits. -/
def sampleToInt (s : List Char) : Int :=
  s.foldl (fun n c => 10 * n + ((c.toNat - '0'.toNat : Nat) : Int)) 0

/-- Sample library: file names are split at the last slash, the digits are the
ASCII digits, the sequence on disk holds three files. -/
def sampleWidgetOps : WidgetCollaborators where
  newMltProducer := fun resource => { id := 100, resource := resource }
  copyFilters := fun _ p => p
  fileName := fun resource => resource.rtakeWhile fun c => c != '/'
  path := fun resource => (resource.rdropWhile fun c => c != '/').dropLast
  isDigit := Char.isDigit
  toLatin1 := fun s => s
  toInt := sampleToInt
  firstMissing := fun _ j _ => j + 3
  maxImageLength := 14400
  defaultImageLength := 100

/-- An image producer with the given resource and service name. -/
def sampleImage (resource : String) (service : String) : Producer :=
  { id := 7, resource := some resource.toList, mlt_service := some service.toList }

/-- A widget on the image producer with the given resource and service name. -/
def sampleWidget (resource : String) (service : String) : ImageProducerWidget :=
  { m_producer := some (sampleImage resource service) }

/-- The producer of on_sequenceCheckBox_clicked(true) after the properties set
before the file name is looked at. -/
def sequenceChecked (w : ImageProducerWidget) (m : Producer) : Producer :=
  let m := if m.shotcutResource.isNone then { m with shotcutResource := some (m.resource.getD []) }
    else m
  { m with sequence := true, autolength := some true, ttl := some w.repeatSpinBox }

/-! ## Filter window of the selected clip, in the words of the claim -/

/-- The immediate left neighbour of a clip when it is a transition (a valid
producer with the transition property). -/
def leftTransition (tr : Track) (clipIndex : Int) : Option ClipInfo :=
  transitionNeighbour (tr.clip_info (clipIndex - 1))

/-- The immediate right neighbour of a clip when it is a transition. -/
def rightTransition (tr : Track) (clipIndex : Int) : Option ClipInfo :=
  transitionNeighbour (tr.clip_info (clipIndex + 1))

/-- The duration that a neighbour adds to the filter window: its frame count
when it is a transition, nothing otherwise. -/
def transitionDuration (neighbour : Option ClipInfo) : Int :=
  match neighbour with
  | some i => i.frame_count
  | none => 0

/-- A widget on the given producer. -/
def widgetOn (p : Producer) : ImageProducerWidget :=
  { m_producer := some p }

/-- A dock on the track of `transitionDock` with clip B (index 2), whose left
neighbour is the transition, selected. -/
def transitionSelectedDock : TimelineDock :=
  { transitionDock with m_selection := { selectedClips := [⟨2, 0⟩] } }

/-! ## Theorems -/

/-! ### Results in the `Except` monad -/

theorem bind_eq_ok {ε α β : Type} {x : Except ε α} {f : α → Except ε β} {b : β} :
    (x >>= f) = .ok b ↔ ∃ a, x = .ok a ∧ f a = .ok b := by
  cases x with
  | error e => simp [bind, Except.bind]
  | ok a => simp [bind, Except.bind]

theorem pure_eq_ok {ε α : Type} {a b : α} :
    (pure a : Except ε α) = .ok b ↔ a = b := by
  simp [pure, Except.pure]

/-! ### Trim session -/

theorem emitImageDurationChanged_ok (ops : Collaborators) (d d1 : TimelineDock)
    (trackIndex clipIndex : Int)
    (h : emitImageDurationChanged ops d trackIndex clipIndex = .ok d1) :
    d1 = d ∨ d1 = d.emit .imageDurationChanged := by
  unfold emitImageDurationChanged at h
  obtain ⟨info, -, h⟩ := bind_eq_ok.mp h
  cases info with
  | none => left; exact (pure_eq_ok.mp h).symm
  | some i =>
    simp only at h
    split at h
    · cases hp : i.producer with
      | none => simp [hp] at h
      | some p =>
        simp only [hp] at h
        split at h
        · right; exact (pure_eq_ok.mp h).symm
        · left; exact (pure_eq_ok.mp h).symm
    · left; exact (pure_eq_ok.mp h).symm

@[simp] theorem trimSession_updateCommandSetPosition (ops : Collaborators) (d : TimelineDock)
    (t c nt nc : Int) (np : UpdateCommand → Int) :
    trimSession (updateCommandSetPosition ops d t c nt nc np) = trimSession d := by
  unfold updateCommandSetPosition
  cases d.m_updateCommand with
  | none => simp
  | some u => by_cases hu : u.trackIndex = t ∧ u.clipIndex = c <;> simp [hu, trimSession]

theorem trimSession_emitImageDurationChanged (ops : Collaborators) (d d1 : TimelineDock)
    (trackIndex clipIndex : Int)
    (h : emitImageDurationChanged ops d trackIndex clipIndex = .ok d1) :
    trimSession d1 = trimSession d := by
  rcases emitImageDurationChanged_ok ops d d1 trackIndex clipIndex h with rfl | rfl
  · rfl
  · rfl

theorem ledgerAgrees_iff (d : TimelineDock) (l : GestureLedger) :
    LedgerAgrees d l ↔ (trimSession d).1 = l.transitionSum ∧ (trimSession d).2.1 = l.trimSum ∧
      (trimSession d).2.2.1 = l.command := Iff.rfl

theorem ensureUndoHelper_fields (d : TimelineDock) (ripple : Bool) :
    (ensureUndoHelper d ripple).m_transitionDelta = d.m_transitionDelta ∧
    (ensureUndoHelper d ripple).m_trimDelta = d.m_trimDelta ∧
    (ensureUndoHelper d ripple).undoStack = d.undoStack := by
  unfold ensureUndoHelper
  cases d.m_undoHelper <;> exact ⟨rfl, rfl, rfl⟩

/-- One call of a gesture keeps the dock in step with the ledger and pushes nothing. -/
theorem trimCall_run_agrees (ops : Collaborators) (d : TimelineDock) (l : GestureLedger)
    (call : TrimCall) (r : Bool × TimelineDock) (hl : LedgerAgrees d l)
    (h : call.run ops d = .ok r) :
    LedgerAgrees r.2 (l.record call (call.branch ops d.m_model)) ∧
      r.2.undoStack = d.undoStack := by
  obtain ⟨h1, h2, h3⟩ := hl
  have hu : ∀ x : TimelineDock, x.undoStack = (trimSession x).2.2.2.2 := fun _ => rfl
  rw [ledgerAgrees_iff, hu r.2, hu d]
  cases call with
  | trimClipIn t c o δ rp =>
    obtain ⟨k1, k2, k3⟩ := ensureUndoHelper_fields d rp
    simp only [TrimCall.run, trimClipIn] at h
    simp only [TrimCall.branch]
    split_ifs at h ⊢ with c1 c2 c3 c4
    · rw [pure_eq_ok] at h
      subst h
      simp only [trimSession_updateCommandSetPosition]
      simp [trimSession, GestureLedger.record, GestureLedger.command, TrimCall.command,
        TrimCall.delta, h1, h2]
    · rw [pure_eq_ok] at h
      subst h
      simp only [trimSession_updateCommandSetPosition]
      simp [trimSession, GestureLedger.record, GestureLedger.command, TrimCall.command,
        TrimCall.delta, h1, h2]
    · rw [pure_eq_ok] at h
      subst h
      simp [trimSession, GestureLedger.record, GestureLedger.command, TrimCall.command,
        TrimCall.delta, h1, h2]
    · obtain ⟨d1, he, h⟩ := bind_eq_ok.mp h
      have hs := trimSession_emitImageDurationChanged _ _ _ _ _ he
      rw [pure_eq_ok] at h
      subst h
      simp only [trimSession_updateCommandSetPosition]
      simp only [trimSession, Prod.mk.injEq] at hs ⊢
      obtain ⟨e1, e2, -, -, e5⟩ := hs
      simp [GestureLedger.record, GestureLedger.command, TrimCall.command, TrimCall.delta,
        e1, e2, e5, k1, k2, k3, h1, h2]
    · rw [pure_eq_ok] at h
      subst h
      simp [trimSession, GestureLedger.record, h1, h2, h3]
  | trimClipOut t c δ rp =>
    obtain ⟨k1, k2, k3⟩ := ensureUndoHelper_fields d rp
    simp only [TrimCall.run, trimClipOut] at h
    simp only [TrimCall.branch]
    split_ifs at h ⊢ with c1 c2 c3 c4
    · rw [pure_eq_ok] at h
      subst h
      simp only [trimSession_updateCommandSetPosition]
      simp [trimSession, GestureLedger.record, GestureLedger.command, TrimCall.command,
        TrimCall.delta, h1, h2]
    · rw [pure_eq_ok] at h
      subst h
      simp only [trimSession_updateCommandSetPosition]
      simp [trimSession, GestureLedger.record, GestureLedger.command, TrimCall.command,
        TrimCall.delta, h1, h2]
    · rw [pure_eq_ok] at h
      subst h
      simp [trimSession, GestureLedger.record, GestureLedger.command, TrimCall.command,
        TrimCall.delta, h1, h2]
    · obtain ⟨d1, he, h⟩ := bind_eq_ok.mp h
      have hs := trimSession_emitImageDurationChanged _ _ _ _ _ he
      rw [pure_eq_ok] at h
      subst h
      simp only [trimSession_updateCommandSetPosition]
      simp only [trimSession, Prod.mk.injEq] at hs ⊢
      obtain ⟨e1, e2, -, -, e5⟩ := hs
      simp [GestureLedger.record, GestureLedger.command, TrimCall.command, TrimCall.delta,
        e1, e2, e5, k1, k2, k3, h1, h2]
    · rw [pure_eq_ok] at h
      subst h
      simp [trimSession, GestureLedger.record, h1, h2, h3]

/-- A whole gesture keeps the dock in step with the ledger and pushes nothing
before the commit. -/
theorem runTrimCalls_agrees (ops : Collaborators) (calls : List TrimCall) :
    ∀ (d g : TimelineDock) (l l1 : GestureLedger), LedgerAgrees d l →
      runTrimCalls ops d l calls = .ok (g, l1) →
      LedgerAgrees g l1 ∧ g.undoStack = d.undoStack := by
  induction calls with
  | nil =>
    intro d g l l1 hl h
    simp only [runTrimCalls, pure_eq_ok, Prod.mk.injEq] at h
    obtain ⟨rfl, rfl⟩ := h
    exact ⟨hl, rfl⟩
  | cons call rest ih =>
    intro d g l l1 hl h
    simp only [runTrimCalls] at h
    obtain ⟨r, hr, h⟩ := bind_eq_ok.mp h
    obtain ⟨ha, hs⟩ := trimCall_run_agrees ops d l call r hl hr
    obtain ⟨hb, ht⟩ := ih r.2 g _ l1 ha h
    exact ⟨hb, ht.trans hs⟩

theorem commitTrimCommand_undoStack (d : TimelineDock) :
    (commitTrimCommand d).undoStack =
      match d.m_trimCommand with
      | none => d.undoStack
      | some c =>
        if d.m_trimDelta ≠ 0 ∨ d.m_transitionDelta ≠ 0 then
          d.undoStack ++ [UndoStackCall.push (UndoCommand.trim c d.m_undoHelper)]
        else d.undoStack := by
  unfold commitTrimCommand
  cases d.m_trimCommand with
  | none => rfl
  | some c => by_cases h : d.m_trimDelta ≠ 0 ∨ d.m_transitionDelta ≠ 0 <;> simp [h, TimelineDock.push]

/-- C1. A trim gesture started from an idle session and ended by one
commitTrimCommand pushes at most one undo command; when one is pushed it is the
command of the last accepted call, carrying the cumulative counters of the
gesture: the transition counter is the sum of the deltas accepted by the
create-transition branch and the trim counter the sum of the deltas accepted by
the other branches. -/
theorem trim_gesture_pushes_at_most_one (ops : Collaborators) (d g : TimelineDock)
    (l : GestureLedger) (calls : List TrimCall) (hidle : d.idle)
    (hrun : runTrimCalls ops d {} calls = .ok (g, l)) :
    ((commitTrimCommand g).undoStack = d.undoStack ∨
      ∃ c, (commitTrimCommand g).undoStack = d.undoStack ++ [UndoStackCall.push c]) ∧
    ∀ c, (commitTrimCommand g).undoStack = d.undoStack ++ [UndoStackCall.push c] →
      ∃ call br, l.lastAccepted = some (call, br) ∧
        c = UndoCommand.trim (call.command l.transitionSum l.trimSum br) g.m_undoHelper := by
  obtain ⟨i1, i2, i3⟩ := hidle
  have h0 : LedgerAgrees d {} := ⟨i2, i1, by simp [i3, GestureLedger.command]⟩
  obtain ⟨⟨-, -, a3⟩, hs⟩ := runTrimCalls_agrees ops calls d g {} l h0 hrun
  rw [commitTrimCommand_undoStack, hs, a3]
  unfold GestureLedger.command
  cases hl : l.lastAccepted with
  | none => simp
  | some p =>
    obtain ⟨call, br⟩ := p
    by_cases hz : g.m_trimDelta ≠ 0 ∨ g.m_transitionDelta ≠ 0
    · dsimp only
      rw [if_pos hz]
      refine ⟨Or.inr ⟨_, rfl⟩, ?_⟩
      intro c hc
      refine ⟨call, br, rfl, ?_⟩
      have := List.append_cancel_left hc
      simp only [List.cons.injEq, UndoStackCall.push.injEq, and_true] at this
      exact this.symm
    · dsimp only
      rw [if_neg hz]
      refine ⟨Or.inl rfl, ?_⟩
      intro c hc
      have := congrArg List.length hc
      simp at this

/-- C1, witness.  Deltas +5 (plain trim) then +3 (create transition) on the
in-edge of clip 1: the gesture ends with one add-transition-by-trim command
carrying transition delta 3 and trim delta 5. -/
theorem trim_gesture_pushes_at_most_one_witness :
    sampleDock.idle ∧
    (∃ g l, runTrimCalls sampleOps sampleDock {}
        [.trimClipIn 0 1 1 5 false, .trimClipIn 0 1 1 3 false] = .ok (g, l) ∧
      l.transitionSum = 3 ∧ l.trimSum = 5 ∧
      (commitTrimCommand g).undoStack = [UndoStackCall.push (UndoCommand.trim
        (.AddTransitionByTrimInCommand 0 0 3 5 false)
        (some { skipXML := false, before := sampleDock.m_model }))] ∧
      (((commitTrimCommand g).undoStack = sampleDock.undoStack ∨
        ∃ c, (commitTrimCommand g).undoStack = sampleDock.undoStack ++ [UndoStackCall.push c]) ∧
      ∀ c, (commitTrimCommand g).undoStack = sampleDock.undoStack ++ [UndoStackCall.push c] →
        ∃ call br, l.lastAccepted = some (call, br) ∧
          c = UndoCommand.trim (call.command l.transitionSum l.trimSum br) g.m_undoHelper)) :=
  ⟨by decide, _, _, rfl, rfl, rfl, rfl,
    trim_gesture_pushes_at_most_one sampleOps sampleDock _ _
      [.trimClipIn 0 1 1 5 false, .trimClipIn 0 1 1 3 false] (by decide) rfl⟩

/-- C2. commitTrimCommand pushes an undo command if and only if a trim command
is pending and one of the two counters is non-zero, and otherwise leaves the
undo stack as it is; hence a gesture from an idle session whose accepted deltas
add up to zero in both counters pushes nothing. -/
theorem commitTrimCommand_pushes_iff (ops : Collaborators) (d0 d : TimelineDock)
    (l : GestureLedger) (calls : List TrimCall) :
    ((∃ c, (commitTrimCommand d).undoStack = d.undoStack ++ [UndoStackCall.push c]) ↔
      (d.m_trimCommand ≠ none ∧ (d.m_trimDelta ≠ 0 ∨ d.m_transitionDelta ≠ 0))) ∧
    ((commitTrimCommand d).undoStack = d.undoStack ∨
      ∃ c, (commitTrimCommand d).undoStack = d.undoStack ++ [UndoStackCall.push c]) ∧
    (d0.idle → runTrimCalls ops d0 {} calls = .ok (d, l) →
      l.trimSum = 0 → l.transitionSum = 0 → (commitTrimCommand d).undoStack = d0.undoStack) := by
  have hlen : ∀ (s : List UndoStackCall) (c : UndoStackCall), s ≠ s ++ [c] := by
    intro s c h
    have := congrArg List.length h
    simp at this
  refine ⟨?_, ?_, ?_⟩
  · rw [commitTrimCommand_undoStack]
    cases hc : d.m_trimCommand with
    | none =>
      simp only [ne_eq, not_true_eq_false, false_and, iff_false, not_exists]
      exact fun c => hlen _ _
    | some c =>
      by_cases hz : d.m_trimDelta ≠ 0 ∨ d.m_transitionDelta ≠ 0
      · dsimp only
        rw [if_pos hz]
        exact ⟨fun _ => ⟨by simp, hz⟩, fun _ => ⟨_, rfl⟩⟩
      · dsimp only
        rw [if_neg hz]
        constructor
        · rintro ⟨c1, h1⟩
          exact absurd h1 (hlen _ _)
        · rintro ⟨-, h1⟩
          exact absurd h1 hz
  · rw [commitTrimCommand_undoStack]
    cases d.m_trimCommand with
    | none => exact Or.inl rfl
    | some c =>
      by_cases hz : d.m_trimDelta ≠ 0 ∨ d.m_transitionDelta ≠ 0
      · dsimp only
        rw [if_pos hz]
        exact Or.inr ⟨_, rfl⟩
      · dsimp only
        rw [if_neg hz]
        exact Or.inl rfl
  · intro hidle hrun ht hs
    obtain ⟨i1, i2, i3⟩ := hidle
    have h0 : LedgerAgrees d0 {} := ⟨i2, i1, by simp [i3, GestureLedger.command]⟩
    obtain ⟨⟨a1, a2, -⟩, hst⟩ := runTrimCalls_agrees ops calls d0 d {} l h0 hrun
    rw [commitTrimCommand_undoStack, hst]
    have hz : ¬ (d.m_trimDelta ≠ 0 ∨ d.m_transitionDelta ≠ 0) := by
      rw [a1, a2, ht, hs]
      simp
    cases d.m_trimCommand with
    | none => rfl
    | some c =>
      dsimp only
      rw [if_neg hz]

/-- C2, witness.  Plain trims by +5, +3 and -8 on the out-edge of clip 0: the
gesture ends with no undo command. -/
theorem commitTrimCommand_pushes_iff_witness :
    sampleDock.idle ∧
    ∃ g l, runTrimCalls sampleOps sampleDock {}
        [.trimClipOut 0 0 5 false, .trimClipOut 0 0 3 false, .trimClipOut 0 0 (-8) false]
        = .ok (g, l) ∧
      l.lastAccepted = some (.trimClipOut 0 0 (-8) false, .plainTrim) ∧
      l.trimSum = 0 ∧ l.transitionSum = 0 ∧
      (commitTrimCommand g).undoStack = sampleDock.undoStack ∧
      (commitTrimCommand g).undoStack = [] :=
  ⟨by decide, _, _, rfl, rfl, rfl, rfl,
    (commitTrimCommand_pushes_iff sampleOps sampleDock _ _
      [.trimClipOut 0 0 5 false, .trimClipOut 0 0 3 false, .trimClipOut 0 0 (-8) false]).2.2
      (by decide) rfl rfl rfl, rfl⟩

/-- C3, the code at the failing input.  After a gesture of plain trims by +5
and -5 the commit pushes nothing and resets both counters, but the pending
command and the captured snapshot stay in the session; a following ripple
gesture is then pushed with that snapshot (taken without the `SkipXML` hint)
instead of a fresh one, which an idle session would have captured. -/
theorem commitTrimCommand_zero_net_keeps_snapshot :
    ∃ g l, runTrimCalls sampleOps sampleDock {}
        [.trimClipOut 0 0 5 false, .trimClipOut 0 0 (-5) false] = .ok (g, l) ∧
      (commitTrimCommand g).undoStack = [] ∧
      (commitTrimCommand g).m_trimDelta = 0 ∧ (commitTrimCommand g).m_transitionDelta = 0 ∧
      (commitTrimCommand g).m_trimCommand = some (.TrimClipOutCommand 0 0 0 false false) ∧
      (commitTrimCommand g).m_undoHelper =
        some { skipXML := false, before := sampleDock.m_model } ∧
      (∃ g2 l2, runTrimCalls sampleOps (commitTrimCommand g) {} [.trimClipOut 0 0 4 true]
          = .ok (g2, l2) ∧
        (commitTrimCommand g2).undoStack = [UndoStackCall.push (UndoCommand.trim
          (.TrimClipOutCommand 0 0 4 true false)
          (some { skipXML := false, before := sampleDock.m_model }))]) ∧
      (∃ g3 l3, runTrimCalls sampleOps sampleDock {} [.trimClipOut 0 0 4 true]
          = .ok (g3, l3) ∧
        (commitTrimCommand g3).undoStack = [UndoStackCall.push (UndoCommand.trim
          (.TrimClipOutCommand 0 0 4 true false)
          (some { skipXML := true, before := sampleDock.m_model }))]) :=
  ⟨_, _, rfl, rfl, rfl, rfl, rfl, rfl, ⟨_, _, rfl, rfl⟩, ⟨_, _, rfl, rfl⟩⟩

/-! ### Selection controller -/

theorem getClipInfo_model (d1 d2 : TimelineDock) (h : d1.m_model = d2.m_model)
    (trackIndex clipIndex : Int) :
    getClipInfo d1 trackIndex clipIndex = getClipInfo d2 trackIndex clipIndex := by
  unfold getClipInfo
  rw [h]

theorem getClipInfo_some (d : TimelineDock) (trackIndex clipIndex : Int) (i : ClipInfo)
    (h : getClipInfo d trackIndex clipIndex = .ok (some i)) :
    ∃ tr, trackAt d.m_model trackIndex = .ok tr := by
  unfold getClipInfo at h
  split at h
  · obtain ⟨tr, htr, -⟩ := bind_eq_ok.mp h
    exact ⟨tr, htr⟩
  · simp [pure, Except.pure] at h

theorem getClipInfo_total (d : TimelineDock) (trackIndex : Int) (tr : Track)
    (h : trackAt d.m_model trackIndex = .ok tr) (clipIndex : Int) :
    ∃ r, getClipInfo d trackIndex clipIndex = .ok r := by
  unfold getClipInfo
  split
  · exact ⟨_, by rw [h]; rfl⟩
  · exact ⟨_, rfl⟩

theorem emitSelectedClip_ok (d d1 : TimelineDock) (trackIndex clipIndex : Int)
    (info : Option ClipInfo) (h : emitSelectedClip d trackIndex clipIndex info = .ok d1) :
    d1.m_selection = d.m_selection ∧ d1.rootObject = d.rootObject ∧
      (d1.emitted = d.emitted ∨ ∃ p, d1.emitted = d.emitted ++ [.selected (some (.clip p))]) := by
  unfold emitSelectedClip at h
  cases info with
  | none => rw [pure_eq_ok] at h; subst h; exact ⟨rfl, rfl, Or.inl rfl⟩
  | some i =>
    dsimp only at h
    cases hp : i.producer with
    | none => rw [hp] at h; rw [pure_eq_ok] at h; subst h; exact ⟨rfl, rfl, Or.inl rfl⟩
    | some pr =>
      rw [hp] at h
      dsimp only at h
      split at h
      · obtain ⟨a, -, h⟩ := bind_eq_ok.mp h
        obtain ⟨b, -, h⟩ := bind_eq_ok.mp h
        rw [pure_eq_ok] at h
        subst h
        exact ⟨rfl, rfl, Or.inr ⟨_, rfl⟩⟩
      · rw [pure_eq_ok] at h; subst h; exact ⟨rfl, rfl, Or.inl rfl⟩

/-- With at least one track, emitSelectedFromSelection leaves the selection
alone and emits at most one notification, a clip-selected one. -/
theorem emitSelectedFromSelection_tracks (d d1 : TimelineDock)
    (hne : d.m_model.trackList.length ≠ 0) (h : emitSelectedFromSelection d = .ok d1) :
    d1.m_selection = d.m_selection ∧ d1.rootObject = d.rootObject ∧
      (d1.emitted = d.emitted ∨ ∃ p, d1.emitted = d.emitted ++ [.selected (some (.clip p))]) := by
  unfold emitSelectedFromSelection at h
  rw [if_neg hne] at h
  obtain ⟨info, -, h⟩ := bind_eq_ok.mp h
  obtain ⟨d2, h2, h⟩ := bind_eq_ok.mp h
  rw [pure_eq_ok] at h
  subst h
  exact emitSelectedClip_ok d d2 _ _ info h2

theorem setSelectionWith_nil (f g : TimelineDock → Except Fault TimelineDock) (d : TimelineDock)
    (trackIndex : Int) (isMultitrack : Bool) :
    setSelectionWith f d [] trackIndex isMultitrack
      = setSelectionWith g d [] trackIndex isMultitrack := by
  unfold setSelectionWith
  split
  · simp [TimelineDock.emit]
  · rfl

/-- The call of setSelection inside selectMultitrack is the call of the member function. -/
theorem selectMultitrack_eq (d : TimelineDock) :
    selectMultitrack d = (do
      let d ← setSelection d [] (-1) true
      pure ((d.emit .selectMultitrack).emit (.selected (some .tractor)))) := by
  unfold selectMultitrack setSelection
  rw [setSelectionWith_nil pure emitSelectedFromSelection]

theorem trackAt_ok (m : MultitrackModel) (trackIndex : Int) (h0 : 0 ≤ trackIndex)
    (h1 : trackIndex < m.trackList.length) : ∃ tr, trackAt m trackIndex = .ok tr := by
  unfold trackAt
  rw [if_pos h0]
  have hlt : trackIndex.toNat < m.trackList.length := by omega
  rw [List.get?_eq_get hlt]
  exact ⟨_, rfl⟩

theorem emitSelectedClip_total (d : TimelineDock) (trackIndex clipIndex : Int)
    (info : Option ClipInfo) (h : info ≠ none → ∃ tr, trackAt d.m_model trackIndex = .ok tr) :
    ∃ d1, emitSelectedClip d trackIndex clipIndex info = .ok d1 := by
  unfold emitSelectedClip
  cases info with
  | none => exact ⟨_, rfl⟩
  | some i =>
    obtain ⟨tr, htr⟩ := h (by simp)
    dsimp only
    cases i.producer with
    | none => exact ⟨_, rfl⟩
    | some pr =>
      dsimp only
      split
      · obtain ⟨a, ha⟩ := getClipInfo_total
          { d with m_updateCommand := some (UpdateCommand.mk trackIndex clipIndex i.start) }
          trackIndex tr htr (clipIndex - 1)
        obtain ⟨b, hb⟩ := getClipInfo_total
          { d with m_updateCommand := some (UpdateCommand.mk trackIndex clipIndex i.start) }
          trackIndex tr htr (clipIndex + 1)
        rw [ha]
        simp only [bind, Except.bind]
        rw [hb]
        exact ⟨_, rfl⟩
      · exact ⟨_, rfl⟩

/-- With at least one track and the first selected coordinate on a track of the
model, emitSelectedFromSelection runs to its end. -/
theorem emitSelectedFromSelection_total (d : TimelineDock)
    (hne : d.m_model.trackList.length ≠ 0)
    (hr : ∀ p, (selection d).head? = some p → p.y < d.m_model.trackList.length)
    (hc : selection d = [] → currentTrack d < d.m_model.trackList.length) :
    ∃ d1, emitSelectedFromSelection d = .ok d1 := by
  unfold emitSelectedFromSelection
  rw [if_neg hne]
  have key : ∀ ti ci : Int, ti < d.m_model.trackList.length →
      ∃ info, getClipInfo d ti ci = .ok info ∧
        (info ≠ none → ∃ tr, trackAt d.m_model ti = .ok tr) := by
    intro ti ci hti
    by_cases hc : ci ≥ 0 ∧ ti ≥ 0
    · obtain ⟨tr, htr⟩ := trackAt_ok d.m_model ti hc.2 hti
      obtain ⟨r, hr⟩ := getClipInfo_total d ti tr htr ci
      exact ⟨r, hr, fun _ => ⟨tr, htr⟩⟩
    · refine ⟨none, ?_, fun h => absurd rfl h⟩
      unfold getClipInfo
      rw [if_neg hc]
      rfl
  have hti : (if (selection d).isEmpty then currentTrack d
      else ((selection d).head?.map QPoint.y).getD 0) < d.m_model.trackList.length := by
    cases hs : selection d with
    | nil =>
      simp only [List.isEmpty_nil, if_true]
      exact hc hs
    | cons p rest =>
      simp only [List.isEmpty_cons, List.head?_cons, Option.map_some', Option.getD_some]
      exact hr p (by simp [hs])
  obtain ⟨info, hi, htr⟩ := key _ (if (selection d).isEmpty then 0
      else ((selection d).head?.map QPoint.x).getD 0) hti
  obtain ⟨d2, h2⟩ := emitSelectedClip_total d _ _ info htr
  simp only [bind, Except.bind]
  rw [hi]
  dsimp only
  rw [h2]
  exact ⟨_, rfl⟩

/-- C5 (amended).  setSelection replaces the selection if and only if its
arguments differ from the current `(selection(), selectedTrack,
isMultitrackSelected)`: when they are equal the dock is unchanged and nothing
is emitted; when they differ, and the new selection is empty or the model has a
track or no tractor (so that emitSelectedFromSelection does not hand over to
selectMultitrack), the stored triple becomes the arguments and selectionChanged
is emitted exactly once, before the clip-selected or nothing-selected
notification, if any.  The first new coordinate is taken on a track index
below the track count: beyond it `QList::at` has no defined behaviour. -/
theorem setSelection_replaces_iff_differs (d : TimelineDock) (newSelection : List QPoint)
    (trackIndex : Int) (isMultitrack : Bool) :
    (¬ selectionDiffers d newSelection trackIndex isMultitrack →
      setSelection d newSelection trackIndex isMultitrack = .ok d) ∧
    (selectionDiffers d newSelection trackIndex isMultitrack →
      (newSelection = [] ∨ d.m_model.trackList ≠ [] ∨ d.m_model.tractor = none) →
      (∀ p, newSelection.head? = some p → p.y < d.m_model.trackList.length) →
      ∃ d1 rest, setSelection d newSelection trackIndex isMultitrack = .ok d1 ∧
        d1.m_selection = ⟨newSelection, trackIndex, isMultitrack⟩ ∧
        d1.emitted = d.emitted ++ Event.selectionChanged :: rest ∧
        (rest = [] ∨ ∃ p, rest = [Event.selected p])) := by
  constructor
  · intro h
    unfold setSelection setSelectionWith
    unfold selectionDiffers at h
    rw [if_neg h]
    rfl
  · intro h hcase hrange
    unfold setSelection setSelectionWith
    unfold selectionDiffers at h
    rw [if_pos h]
    cases newSelection with
    | nil =>
      refine ⟨_, [Event.selected none], rfl, rfl, ?_, Or.inr ⟨_, rfl⟩⟩
      simp [TimelineDock.emit]
    | cons p ps =>
      simp only [List.isEmpty_cons, Bool.false_eq_true, not_false_eq_true, if_true]
      generalize hd0 : (TimelineDock.emit { d with m_selection := ⟨p :: ps, trackIndex, isMultitrack⟩ }
        Event.selectionChanged) = d0
      have hm : d0.m_model = d.m_model := by subst hd0; rfl
      have hsel : d0.m_selection = ⟨p :: ps, trackIndex, isMultitrack⟩ := by subst hd0; rfl
      have hem : d0.emitted = d.emitted ++ [Event.selectionChanged] := by subst hd0; rfl
      have hne : ¬ d0.m_selection.selectedClips.isEmpty = true := by rw [hsel]; simp
      rw [if_pos hne]
      by_cases hlen : d.m_model.trackList.length = 0
      · have hnil : d.m_model.trackList = [] := List.length_eq_zero.mp hlen
        have htr : d.m_model.tractor = none := by
          rcases hcase with h1 | h1 | h1
          · exact absurd h1 (by simp)
          · exact absurd hnil h1
          · exact h1
        refine ⟨d0.emit (Event.selected none), [Event.selected none], ?_, ?_, ?_, Or.inr ⟨_, rfl⟩⟩
        · unfold emitSelectedFromSelection
          rw [hm, if_pos hlen, htr]
          rfl
        · exact hsel
        · simp [TimelineDock.emit, hem]
      · have hlen0 : d0.m_model.trackList.length ≠ 0 := by rw [hm]; exact hlen
        have hr0 : ∀ q, (selection d0).head? = some q → q.y < d0.m_model.trackList.length := by
          intro q hq
          rw [hm]
          apply hrange q
          unfold selection at hq
          rw [hsel] at hq
          cases hro : d0.rootObject with
          | none => rw [hro] at hq; simp at hq
          | some r => rw [hro] at hq; exact hq
        have hc0 : selection d0 = [] → currentTrack d0 < d0.m_model.trackList.length := by
          intro hs
          unfold selection at hs
          unfold currentTrack
          rw [hsel] at hs
          cases hro : d0.rootObject with
          | none =>
            dsimp only
            have : 0 < d0.m_model.trackList.length := Nat.pos_of_ne_zero hlen0
            exact_mod_cast this
          | some r => rw [hro] at hs; simp at hs
        obtain ⟨d1, h1⟩ := emitSelectedFromSelection_total d0 hlen0 hr0 hc0
        obtain ⟨e1, -, e3⟩ := emitSelectedFromSelection_tracks d0 d1 hlen0 h1
        rcases e3 with e3 | ⟨q, e3⟩
        · exact ⟨d1, [], h1, by rw [e1, hsel], by rw [e3, hem], Or.inl rfl⟩
        · refine ⟨d1, [Event.selected (some (.clip q))], h1, by rw [e1, hsel], ?_, Or.inr ⟨_, rfl⟩⟩
          rw [e3, hem]
          simp

/-- C5, witness.  Selecting clip 1 of track 0 of the sample project. -/
theorem setSelection_replaces_iff_differs_witness :
    selectionDiffers sampleDock [⟨1, 0⟩] (-1) false ∧
    ¬ selectionDiffers sampleDock [] (-1) false ∧
    setSelection sampleDock [] (-1) false = .ok sampleDock ∧
    ∃ d1 rest, setSelection sampleDock [⟨1, 0⟩] (-1) false = .ok d1 ∧
      d1.m_selection = ⟨[⟨1, 0⟩], -1, false⟩ ∧
      d1.emitted = sampleDock.emitted ++ Event.selectionChanged :: rest ∧
      (rest = [] ∨ ∃ p, rest = [Event.selected p]) :=
  ⟨by decide, by decide,
    (setSelection_replaces_iff_differs sampleDock [] (-1) false).1 (by decide),
    (setSelection_replaces_iff_differs sampleDock [⟨1, 0⟩] (-1) false).2 (by decide)
      (Or.inr (Or.inl (by decide))) (by decide)⟩

/-- C5, counterexample.  On a model with a tractor and no track, setSelection
with one coordinate differs from the empty current selection, yet the stored
triple is not the arguments (it is the multitrack selection) and
selectionChanged is emitted twice. -/
theorem setSelection_replaces_counterexample :
    selectionDiffers trackLessDock [⟨0, 0⟩] (-1) false ∧
    ∃ d1, setSelection trackLessDock [⟨0, 0⟩] (-1) false = .ok d1 ∧
      d1.m_selection = ⟨[], -1, true⟩ ∧
      d1.m_selection ≠ ⟨[⟨0, 0⟩], -1, false⟩ ∧
      d1.emitted = [.selectionChanged, .selectionChanged, .selected none, .selectMultitrack,
        .selected (some .tractor)] :=
  ⟨by decide, _, rfl, rfl, by decide, rfl⟩

/-- A clip with a valid producer under the first selected coordinate is
announced by one clip-selected notification carrying that producer. -/
theorem emitSelectedFromSelection_clip (d : TimelineDock) (p : QPoint) (rest : List QPoint)
    (i : ClipInfo) (pr : Producer) (hs : selection d = p :: rest)
    (hi : getClipInfo d p.y p.x = .ok (some i)) (hp : i.producer = some pr)
    (hv : pr.is_valid = true) :
    ∃ d1 pr1, emitSelectedFromSelection d = .ok d1 ∧ pr1.id = pr.id ∧
      d1.m_selection = d.m_selection ∧
      d1.emitted = d.emitted ++ [Event.selected (some (.clip pr1))] := by
  obtain ⟨tr, htr⟩ := getClipInfo_some d p.y p.x i hi
  have hlen : d.m_model.trackList.length ≠ 0 := by
    intro h0
    have hnil := List.length_eq_zero.mp h0
    unfold trackAt at htr
    rw [hnil] at htr
    split at htr <;> simp at htr
  unfold emitSelectedFromSelection
  rw [if_neg hlen, hs]
  simp only [List.isEmpty_cons, Bool.false_eq_true, if_false, List.head?_cons, Option.map_some',
    Option.getD_some, bind, Except.bind]
  rw [hi]
  dsimp only
  unfold emitSelectedClip
  dsimp only
  rw [hp]
  dsimp only
  rw [if_pos hv]
  obtain ⟨a, ha⟩ := getClipInfo_total
    { d with m_updateCommand := some (UpdateCommand.mk p.y p.x i.start) } p.y tr htr (p.x - 1)
  obtain ⟨b, hb⟩ := getClipInfo_total
    { d with m_updateCommand := some (UpdateCommand.mk p.y p.x i.start) } p.y tr htr (p.x + 1)
  simp only [bind, Except.bind]
  rw [ha]
  dsimp only
  rw [hb]
  refine ⟨_, _, rfl, ?_, rfl, rfl⟩
  cases transitionNeighbour a <;> cases transitionNeighbour b <;> rfl

theorem setSelection_cons (d : TimelineDock) (p : QPoint) (rest : List QPoint)
    (trackIndex : Int) (isMultitrack : Bool)
    (hd : selectionDiffers d (p :: rest) trackIndex isMultitrack) :
    setSelection d (p :: rest) trackIndex isMultitrack =
      emitSelectedFromSelection (TimelineDock.emit
        { d with m_selection := ⟨p :: rest, trackIndex, isMultitrack⟩ } Event.selectionChanged) := by
  unfold selectionDiffers at hd
  unfold setSelection setSelectionWith
  rw [if_pos hd]
  simp [TimelineDock.emit]

theorem selection_emit_stored (d : TimelineDock) (s : Selection) (e : Event)
    (hroot : d.rootObject ≠ none) :
    selection (TimelineDock.emit { d with m_selection := s } e) = s.selectedClips := by
  unfold selection
  cases hro : d.rootObject with
  | none => exact absurd hro hroot
  | some r => simp [TimelineDock.emit, hro]

theorem selection_congr (d1 d2 : TimelineDock) (h1 : d1.m_selection = d2.m_selection)
    (h2 : d1.rootObject = d2.rootObject) : selection d1 = selection d2 := by
  unfold selection
  rw [h1, h2]

/-- C6 (amended).  A call of setSelection that changes the selection emits the
nothing-selected notification when the new selection is empty, and the
clip-selected notification, carrying the producer of the first selected clip,
when the resulting `selection()` is non-empty and its first coordinate
designates a clip of the model with a valid producer; a non-empty selection
whose first coordinate designates no clip on the tracks of the model gets no
`selected` notification.  The dock `d` is any state, so this holds along any
sequence of calls. -/
theorem setSelection_notification (d : TimelineDock) (newSelection : List QPoint)
    (trackIndex : Int) (isMultitrack : Bool)
    (hd : selectionDiffers d newSelection trackIndex isMultitrack) :
    (newSelection = [] →
      ∃ d1, setSelection d newSelection trackIndex isMultitrack = .ok d1 ∧
        d1.m_selection.selectedClips = [] ∧
        d1.emitted = d.emitted ++ [Event.selectionChanged, Event.selected none]) ∧
    (∀ p rest i pr, newSelection = p :: rest → d.rootObject ≠ none →
      getClipInfo d p.y p.x = .ok (some i) → i.producer = some pr → pr.is_valid = true →
      ∃ d1 pr1, setSelection d newSelection trackIndex isMultitrack = .ok d1 ∧
        selection d1 = newSelection ∧ pr1.id = pr.id ∧
        d1.emitted = d.emitted ++ [Event.selectionChanged, Event.selected (some (.clip pr1))]) ∧
    (∀ p rest, newSelection = p :: rest → d.rootObject ≠ none → d.m_model.trackList ≠ [] →
      getClipInfo d p.y p.x = .ok none →
      ∃ d1, setSelection d newSelection trackIndex isMultitrack = .ok d1 ∧
        selection d1 = newSelection ∧ d1.emitted = d.emitted ++ [Event.selectionChanged]) := by
  refine ⟨?_, ?_, ?_⟩
  · intro hnil
    subst hnil
    unfold selectionDiffers at hd
    unfold setSelection setSelectionWith
    rw [if_pos hd]
    refine ⟨_, rfl, rfl, ?_⟩
    simp [TimelineDock.emit]
  · intro p rest i pr hns hroot hi hp hv
    subst hns
    rw [setSelection_cons d p rest trackIndex isMultitrack hd]
    have hs0 := selection_emit_stored d ⟨p :: rest, trackIndex, isMultitrack⟩
      Event.selectionChanged hroot
    generalize hd0 : (TimelineDock.emit
      { d with m_selection := ⟨p :: rest, trackIndex, isMultitrack⟩ }
      Event.selectionChanged) = d0 at hs0 ⊢
    have hm : d0.m_model = d.m_model := by subst hd0; rfl
    have hem : d0.emitted = d.emitted ++ [Event.selectionChanged] := by subst hd0; rfl
    have hi0 : getClipInfo d0 p.y p.x = .ok (some i) := by
      rw [getClipInfo_model d0 d hm]; exact hi
    obtain ⟨d1, pr1, h1, h2, h3, h4⟩ := emitSelectedFromSelection_clip d0 p rest i pr hs0 hi0 hp hv
    have hlen : d0.m_model.trackList.length ≠ 0 := by
      intro h0
      obtain ⟨tr, htr⟩ := getClipInfo_some d0 p.y p.x i hi0
      have hnil := List.length_eq_zero.mp h0
      unfold trackAt at htr
      rw [hnil] at htr
      split at htr <;> simp at htr
    obtain ⟨e1, e2, -⟩ := emitSelectedFromSelection_tracks d0 d1 hlen h1
    refine ⟨d1, pr1, h1, ?_, h2, ?_⟩
    · rw [selection_congr d1 d0 e1 e2]; exact hs0
    · rw [h4, hem]; simp
  · intro p rest hns hroot htracks hi
    subst hns
    rw [setSelection_cons d p rest trackIndex isMultitrack hd]
    have hs0 := selection_emit_stored d ⟨p :: rest, trackIndex, isMultitrack⟩
      Event.selectionChanged hroot
    generalize hd0 : (TimelineDock.emit
      { d with m_selection := ⟨p :: rest, trackIndex, isMultitrack⟩ }
      Event.selectionChanged) = d0 at hs0 ⊢
    have hm : d0.m_model = d.m_model := by subst hd0; rfl
    have hem : d0.emitted = d.emitted ++ [Event.selectionChanged] := by subst hd0; rfl
    have hi0 : getClipInfo d0 p.y p.x = .ok none := by
      rw [getClipInfo_model d0 d hm]; exact hi
    have hlen : d0.m_model.trackList.length ≠ 0 := by
      rw [hm]
      intro h0
      exact htracks (List.length_eq_zero.mp h0)
    have hrun : emitSelectedFromSelection d0 = .ok { d0 with m_model :=
        { tractor := d0.m_model.tractor.map fun t =>
          { t with filterIn := some 0, filterOut := some (t.length - 1) } } } := by
      unfold emitSelectedFromSelection
      rw [if_neg hlen, hs0]
      simp only [List.isEmpty_cons, Bool.false_eq_true, if_false, List.head?_cons,
        Option.map_some', Option.getD_some, bind, Except.bind]
      rw [hi0]
      rfl
    refine ⟨_, hrun, ?_, ?_⟩
    · exact hs0
    · exact hem

/-- C6, witness.  Selecting clip 1 of track 0 of the sample project announces
its producer; clearing a selection announces that nothing is selected. -/
theorem setSelection_notification_witness :
    selectionDiffers sampleDock [⟨1, 0⟩] (-1) false ∧
    (∃ d1 pr1, setSelection sampleDock [⟨1, 0⟩] (-1) false = .ok d1 ∧
      selection d1 = [⟨1, 0⟩] ∧ pr1.id = 2 ∧
      d1.emitted = sampleDock.emitted ++
        [Event.selectionChanged, Event.selected (some (.clip pr1))]) :=
  ⟨by decide,
    (setSelection_notification sampleDock [⟨1, 0⟩] (-1) false (by decide)).2.1
      ⟨1, 0⟩ [] (sampleClip 2 100) { id := 2 } rfl (by decide) rfl rfl rfl⟩

/-- C6, counterexample.  Selecting the coordinate (clip 5, track 0) on a track
of two clips changes the selection to a non-empty one, and no `selected`
notification is emitted: only selectionChanged is. -/
theorem setSelection_notification_counterexample :
    selectionDiffers sampleDock [⟨5, 0⟩] (-1) false ∧
    ∃ d1, setSelection sampleDock [⟨5, 0⟩] (-1) false = .ok d1 ∧
      d1.m_selection.selectedClips = [⟨5, 0⟩] ∧ selection d1 ≠ [] ∧
      d1.emitted = [Event.selectionChanged] :=
  ⟨by decide, _, rfl, rfl, by decide, rfl⟩

/-! ### Clip resolution policy -/

theorem chooseClipOnOtherTracks_eq (ops : Collaborators) (d : TimelineDock) (position : Int)
    (l : List Nat) :
    chooseClipOnOtherTracks ops d position l =
      ((l.findSome? (otherTest ops d position)).getD (-1, -1)) := by
  induction l with
  | nil => rfl
  | cons i rest ih =>
    simp only [chooseClipOnOtherTracks, List.findSome?_cons, otherTest, lookupNotBlank]
    by_cases h1 : (i : Int) = currentTrack d
    · simp [h1, ih]
    · by_cases h2 : isTrackLocked d i = true
      · simp [h1, h2, ih]
      · by_cases h3 : clipIndexAtPosition ops d i position ≠ -1 ∧
            isBlank d i (clipIndexAtPosition ops d i position) = false
        · simp [h1, h2, h3]
        · have h3' : ¬ (clipIndexAtPosition ops d i position ≠ -1 ∧
              (!isBlank d i (clipIndexAtPosition ops d i position)) = true) := by
            simpa using h3
          rw [if_neg h1, if_neg h2, if_neg h3', ih]
          simp [h1, h2, h3]

theorem chooseClipFromCurrentTrack_eq (ops : Collaborators) (d : TimelineDock) (position : Int) :
    chooseClipFromCurrentTrack ops d position =
      match activeTest ops d position with
      | some r => r
      | none =>
        match (List.range d.m_model.trackList.length).findSome? (otherTest ops d position) with
        | some r => r
        | none => (-1, -1) := by
  unfold chooseClipFromCurrentTrack activeTest
  rw [chooseClipOnOtherTracks_eq]
  dsimp only
  split_ifs with h1 h2 h2
  · rfl
  · exact absurd (by simpa using h1) h2
  · exact absurd (by simpa using h2) h1
  · cases (List.range d.m_model.trackList.length).findSome? (otherTest ops d position) <;> rfl

theorem chooseClipAtPosition_eq_tests (ops : Collaborators) (d : TimelineDock)
    (position trackIndex clipIndex : Int) :
    chooseClipAtPosition ops d position trackIndex clipIndex =
      chooseClipAtPositionTests ops d position trackIndex := by
  unfold chooseClipAtPosition chooseClipAtPositionTests hintTest lookupNotBlank
  simp only [chooseClipFromCurrentTrack_eq]
  by_cases h1 : trackIndex ≠ -1 ∧ isTrackLocked d trackIndex = false
  · have h1' : trackIndex ≠ -1 ∧ (!isTrackLocked d trackIndex) = true := by simpa using h1
    rw [if_pos h1', if_pos h1]
    by_cases h2 : clipIndexAtPosition ops d trackIndex position ≠ -1 ∧
        isBlank d trackIndex (clipIndexAtPosition ops d trackIndex position) = false
    · have h2' : clipIndexAtPosition ops d trackIndex position ≠ -1 ∧
          (!isBlank d trackIndex (clipIndexAtPosition ops d trackIndex position)) = true := by
        simpa using h2
      rw [if_pos h2', if_pos h2]
      rfl
    · have h2' : ¬ (clipIndexAtPosition ops d trackIndex position ≠ -1 ∧
          (!isBlank d trackIndex (clipIndexAtPosition ops d trackIndex position)) = true) := by
        simpa using h2
      rw [if_neg h2', if_neg h2]
      rfl
  · have h1' : ¬ (trackIndex ≠ -1 ∧ (!isTrackLocked d trackIndex) = true) := by simpa using h1
    rw [if_neg h1', if_neg h1]

theorem lookupNotBlank_some (ops : Collaborators) (d : TimelineDock) (trackIndex position c : Int)
    (h : lookupNotBlank ops d trackIndex position = some c) :
    c ≠ -1 ∧ isBlank d trackIndex c = false := by
  unfold lookupNotBlank at h
  dsimp only at h
  split at h
  · next hc =>
    simp only [Option.some.injEq] at h
    subst h
    exact hc
  · simp at h

theorem hintTest_some (ops : Collaborators) (d : TimelineDock) (position hint : Int)
    (r : Int × Int) (h : hintTest ops d position hint = some r) :
    r.1 = hint ∧ hint ≠ -1 ∧ isTrackLocked d r.1 = false ∧ r.2 ≠ -1 ∧ isBlank d r.1 r.2 = false := by
  unfold hintTest at h
  split at h
  · next hc =>
    cases hn : lookupNotBlank ops d hint position with
    | none => simp [hn] at h
    | some c =>
      simp only [hn, Option.map_some', Option.some.injEq] at h
      subst h
      obtain ⟨a, b⟩ := lookupNotBlank_some ops d hint position c hn
      exact ⟨rfl, hc.1, hc.2, a, b⟩
  · simp at h

theorem activeTest_some (ops : Collaborators) (d : TimelineDock) (position : Int)
    (r : Int × Int) (h : activeTest ops d position = some r) :
    r.1 = currentTrack d ∧ isTrackLocked d r.1 = false ∧ r.2 ≠ -1 ∧ isBlank d r.1 r.2 = false := by
  unfold activeTest at h
  dsimp only at h
  split at h
  · next hc =>
    simp only [Option.some.injEq] at h
    subst h
    exact ⟨rfl, hc.1, hc.2.1, hc.2.2⟩
  · simp at h

theorem otherTest_some (ops : Collaborators) (d : TimelineDock) (position : Int) (t : Nat)
    (r : Int × Int) (h : otherTest ops d position t = some r) :
    r.1 = t ∧ r.1 ≠ currentTrack d ∧ isTrackLocked d r.1 = false ∧ r.2 ≠ -1 ∧
      isBlank d r.1 r.2 = false := by
  unfold otherTest at h
  split at h
  · next hc =>
    cases hn : lookupNotBlank ops d t position with
    | none => simp [hn] at h
    | some c =>
      simp only [hn, Option.map_some', Option.some.injEq] at h
      subst h
      obtain ⟨a, b⟩ := lookupNotBlank_some ops d t position c hn
      exact ⟨rfl, hc.1, hc.2, a, b⟩
  · simp at h

/-- C7. chooseClipAtPosition never answers a coordinate on a locked track:
whenever the answered track index is not -1, that track is unlocked, the
answered clip index is not -1 and the clip is not blank; and a locked hint
track is skipped, the answer being that of the active-track and
scan-all-tracks rule. -/
theorem chooseClipAtPosition_never_locked (ops : Collaborators) (d : TimelineDock)
    (position trackIndex clipIndex : Int) :
    ((chooseClipAtPosition ops d position trackIndex clipIndex).1 ≠ -1 →
      isTrackLocked d (chooseClipAtPosition ops d position trackIndex clipIndex).1 = false ∧
      (chooseClipAtPosition ops d position trackIndex clipIndex).2 ≠ -1 ∧
      isBlank d (chooseClipAtPosition ops d position trackIndex clipIndex).1
        (chooseClipAtPosition ops d position trackIndex clipIndex).2 = false) ∧
    (isTrackLocked d trackIndex = true →
      chooseClipAtPosition ops d position trackIndex clipIndex =
        chooseClipFromCurrentTrack ops d position) := by
  constructor
  · rw [chooseClipAtPosition_eq_tests]
    unfold chooseClipAtPositionTests
    cases ha : hintTest ops d position trackIndex with
    | some r =>
      intro _
      obtain ⟨-, -, h3, h4, h5⟩ := hintTest_some ops d position trackIndex r ha
      exact ⟨h3, h4, h5⟩
    | none =>
      cases hb : activeTest ops d position with
      | some r =>
        intro _
        obtain ⟨-, h3, h4, h5⟩ := activeTest_some ops d position r hb
        exact ⟨h3, h4, h5⟩
      | none =>
        cases hc : (List.range d.m_model.trackList.length).findSome? (otherTest ops d position) with
        | some r =>
          intro _
          obtain ⟨t, -, ht⟩ := List.exists_of_findSome?_eq_some hc
          obtain ⟨-, -, h3, h4, h5⟩ := otherTest_some ops d position t r ht
          exact ⟨h3, h4, h5⟩
        | none =>
          intro h
          exact absurd rfl h
  · intro hl
    unfold chooseClipAtPosition
    have : ¬ (trackIndex ≠ -1 ∧ (!isTrackLocked d trackIndex) = true) := by simp [hl]
    rw [if_neg this]

/-- C7, witness.  The hint track 0 is locked and holds a clip under the
playhead; the answer is the clip of the active track 1. -/
theorem chooseClipAtPosition_never_locked_witness :
    isTrackLocked lockedHintDock 0 = true ∧
    chooseClipAtPosition sampleOps lockedHintDock 50 0 (-1) = (1, 0) ∧
    chooseClipAtPosition sampleOps lockedHintDock 50 0 (-1) =
      chooseClipFromCurrentTrack sampleOps lockedHintDock 50 ∧
    isTrackLocked lockedHintDock 1 = false ∧ isBlank lockedHintDock 1 0 = false :=
  ⟨by decide, by decide,
    (chooseClipAtPosition_never_locked sampleOps lockedHintDock 50 0 (-1)).2 (by decide),
    by decide, by decide⟩

theorem findSome?_range_first {β : Type} (f : Nat → Option β) (n : Nat) (r : β)
    (h : (List.range n).findSome? f = some r) :
    ∃ t, t < n ∧ f t = some r ∧ ∀ j, j < t → f j = none := by
  induction n with
  | zero => simp at h
  | succ n ih =>
    rw [List.range_succ, List.findSome?_append] at h
    cases hn : (List.range n).findSome? f with
    | some r1 =>
      rw [hn] at h
      simp only [Option.or_some, Option.some.injEq] at h
      subst h
      obtain ⟨t, ht, hf, hmin⟩ := ih hn
      exact ⟨t, Nat.lt_succ_of_lt ht, hf, hmin⟩
    | none =>
      rw [hn] at h
      simp only [Option.none_or, List.findSome?_cons, List.findSome?_nil] at h
      refine ⟨n, Nat.lt_succ_self n, ?_, ?_⟩
      · cases hfn : f n with
        | none => simp [hfn] at h
        | some b => simpa [hfn] using h
      · intro j hj
        rw [List.findSome?_eq_none_iff] at hn
        exact hn j (List.mem_range.mpr hj)

/-- The order of the tests of chooseClipAtPosition: the answer is that of the
hint test, else that of the active-track test, else that of the smallest-index
track that passes otherTest; it is (-1, -1) exactly when no test passes.  The
tests are those of the code, which take a lookup past the end of a track for a
clip. -/
theorem chooseClipAtPosition_test_order (ops : Collaborators) (d : TimelineDock)
    (position trackIndex clipIndex : Int) :
    chooseClipAtPosition ops d position trackIndex clipIndex =
      chooseClipAtPositionTests ops d position trackIndex ∧
    (chooseClipAtPosition ops d position trackIndex clipIndex = (-1, -1) ↔
      hintTest ops d position trackIndex = none ∧ activeTest ops d position = none ∧
        ∀ t, t < d.m_model.trackList.length → otherTest ops d position t = none) ∧
    (hintTest ops d position trackIndex = none → activeTest ops d position = none →
      chooseClipAtPosition ops d position trackIndex clipIndex ≠ (-1, -1) →
      ∃ t, t < d.m_model.trackList.length ∧
        otherTest ops d position t =
          some (chooseClipAtPosition ops d position trackIndex clipIndex) ∧
        ∀ j, j < t → otherTest ops d position j = none) := by
  refine ⟨chooseClipAtPosition_eq_tests ops d position trackIndex clipIndex, ?_, ?_⟩
  · rw [chooseClipAtPosition_eq_tests]
    unfold chooseClipAtPositionTests
    cases ha : hintTest ops d position trackIndex with
    | some r =>
      obtain ⟨h1, h2, -⟩ := hintTest_some ops d position trackIndex r ha
      constructor
      · intro h
        dsimp only at h
        rw [h] at h1
        exact absurd h1.symm h2
      · rintro ⟨h, -⟩
        simp at h
    | none =>
      cases hb : activeTest ops d position with
      | some r =>
        obtain ⟨-, -, h3, -⟩ := activeTest_some ops d position r hb
        constructor
        · intro h
          dsimp only at h
          rw [h] at h3
          exact absurd rfl h3
        · rintro ⟨-, h, -⟩
          simp at h
      | none =>
        cases hc : (List.range d.m_model.trackList.length).findSome? (otherTest ops d position) with
        | some r =>
          obtain ⟨t, ht, hf, -⟩ := findSome?_range_first _ _ r hc
          obtain ⟨-, -, -, h4, -⟩ := otherTest_some ops d position t r hf
          constructor
          · intro h
            dsimp only at h
            rw [h] at h4
            exact absurd rfl h4
          · rintro ⟨-, -, h⟩
            rw [h t ht] at hf
            simp at hf
        | none =>
          refine ⟨fun _ => ⟨rfl, rfl, ?_⟩, fun _ => rfl⟩
          intro t ht
          rw [List.findSome?_eq_none_iff] at hc
          exact hc t (List.mem_range.mpr ht)
  · intro ha hb hne
    rw [chooseClipAtPosition_eq_tests] at hne ⊢
    unfold chooseClipAtPositionTests at hne ⊢
    rw [ha, hb] at hne ⊢
    dsimp only at hne ⊢
    cases hc : (List.range d.m_model.trackList.length).findSome? (otherTest ops d position) with
    | some r =>
      exact findSome?_range_first _ _ r hc
    | none =>
      rw [hc] at hne
      exact absurd rfl hne

/-- On the two-track sample with the locked hint track 0, the hint test fails
and the active-track test answers clip 0 of the active track 1. -/
theorem chooseClipAtPosition_test_order_example :
    hintTest sampleOps lockedHintDock 50 0 = none ∧
    activeTest sampleOps lockedHintDock 50 = some (1, 0) ∧
    chooseClipAtPosition sampleOps lockedHintDock 50 0 (-1) = (1, 0) ∧
    chooseClipAtPosition sampleOps lockedHintDock 50 0 (-1) =
      chooseClipAtPositionTests sampleOps lockedHintDock 50 0 :=
  ⟨by decide, by decide, by decide,
    (chooseClipAtPosition_test_order sampleOps lockedHintDock 50 0 (-1)).1⟩

/-- A lookup result between -1 and the last clip index of the track passes
the test of the code exactly when it designates a non-blank clip. -/
theorem lookupNotBlank_eq_nonBlankClipAt (ops : Collaborators) (d : TimelineDock)
    (trackIndex position : Int) (h0 : 0 ≤ trackIndex)
    (hrange : ∀ t tr, d.m_model.track? t = some tr →
      -1 ≤ ops.get_clip_index_at tr position ∧
        ops.get_clip_index_at tr position < tr.clips.length) :
    lookupNotBlank ops d trackIndex position = nonBlankClipAt ops d trackIndex position := by
  unfold lookupNotBlank nonBlankClipAt designatesNonBlank clipIndexAtPosition
  have hn : ¬ trackIndex < 0 := by omega
  simp only [if_neg hn]
  cases htr : d.m_model.track? trackIndex with
  | none => simp
  | some tr =>
    obtain ⟨h1, h2⟩ := hrange trackIndex tr htr
    simp only []
    by_cases hc : ops.get_clip_index_at tr position = -1
    · have : tr.clip_info (-1) = none := by simp [Track.clip_info]
      simp [hc, this]
    · have h3 : 0 ≤ ops.get_clip_index_at tr position := by omega
      have h4 : (tr.clip_info (ops.get_clip_index_at tr position)).isSome = true := by
        unfold Track.clip_info
        rw [if_pos h3]
        rw [List.get?_eq_getElem?, Option.isSome_iff_exists]
        have : (ops.get_clip_index_at tr position).toNat < tr.clips.length := by omega
        exact ⟨_, List.getElem?_eq_getElem this⟩
      simp [hc, h4]

/-- The active-track test of the code is rule (b) when the lookup on the
active track is not below -1: the clamp keeps the index inside the track. -/
theorem activeTest_eq_activeHit (ops : Collaborators) (d : TimelineDock) (position : Int)
    (hrange : ∀ t tr, d.m_model.track? t = some tr →
      -1 ≤ ops.get_clip_index_at tr position) :
    activeTest ops d position = activeHit ops d position := by
  unfold activeTest activeHit designatesNonBlank clipIndexAtPosition clipCount
  simp only [ite_self]
  cases htr : d.m_model.track? (currentTrack d) with
  | none => simp
  | some tr =>
    have h1 := hrange _ tr htr
    simp only []
    generalize ops.get_clip_index_at tr position = c at h1 ⊢
    by_cases hc : min c ((tr.clips.length : Int) - 1) = -1
    · have : tr.clip_info (-1) = none := by simp [Track.clip_info]
      simp [hc, this]
    · have h3 : 0 ≤ min c ((tr.clips.length : Int) - 1) := by omega
      have h4 : (tr.clip_info (min c ((tr.clips.length : Int) - 1))).isSome = true := by
        unfold Track.clip_info
        rw [if_pos h3]
        rw [List.get?_eq_getElem?, Option.isSome_iff_exists]
        have : (min c ((tr.clips.length : Int) - 1)).toNat < tr.clips.length := by omega
        exact ⟨_, List.getElem?_eq_getElem this⟩
      simp [hc, h4]

/-- When the hint is -1 or a track index, and every position lookup lies
between -1 and the last clip index of its track, chooseClipAtPosition answers
as the clip resolution policy of the specification does. -/
theorem chooseClipAtPosition_eq_spec_in_range (ops : Collaborators) (d : TimelineDock)
    (position trackIndex clipIndex : Int) (hhint : -1 ≤ trackIndex)
    (hrange : ∀ t tr, d.m_model.track? t = some tr →
      -1 ≤ ops.get_clip_index_at tr position ∧
        ops.get_clip_index_at tr position < tr.clips.length) :
    chooseClipAtPosition ops d position trackIndex clipIndex =
      chooseClipAtPositionSpec ops d position trackIndex := by
  rw [chooseClipAtPosition_eq_tests]
  have ha : hintTest ops d position trackIndex = hintHit ops d position trackIndex := by
    unfold hintTest hintHit
    by_cases h : trackIndex = -1
    · simp [h]
    · rw [lookupNotBlank_eq_nonBlankClipAt ops d trackIndex position (by omega) hrange]
  have hb : activeTest ops d position = activeHit ops d position :=
    activeTest_eq_activeHit ops d position (fun t tr h => (hrange t tr h).1)
  have hc : otherTest ops d position = otherHit ops d position := by
    funext t
    unfold otherTest otherHit
    rw [lookupNotBlank_eq_nonBlankClipAt ops d t position (by omega) hrange]
  unfold chooseClipAtPositionTests chooseClipAtPositionSpec
  rw [ha, hb, hc]

/-- C8, the code at the failing input.  Three unlocked tracks of 100 frames an
entry, `[A, blank, X]` (the active track), `[B]` and `[C, D]`, the position
150 and no hint.  Rule (a) has no hint and rule (b) finds the blank of the
active track, so rule (c) decides: track 1 ends at frame 100 and has no clip
at the position, track 2 has clip D there, and the policy resolves to (track
2, clip 1).  chooseClipAtPosition answers (track 1, clip 1): the lookup on
track 1 gives the clip count 1, the loop takes it as it is, and the
coordinate, which designates no clip, is not blank. -/
theorem chooseClipAtPosition_scan_past_end :
    currentTrack scanDock = 0 ∧
    isTrackLocked scanDock 0 = false ∧ isTrackLocked scanDock 1 = false ∧
    isTrackLocked scanDock 2 = false ∧
    clipIndexAtPosition sampleOps scanDock 0 150 = 1 ∧ isBlank scanDock 0 1 = true ∧
    clipCount scanDock 1 = 1 ∧ clipIndexAtPosition sampleOps scanDock 1 150 = 1 ∧
    isBlank scanDock 1 1 = false ∧
    chooseClipAtPosition sampleOps scanDock 150 (-1) (-1) = (1, 1) ∧
    getClipInfo scanDock 1 1 = .ok none ∧
    designatedClip scanDock ⟨1, 1⟩ = none ∧
    hintHit sampleOps scanDock 150 (-1) = none ∧
    activeHit sampleOps scanDock 150 = none ∧
    otherHit sampleOps scanDock 150 1 = none ∧
    otherHit sampleOps scanDock 150 2 = some (2, 1) ∧
    designatedClip scanDock ⟨1, 2⟩ = some 6 ∧
    chooseClipAtPositionSpec sampleOps scanDock 150 (-1) = (2, 1) ∧
    chooseClipAtPosition sampleOps scanDock 150 (-1) (-1) ≠
      chooseClipAtPositionSpec sampleOps scanDock 150 (-1) :=
  ⟨rfl, by decide, by decide, by decide, by decide, by decide, by decide, by decide, by decide,
    by decide, rfl, by decide, by decide, by decide, by decide, by decide, by decide, by decide,
    by decide⟩

/-! ### Reconciliation of the selection with the rows of the model -/

/-- On a model with tracks, a call of setSelection whose first coordinate lies
on a track of the model runs to its end and leaves the arguments stored. -/
theorem setSelection_stores (d : TimelineDock) (newSelection : List QPoint)
    (trackIndex : Int) (isMultitrack : Bool)
    (htracks : d.m_model.trackList ≠ [])
    (hrange : ∀ p, newSelection.head? = some p → p.y < d.m_model.trackList.length)
    (hsame : ¬ selectionDiffers d newSelection trackIndex isMultitrack →
      d.m_selection.selectedClips = newSelection) :
    ∃ d1, setSelection d newSelection trackIndex isMultitrack = .ok d1 ∧
      d1.m_selection.selectedClips = newSelection := by
  by_cases hd : selectionDiffers d newSelection trackIndex isMultitrack
  · cases newSelection with
    | nil =>
      unfold selectionDiffers at hd
      unfold setSelection setSelectionWith
      rw [if_pos hd]
      exact ⟨_, rfl, rfl⟩
    | cons p ps =>
      rw [setSelection_cons d p ps trackIndex isMultitrack hd]
      generalize hd0 : (TimelineDock.emit
        { d with m_selection := ⟨p :: ps, trackIndex, isMultitrack⟩ }
        Event.selectionChanged) = d0
      have hm : d0.m_model = d.m_model := by subst hd0; rfl
      have hsel : d0.m_selection = ⟨p :: ps, trackIndex, isMultitrack⟩ := by subst hd0; rfl
      have hlen0 : d0.m_model.trackList.length ≠ 0 := by
        rw [hm]
        exact fun h0 => htracks (List.length_eq_zero.mp h0)
      have hr0 : ∀ q, (selection d0).head? = some q → q.y < d0.m_model.trackList.length := by
        intro q hq
        rw [hm]
        apply hrange q
        unfold selection at hq
        rw [hsel] at hq
        cases hro : d0.rootObject with
        | none => rw [hro] at hq; simp at hq
        | some r => rw [hro] at hq; exact hq
      have hc0 : selection d0 = [] → currentTrack d0 < d0.m_model.trackList.length := by
        intro hs
        unfold selection at hs
        unfold currentTrack
        rw [hsel] at hs
        cases hro : d0.rootObject with
        | none =>
          dsimp only
          have : 0 < d0.m_model.trackList.length := Nat.pos_of_ne_zero hlen0
          exact_mod_cast this
        | some r => rw [hro] at hs; simp at hs
      obtain ⟨d1, h1⟩ := emitSelectedFromSelection_total d0 hlen0 hr0 hc0
      obtain ⟨e1, -, -⟩ := emitSelectedFromSelection_tracks d0 d1 hlen0 h1
      exact ⟨d1, h1, by rw [e1, hsel]⟩
  · refine ⟨d, ?_, hsame hd⟩
    unfold selectionDiffers at hd
    unfold setSelection setSelectionWith
    rw [if_neg hd]
    rfl

theorem selection_of_not_differs (d : TimelineDock) (f : QPoint → QPoint)
    (trackIndex : Int) (isMultitrack : Bool)
    (h : ¬ selectionDiffers d (d.m_selection.selectedClips.map f) trackIndex isMultitrack) :
    d.m_selection.selectedClips = d.m_selection.selectedClips.map f := by
  unfold selectionDiffers at h
  have h1 : d.m_selection.selectedClips.map f = selection d := by
    by_contra hne
    exact h (Or.inl hne)
  unfold selection at h1
  cases hro : d.rootObject with
  | none =>
    rw [hro] at h1
    dsimp only at h1
    rw [h1]
    exact (List.map_eq_nil_iff.mp h1)
  | some r =>
    rw [hro] at h1
    exact h1.symm

/-- C9. Row-insertion reconciliation: with no single track selected and rows
`first..last` inserted in a track of the model (or in the track list, parent
row -1), onRowsInserted turns every selected clip index `c` into `c` when
`c < first` and into `c + (last - first + 1)` otherwise, the selected
coordinates keeping their order and number. -/
theorem onRowsInserted_shifts (d : TimelineDock) (parentRow first last : Int)
    (hsel : d.m_selection.selectedTrack = -1)
    (htracks : d.m_model.trackList ≠ [])
    (hparent : parentRow < d.m_model.trackList.length) :
    ∃ d1, onRowsInserted d parentRow first last = .ok d1 ∧
      d1.m_selection.selectedClips.map QPoint.x =
        d.m_selection.selectedClips.map (fun i => shiftOnInsert first last i.x) ∧
      d1.m_selection.selectedClips.length = d.m_selection.selectedClips.length := by
  unfold onRowsInserted
  rw [if_pos hsel.symm]
  dsimp only
  obtain ⟨d1, h1, h2⟩ := setSelection_stores d
    (d.m_selection.selectedClips.map fun i =>
      if i.x < first then (⟨i.x, parentRow⟩ : QPoint) else ⟨i.x + (last - first + 1), parentRow⟩)
    (-1) false htracks
    (by
      intro p hp
      cases hc : d.m_selection.selectedClips with
      | nil => rw [hc] at hp; simp at hp
      | cons q qs =>
        rw [hc] at hp
        simp only [List.map_cons, List.head?_cons, Option.some.injEq] at hp
        subst hp
        split <;> exact hparent)
    (selection_of_not_differs d _ (-1) false)
  refine ⟨d1, h1, ?_, ?_⟩
  · rw [h2, List.map_map]
    apply List.map_congr_left
    intro i _
    simp only [Function.comp, shiftOnInsert]
    split <;> rfl
  · rw [h2, List.length_map]

/-- C9, witness.  Selection {3}: two rows inserted at index 1 give {5}, at
index 5 they leave {3}, and at index 3 they give {5}. -/
theorem onRowsInserted_shifts_witness :
    rowsDock.m_selection.selectedTrack = -1 ∧
    (∃ d1, onRowsInserted rowsDock 0 1 2 = .ok d1 ∧
      d1.m_selection.selectedClips.map QPoint.x = [5] ∧
      d1.m_selection.selectedClips.length = 1) ∧
    (∃ d1, onRowsInserted rowsDock 0 5 6 = .ok d1 ∧
      d1.m_selection.selectedClips.map QPoint.x = [3] ∧
      d1.m_selection.selectedClips.length = 1) ∧
    (∃ d1, onRowsInserted rowsDock 0 3 4 = .ok d1 ∧
      d1.m_selection.selectedClips.map QPoint.x = [5] ∧
      d1.m_selection.selectedClips.length = 1) :=
  ⟨rfl,
    onRowsInserted_shifts rowsDock 0 1 2 rfl (by decide) (by decide),
    onRowsInserted_shifts rowsDock 0 5 6 rfl (by decide) (by decide),
    onRowsInserted_shifts rowsDock 0 3 4 rfl (by decide) (by decide)⟩

/-- C10, the code at the failing input.  Tracks `[N, A, B]` and `[C, D]` right
after N came in as row 0 of track 0, clip D at (clip 1, track 1) selected:
onRowsInserted rewrites the coordinate as (clip 2, track 0), which designates
clip B, while D still sits at (clip 1, track 1); and after a row left track 0,
onRowsRemoved rewrites (clip 1, track 1) as (clip 0, track 0). -/
theorem onRowsInserted_other_track :
    designatedClip twoTrackDock ⟨1, 1⟩ = some 4 ∧
    (∃ d1, onRowsInserted twoTrackDock 0 0 0 = .ok d1 ∧
      d1.m_selection.selectedClips = [⟨2, 0⟩] ∧
      designatedClip d1 ⟨2, 0⟩ = some 2 ∧ designatedClip d1 ⟨1, 1⟩ = some 4) ∧
    (∃ d2, onRowsRemoved twoTrackDock 0 0 0 = .ok d2 ∧
      d2.m_selection.selectedClips = [⟨0, 0⟩] ∧
      designatedClip d2 ⟨0, 0⟩ = some 10 ∧ designatedClip d2 ⟨1, 1⟩ = some 4) :=
  ⟨by decide, ⟨_, rfl, rfl, by decide, by decide⟩, ⟨_, rfl, rfl, by decide, by decide⟩⟩

/-! ### Ripple delete -/

theorem countBelow_le (xs : List Nat) (k c : Nat) (hn : xs.Nodup) : countBelow xs k c ≤ c - k := by
  unfold countBelow
  have hnd : (xs.filter fun p => decide (k ≤ p ∧ p < c)).Nodup := hn.filter _
  rw [← List.toFinset_card_of_nodup hnd, ← Nat.card_Ico]
  apply Finset.card_le_card
  intro p hp
  simp only [List.mem_toFinset, List.mem_filter, decide_eq_true_eq] at hp
  exact Finset.mem_Ico.mpr hp.2

theorem countBelow_succ (xs : List Nat) (k c : Nat) (hn : xs.Nodup) (hkc : k < c) :
    countBelow xs k c = countBelow xs (k + 1) c + (if k ∈ xs then 1 else 0) := by
  induction xs with
  | nil => simp [countBelow]
  | cons p ps ih =>
    have hps := (List.nodup_cons.mp hn).2
    have hp := (List.nodup_cons.mp hn).1
    have ih := ih hps
    unfold countBelow at ih ⊢
    simp only [List.filter_cons, List.mem_cons]
    by_cases h1 : p = k
    · subst h1
      have e1 : decide (p ≤ p ∧ p < c) = true := by simp [hkc]
      have e2 : decide (p + 1 ≤ p ∧ p < c) = false := by simp
      rw [e1, e2]
      simp only [if_true, List.length_cons, true_or, Bool.false_eq_true, if_false]
      rw [ih, if_neg hp]
    · by_cases h2 : k ≤ p ∧ p < c
      · have e1 : decide (k ≤ p ∧ p < c) = true := by simp [h2]
        have e2 : decide (k + 1 ≤ p ∧ p < c) = true := by
          simp only [decide_eq_true_eq]
          omega
        have e3 : (k = p ∨ k ∈ ps) ↔ k ∈ ps := by
          constructor
          · rintro (h | h)
            · exact absurd h.symm h1
            · exact h
          · exact Or.inr
        rw [e1, e2]
        simp only [if_true, List.length_cons, e3]
        rw [ih]
        omega
      · have e1 : decide (k ≤ p ∧ p < c) = false := by simp [h2]
        have e2 : decide (k + 1 ≤ p ∧ p < c) = false := by
          simp only [decide_eq_false_iff_not]
          omega
        have e3 : (k = p ∨ k ∈ ps) ↔ k ∈ ps := by
          constructor
          · rintro (h | h)
            · exact absurd h.symm h1
            · exact h
          · exact Or.inr
        rw [e1, e2]
        simp only [Bool.false_eq_true, if_false, e3]
        exact ih

theorem dropIndicesFrom_cons_of_lt {α : Type} (xs : List Nat) (c : Nat) (l : List α) :
    ∀ k, c < k → dropIndicesFrom (c :: xs) k l = dropIndicesFrom xs k l := by
  induction l with
  | nil => intro k _; rfl
  | cons a l ih =>
    intro k hk
    simp only [dropIndicesFrom, List.mem_cons]
    have e : (k = c ∨ k ∈ xs) ↔ k ∈ xs := by
      constructor
      · rintro (h | h)
        · omega
        · exact h
      · exact Or.inr
    rw [ih (k + 1) (by omega)]
    simp only [e]

/-- Erasing, from the list without the indices `xs`, the entry that sits at
the original index `c` lowered by the number of removed smaller indices, gives
the list without the indices `c :: xs`. -/
theorem eraseIdx_dropIndicesFrom {α : Type} (xs : List Nat) (c : Nat) (hn : xs.Nodup)
    (hc : c ∉ xs) (l : List α) :
    ∀ k, k ≤ c → c < k + l.length →
      (dropIndicesFrom xs k l).eraseIdx (c - k - countBelow xs k c) =
        dropIndicesFrom (c :: xs) k l := by
  induction l with
  | nil => intro k h1 h2; simp at h2; omega
  | cons a l ih =>
    intro k h1 h2
    by_cases hk : k = c
    · subst hk
      have e0 : countBelow xs k k = 0 := by
        unfold countBelow
        rw [List.length_eq_zero, List.filter_eq_nil_iff]
        intro p _
        simp only [decide_eq_true_eq]
        omega
      simp only [dropIndicesFrom, if_neg hc, List.mem_cons, true_or, if_true, e0]
      simp only [Nat.sub_self, List.eraseIdx_cons_zero]
      exact (dropIndicesFrom_cons_of_lt xs k l (k + 1) (by omega)).symm
    · have hlt : k < c := by omega
      have hcnt := countBelow_succ xs k c hn hlt
      have hle := countBelow_le xs (k + 1) c hn
      have ih := ih (k + 1) (by omega) (by simp at h2; omega)
      have hmem : (k = c ∨ k ∈ xs) ↔ k ∈ xs := by
        constructor
        · rintro (h | h)
          · exact absurd h hk
          · exact h
        · exact Or.inr
      by_cases hkx : k ∈ xs
      · simp only [dropIndicesFrom, if_pos hkx, List.mem_cons, hmem]
        rw [hcnt, if_pos hkx]
        have : c - k - (countBelow xs (k + 1) c + 1) = c - (k + 1) - countBelow xs (k + 1) c := by
          omega
        rw [this]
        exact ih
      · simp only [dropIndicesFrom, if_neg hkx, List.mem_cons, hmem]
        rw [hcnt, if_neg hkx]
        have : c - k - (countBelow xs (k + 1) c + 0) =
            (c - (k + 1) - countBelow xs (k + 1) c) + 1 := by omega
        rw [this, List.eraseIdx_cons_succ, ih]

theorem length_dropIndicesFrom_pos {α : Type} (xs : List Nat) (c : Nat) (hn : xs.Nodup)
    (hc : c ∉ xs) (l : List α) :
    ∀ k, k ≤ c → c < k + l.length →
      c - k - countBelow xs k c < (dropIndicesFrom xs k l).length := by
  induction l with
  | nil => intro k h1 h2; simp at h2; omega
  | cons a l ih =>
    intro k h1 h2
    by_cases hk : k = c
    · subst hk
      simp only [dropIndicesFrom, if_neg hc, List.length_cons]
      omega
    · have hlt : k < c := by omega
      have hcnt := countBelow_succ xs k c hn hlt
      have hle := countBelow_le xs (k + 1) c hn
      have ih := ih (k + 1) (by omega) (by simp at h2; omega)
      by_cases hkx : k ∈ xs
      · simp only [dropIndicesFrom, if_pos hkx]
        rw [hcnt, if_pos hkx]
        omega
      · simp only [dropIndicesFrom, if_neg hkx, List.length_cons]
        rw [hcnt, if_neg hkx]
        omega

theorem removeAdjustment_eq (clip : QPoint) (clipsRemoved : List QPoint) :
    removeAdjustment clip clipsRemoved =
      -((clipsRemoved.filter fun i => decide (i.y = clip.y ∧ i.x < clip.x)).length : Int) := by
  unfold removeAdjustment
  have key : ∀ (l : List QPoint) (acc : Int),
      l.foldl (fun adjustment i =>
        if clip.y = i.y ∧ clip.x > i.x then adjustment - 1 else adjustment) acc =
      acc - ((l.filter fun i => decide (i.y = clip.y ∧ i.x < clip.x)).length : Int) := by
    intro l
    induction l with
    | nil => intro acc; simp
    | cons p ps ih =>
      intro acc
      simp only [List.foldl_cons, List.filter_cons]
      by_cases h : clip.y = p.y ∧ clip.x > p.x
      · have h' : decide (p.y = clip.y ∧ p.x < clip.x) = true := by
          simp only [decide_eq_true_eq]
          exact ⟨h.1.symm, h.2⟩
        rw [if_pos h, ih, h']
        simp only [if_true, List.length_cons]
        push_cast
        ring
      · have h' : decide (p.y = clip.y ∧ p.x < clip.x) = false := by
          simp only [decide_eq_false_iff_not]
          exact fun hh => h ⟨hh.1.symm, hh.2⟩
        rw [if_neg h, ih, h']
        simp
  rw [key]
  simp

theorem dropIndicesFrom_congr {α : Type} (xs ys : List Nat) (h : ∀ k, k ∈ xs ↔ k ∈ ys)
    (l : List α) : ∀ k, dropIndicesFrom xs k l = dropIndicesFrom ys k l := by
  induction l with
  | nil => intro k; rfl
  | cons a l ih =>
    intro k
    simp only [dropIndicesFrom, h k, ih (k + 1)]

theorem dropIndicesFrom_nil {α : Type} (l : List α) : ∀ k, dropIndicesFrom [] k l = l := by
  induction l with
  | nil => intro k; rfl
  | cons a l ih => intro k; simp [dropIndicesFrom, ih (k + 1)]

theorem track?_some (m : MultitrackModel) (t : Int) (tr : Track) (h : m.track? t = some tr) :
    0 ≤ t ∧ ∃ tt, m.tractor = some tt ∧ tt.tracks.get? t.toNat = some tr := by
  unfold MultitrackModel.track? at h
  split at h
  · next h0 =>
    refine ⟨h0, ?_⟩
    unfold MultitrackModel.trackList at h
    cases htt : m.tractor with
    | none => simp [htt] at h
    | some tt => simp only [htt] at h; exact ⟨tt, rfl, h⟩
  · simp at h

theorem modify_congr_at {α : Type} (f g : α → α) (n : Nat) (l : List α) (a : α)
    (ha : l.get? n = some a) (hfg : f a = g a) : List.modify f n l = List.modify g n l := by
  rw [List.modify_eq_set_get?, List.modify_eq_set_get?, ha]
  simp [hfg]

theorem removeClip_eq (m : MultitrackModel) (t c : Int) (tr : Track)
    (h : m.track? t = some tr) (hc : 0 ≤ c) :
    m.removeClip t c = m.setTrackClips t.toNat (tr.clips.eraseIdx c.toNat) := by
  obtain ⟨h0, tt, htt, hget⟩ := track?_some m t tr h
  unfold MultitrackModel.removeClip MultitrackModel.setTrackClips
  rw [if_pos ⟨h0, hc⟩, htt]
  simp only [Option.map_some']
  rw [modify_congr_at _ (fun tr1 : Track => { tr1 with clips := tr.clips.eraseIdx c.toNat })
    t.toNat tt.tracks tr hget rfl]

theorem setTrackClips_setTrackClips (m : MultitrackModel) (t : Nat) (a b : List ClipInfo) :
    (m.setTrackClips t a).setTrackClips t b = m.setTrackClips t b := by
  unfold MultitrackModel.setTrackClips
  cases m.tractor with
  | none => rfl
  | some tt =>
    simp only [Option.map_some', List.modify_modify_eq]
    rfl

theorem setTrackClips_self (m : MultitrackModel) (t : Nat) (tr : Track)
    (h : m.track? t = some tr) : m.setTrackClips t tr.clips = m := by
  obtain ⟨-, tt, htt, hget⟩ := track?_some m t tr h
  unfold MultitrackModel.setTrackClips
  have hm : m = { tractor := some tt } := by cases m; simp_all
  rw [htt]
  simp only [Option.map_some']
  rw [modify_congr_at (fun tr1 : Track => { tr1 with clips := tr.clips }) id t tt.tracks tr
    (by simpa using hget) rfl]
  have : List.modify id t tt.tracks = tt.tracks := by
    apply List.ext_getElem?
    intro n
    rw [List.getElem?_modify]
    cases tt.tracks[n]? <;> simp
  rw [this, hm]

theorem track?_setTrackClips (m : MultitrackModel) (t : Nat) (tr : Track) (cl : List ClipInfo)
    (h : m.track? t = some tr) :
    (m.setTrackClips t cl).track? t = some { tr with clips := cl } := by
  obtain ⟨-, tt, htt, hget⟩ := track?_some m t tr h
  unfold MultitrackModel.track? MultitrackModel.trackList MultitrackModel.setTrackClips
  rw [htt]
  simp only [Option.map_some', Int.toNat_ofNat, Int.ofNat_zero_le, if_true] at hget ⊢
  rw [List.get?_eq_getElem?] at hget ⊢
  rw [List.getElem?_modify_eq, hget]
  rfl

theorem trackAt_of_track? (m : MultitrackModel) (t : Int) (tr : Track)
    (h : m.track? t = some tr) : trackAt m t = .ok tr := by
  unfold MultitrackModel.track? at h
  unfold trackAt
  split at h
  · next h0 => rw [if_pos h0, h]
  · simp at h

theorem remove_step (d : TimelineDock) (t : Nat) (tr : Track) (idx : Int) (i : ClipInfo)
    (htrack : d.m_model.track? t = some tr) (hunl : tr.locked = false) (h0 : 0 ≤ idx)
    (hget : tr.clips.get? idx.toNat = some i) :
    remove d t idx = .ok (d.push (UndoCommand.RemoveCommand t idx i.producer)) := by
  have hlen : d.m_model.trackList.length ≠ 0 := by
    intro hz
    have hnil := List.length_eq_zero.mp hz
    unfold MultitrackModel.track? at htrack
    rw [hnil] at htrack
    simp at htrack
  have hlock : isTrackLocked d t = false := by
    unfold isTrackLocked
    rw [htrack]
    exact hunl
  have hinfo : getClipInfo d t idx = .ok (some i) := by
    unfold getClipInfo
    rw [if_pos ⟨h0, Int.ofNat_zero_le t⟩, trackAt_of_track? _ _ _ htrack]
    simp only [bind, Except.bind, pure, Except.pure, Track.clip_info, if_pos h0, hget]
  unfold remove
  rw [if_neg hlen, hlock]
  simp only [Bool.false_eq_true, if_false, producerForClip, hinfo, bind, Except.bind, pure,
    Except.pure]

theorem get?_dropIndicesFrom_isSome {α : Type} (l : List α) (n : Nat) (h : n < l.length) :
    ∃ a, l.get? n = some a := ⟨_, List.get?_eq_get h⟩

/-- The loop of the ripple delete, from any point of its run: with the clips
`removed` already taken out of track `t` and the clips `rest` still to go, it
ends with all of them taken out, having pushed one RemoveCommand per clip of
`rest` at the index announced by the specification. -/
theorem removeClips_spec (m0 : MultitrackModel) (t : Nat) (tr0 : Track)
    (h0 : m0.track? t = some tr0) (hunl : tr0.locked = false) :
    ∀ (rest removed : List QPoint) (d : TimelineDock),
      (∀ p ∈ removed ++ rest, p.y = t ∧ 0 ≤ p.x ∧ p.x < tr0.clips.length) →
      ((removed ++ rest).map QPoint.x).Nodup →
      d.m_model = m0.setTrackClips t
        (dropIndicesFrom (removed.map fun p => p.x.toNat) 0 tr0.clips) →
      ∃ d1 cmds, removeClips d rest removed = .ok d1 ∧
        d1.m_model = m0.setTrackClips t
          (dropIndicesFrom ((removed ++ rest).map fun p => p.x.toNat) 0 tr0.clips) ∧
        d1.undoStack = d.undoStack ++ cmds ∧
        cmds.map removeTarget = (rippleTargets removed rest).map some ∧
        d1.m_selection = d.m_selection ∧ d1.rootObject = d.rootObject ∧
        d1.emitted = d.emitted := by
  intro rest
  induction rest with
  | nil =>
    intro removed d _ _ hm
    refine ⟨d, [], rfl, ?_, by simp, rfl, rfl, rfl, rfl⟩
    simpa using hm
  | cons clip rest ih =>
    intro removed d hall hnd hm
    have hclip := hall clip (by simp)
    obtain ⟨hy, hx0, hxlt⟩ := hclip
    -- the clip is not among the removed ones
    have hnotin : clip ∉ removed := by
      intro hin
      rw [List.map_append, List.map_cons] at hnd
      have := (List.nodup_append.mp hnd).2.2
      exact this (List.mem_map_of_mem QPoint.x hin) (List.mem_cons_self _ _)
    have hcont : ¬ (removed.contains clip) = true := by
      simpa using hnotin
    -- indices as natural numbers
    have hremNodup : (removed.map fun p => p.x.toNat).Nodup := by
      have h1 : (removed.map QPoint.x).Nodup := by
        rw [List.map_append] at hnd
        exact (List.nodup_append.mp hnd).1
      have h2 : (removed.map fun p => p.x.toNat) = (removed.map QPoint.x).map Int.toNat := by
        rw [List.map_map]; rfl
      rw [h2]
      apply List.Nodup.map_on _ h1
      intro a ha b hb hab
      obtain ⟨p, hp, rfl⟩ := List.mem_map.mp ha
      obtain ⟨q, hq, rfl⟩ := List.mem_map.mp hb
      have hp0 := (hall p (by simp [hp])).2.1
      have hq0 := (hall q (by simp [hq])).2.1
      omega
    have hcNotin : clip.x.toNat ∉ (removed.map fun p => p.x.toNat) := by
      intro hin
      obtain ⟨p, hp, hpe⟩ := List.mem_map.mp hin
      have hp0 := (hall p (by simp [hp])).2.1
      have hxe : p.x = clip.x := by omega
      rw [List.map_append, List.map_cons] at hnd
      have := (List.nodup_append.mp hnd).2.2
      exact this (List.mem_map.mpr ⟨p, hp, hxe⟩) (List.mem_cons_self _ _)
    have hcLt : clip.x.toNat < 0 + tr0.clips.length := by omega
    -- the count of the code is the count of smaller removed indices
    have hcount : ((removed.filter fun i => decide (i.y = clip.y ∧ i.x < clip.x)).length) =
        countBelow (removed.map fun p => p.x.toNat) 0 clip.x.toNat := by
      unfold countBelow
      rw [List.filter_map, List.length_map]
      congr 1
      apply List.filter_congr
      intro p hp
      have hp' := hall p (by simp [hp])
      simp only [Function.comp, decide_eq_decide]
      constructor
      · rintro ⟨-, h2⟩
        omega
      · rintro ⟨-, h2⟩
        exact ⟨by rw [hp'.1, hy], by omega⟩
    have hle := countBelow_le (removed.map fun p => p.x.toNat) 0 clip.x.toNat hremNodup
    have hidx0 : 0 ≤ clip.x + removeAdjustment clip removed := by
      rw [removeAdjustment_eq, hcount]
      omega
    have hidxNat : (clip.x + removeAdjustment clip removed).toNat =
        clip.x.toNat - 0 - countBelow (removed.map fun p => p.x.toNat) 0 clip.x.toNat := by
      rw [removeAdjustment_eq, hcount]
      omega
    -- the current clips of the track
    have htrack : d.m_model.track? t = some (Track.mk
        (dropIndicesFrom (removed.map fun p => p.x.toNat) 0 tr0.clips) tr0.locked) := by
      rw [hm]
      exact track?_setTrackClips m0 t tr0 _ h0
    have hpos := length_dropIndicesFrom_pos (removed.map fun p => p.x.toNat) clip.x.toNat
      hremNodup hcNotin tr0.clips 0 (Nat.zero_le _) hcLt
    obtain ⟨i, hi⟩ := get?_dropIndicesFrom_isSome
      (dropIndicesFrom (removed.map fun p => p.x.toNat) 0 tr0.clips) _ hpos
    rw [← hidxNat] at hi
    have hstep := remove_step d t _ (clip.x + removeAdjustment clip removed) i htrack hunl hidx0 hi
    -- the model after the removal
    have hm1 : (d.push (UndoCommand.RemoveCommand (t : Int)
          (clip.x + removeAdjustment clip removed) i.producer)).m_model =
        m0.setTrackClips t
          (dropIndicesFrom ((removed ++ [clip]).map fun p => p.x.toNat) 0 tr0.clips) := by
      show (d.m_model.removeClip (t : Int) (clip.x + removeAdjustment clip removed)) = _
      rw [removeClip_eq d.m_model _ _ _ htrack hidx0, hm, Int.toNat_ofNat,
        setTrackClips_setTrackClips]
      dsimp only
      rw [hidxNat, eraseIdx_dropIndicesFrom _ _ hremNodup hcNotin tr0.clips 0 (Nat.zero_le _) hcLt]
      congr 1
      apply dropIndicesFrom_congr
      intro k
      simp only [List.map_append, List.map_cons, List.map_nil, List.mem_cons, List.mem_append,
        List.mem_singleton]
      tauto
    obtain ⟨d1, cmds, hrun, hmodel, hstack, htargets, e1, e2, e3⟩ :=
      ih (removed ++ [clip])
        (d.push (UndoCommand.RemoveCommand (t : Int)
          (clip.x + removeAdjustment clip removed) i.producer))
        (by simpa [List.append_assoc] using hall)
        (by simpa [List.append_assoc] using hnd)
        hm1
    refine ⟨d1, UndoStackCall.push (UndoCommand.RemoveCommand (t : Int)
        (clip.x + removeAdjustment clip removed) i.producer) :: cmds, ?_, ?_, ?_, ?_, e1, e2, e3⟩
    · unfold removeClips
      rw [if_pos hcont]
      simp only [bind, Except.bind]
      rw [hy, hstep]
      exact hrun
    · rw [hmodel]
      simp [List.append_assoc]
    · rw [hstack]
      simp [TimelineDock.push]
    · simp only [List.map_cons, rippleTargets, htargets, removeTarget]
      rw [removeAdjustment_eq, hy]
      rfl

/-- C4. Ripple delete of a selection of distinct, in-range clips of one
unlocked track, in any click order: removeSelection(false) issues one remove
per selected clip, at the original index lowered by the number of already
processed selected clips of the track with a smaller original index, and the
track ends as the original track without the clips originally at the selected
indices, whatever the click order (so the same as removing them in ascending
order); the other tracks are left as they were. -/
theorem removeSelection_ripple (ops : Collaborators) (d : TimelineDock) (t : Nat) (tr : Track)
    (hne : selection d ≠ [])
    (hcur : 0 ≤ currentTrack d) (hcurUnlocked : isTrackLocked d (currentTrack d) = false)
    (htrack : d.m_model.track? t = some tr) (hunl : tr.locked = false)
    (hsel : ∀ p ∈ selection d, p.y = t ∧ 0 ≤ p.x ∧ p.x < tr.clips.length)
    (hnodup : ((selection d).map QPoint.x).Nodup) :
    ∃ d1 cmds, removeSelection ops d false = .ok d1 ∧
      d1.m_model =
        d.m_model.setTrackClips t (withoutIndices tr.clips ((selection d).map QPoint.x)) ∧
      cmds.map removeTarget = (rippleTargets [] (selection d)).map some ∧
      d1.undoStack =
        (if (selection d).length > 1 then
          d.undoStack ++ [UndoStackCall.beginMacro (selection d).length] ++ cmds
            ++ [UndoStackCall.endMacro]
        else d.undoStack ++ cmds) ∧
      ∀ sel : List QPoint, sel.Perm (selection d) →
        withoutIndices tr.clips (sel.map QPoint.x) =
          withoutIndices tr.clips ((selection d).map QPoint.x) := by
  have hempty : (selection d).isEmpty = false := by
    cases hs : selection d with
    | nil => exact absurd hs hne
    | cons p ps => rfl
  have hguard : ¬ ((selection d).isEmpty = true ∨ currentTrack d < 0) := by
    rw [hempty]
    simp only [Bool.false_eq_true, false_or, not_lt]
    exact hcur
  -- the dock on which the loop starts
  have hstart : ∀ d0 : TimelineDock, d0.m_model = d.m_model →
      ∃ d1 cmds, removeClips d0 (selection d) [] = .ok d1 ∧
        d1.m_model =
          d.m_model.setTrackClips t (withoutIndices tr.clips ((selection d).map QPoint.x)) ∧
        d1.undoStack = d0.undoStack ++ cmds ∧
        cmds.map removeTarget = (rippleTargets [] (selection d)).map some := by
    intro d0 hd0
    obtain ⟨d1, cmds, h1, h2, h3, h4, -⟩ := removeClips_spec d.m_model t tr htrack hunl
      (selection d) [] d0 (by simpa using hsel) (by simpa using hnodup)
      (by
        rw [hd0]
        simp only [List.map_nil]
        rw [dropIndicesFrom_nil, setTrackClips_self _ _ _ htrack])
    refine ⟨d1, cmds, h1, ?_, h3, h4⟩
    rw [h2]
    unfold withoutIndices
    simp only [List.nil_append, List.map_map]
    rfl
  unfold removeSelection
  rw [hcurUnlocked, hempty]
  simp only [Bool.false_eq_true, if_false]
  unfold removeSelected
  rw [if_neg hguard]
  simp only [Bool.false_eq_true, if_false, bind, Except.bind]
  by_cases hn : (selection d).length > 1
  · obtain ⟨d1, cmds, h1, h2, h3, h4⟩ := hstart
      { d with undoStack := d.undoStack ++ [UndoStackCall.beginMacro (selection d).length] } rfl
    simp only [if_pos hn]
    rw [h1]
    refine ⟨_, cmds, rfl, h2, h4, ?_, ?_⟩
    · simp only [pure, Except.pure, h3]
    · intro sel hp
      unfold withoutIndices
      apply dropIndicesFrom_congr
      intro k
      simp only [List.mem_map]
      constructor
      · rintro ⟨a, ⟨q, hq, rfl⟩, rfl⟩
        exact ⟨q.x, ⟨q, hp.mem_iff.mp hq, rfl⟩, rfl⟩
      · rintro ⟨a, ⟨q, hq, rfl⟩, rfl⟩
        exact ⟨q.x, ⟨q, hp.mem_iff.mpr hq, rfl⟩, rfl⟩
  · obtain ⟨d1, cmds, h1, h2, h3, h4⟩ := hstart d rfl
    simp only [if_neg hn]
    rw [h1]
    refine ⟨_, cmds, rfl, h2, h4, h3, ?_⟩
    intro sel hp
    unfold withoutIndices
    apply dropIndicesFrom_congr
    intro k
    simp only [List.mem_map]
    constructor
    · rintro ⟨a, ⟨q, hq, rfl⟩, rfl⟩
      exact ⟨q.x, ⟨q, hp.mem_iff.mp hq, rfl⟩, rfl⟩
    · rintro ⟨a, ⟨q, hq, rfl⟩, rfl⟩
      exact ⟨q.x, ⟨q, hp.mem_iff.mpr hq, rfl⟩, rfl⟩

/-- C4, witness.  The clips at the indices 2, 0, 1 of the track A, B, C, D,
clicked in that order: the removes go to the indices 2, 0, 0 and leave the
track D, as the removal in the order 0, 1, 2 does. -/
theorem removeSelection_ripple_witness :
    (∃ d1, removeSelection sampleOps (rippleDock clickOrder) false = .ok d1 ∧
      d1.m_model.trackList = [{ clips := [sampleClip 4 300] }] ∧
      d1.undoStack.filterMap removeTarget = [(0, 2), (0, 0), (0, 0)]) ∧
    (∃ d2, removeSelection sampleOps (rippleDock [⟨0, 0⟩, ⟨1, 0⟩, ⟨2, 0⟩]) false = .ok d2 ∧
      d2.m_model.trackList = [{ clips := [sampleClip 4 300] }] ∧
      d2.undoStack.filterMap removeTarget = [(0, 0), (0, 0), (0, 0)]) ∧
    (∃ d1 cmds, removeSelection sampleOps (rippleDock clickOrder) false = .ok d1 ∧
      d1.m_model = (rippleDock clickOrder).m_model.setTrackClips 0
        (withoutIndices rippleTrack.clips ((selection (rippleDock clickOrder)).map QPoint.x)) ∧
      cmds.map removeTarget = (rippleTargets [] (selection (rippleDock clickOrder))).map some ∧
      d1.undoStack =
        (if (selection (rippleDock clickOrder)).length > 1 then
          (rippleDock clickOrder).undoStack
            ++ [UndoStackCall.beginMacro (selection (rippleDock clickOrder)).length] ++ cmds
            ++ [UndoStackCall.endMacro]
        else (rippleDock clickOrder).undoStack ++ cmds) ∧
      ∀ sel : List QPoint, sel.Perm (selection (rippleDock clickOrder)) →
        withoutIndices rippleTrack.clips (sel.map QPoint.x) =
          withoutIndices rippleTrack.clips
            ((selection (rippleDock clickOrder)).map QPoint.x)) :=
  ⟨⟨_, rfl, by decide, by decide⟩, ⟨_, rfl, by decide, by decide⟩,
    removeSelection_ripple sampleOps (rippleDock clickOrder) 0 rippleTrack
      (by decide) (by decide) (by decide) (by decide) (by decide) (by decide) (by decide)⟩

/-! ### Select all -/

theorem mem_allNonBlankClips (d : TimelineDock) (p : QPoint) :
    p ∈ allNonBlankClips d ↔ designatesNonBlank d p = true := by
  unfold allNonBlankClips designatesNonBlank MultitrackModel.rowCount MultitrackModel.clipRowCount
    MultitrackModel.track? Track.clip_info
  simp only [List.mem_flatMap, List.mem_filterMap, List.mem_range]
  constructor
  · rintro ⟨y, hy, x, hx, hp⟩
    split at hp
    · rename_i hb
      simp only [Option.some.injEq] at hp
      subst hp
      simp only [Int.natCast_nonneg, if_true, Int.toNat_ofNat]
      rw [List.get?_eq_get hy] at hx ⊢
      simp only at hx ⊢
      rw [List.get?_eq_get hx]
      simpa using hb
    · simp at hp
  · intro h
    split at h
    · simp at h
    · rename_i t ht
      simp only [Bool.and_eq_true, Option.isSome_iff_exists] at h
      obtain ⟨⟨i, hi⟩, hb⟩ := h
      split at ht
      · rename_i hy0
        split at hi
        · rename_i hx0
          have hy := List.get?_eq_some.mp ht
          have hx := List.get?_eq_some.mp hi
          obtain ⟨hy, -⟩ := hy
          obtain ⟨hx, -⟩ := hx
          refine ⟨p.y.toNat, hy, p.x.toNat, ?_, ?_⟩
          · rw [ht]; exact hx
          · rw [Int.toNat_of_nonneg hy0, Int.toNat_of_nonneg hx0, if_pos hb]
        · simp at hi
      · simp at ht

theorem allNonBlankClips_sorted (d : TimelineDock) :
    (allNonBlankClips d).Pairwise QPoint.before := by
  unfold allNonBlankClips
  rw [List.pairwise_flatMap]
  constructor
  · intro y _
    apply List.Pairwise.filterMap _ _ (List.pairwise_lt_range _)
    intro a b hab p hp q hq
    simp only [Option.mem_def] at hp hq
    split at hp <;> simp only [Option.some.injEq, reduceCtorEq] at hp
    split at hq <;> simp only [Option.some.injEq, reduceCtorEq] at hq
    subst hp hq
    exact Or.inr ⟨rfl, by show (a : Int) < b; exact_mod_cast hab⟩
  · apply List.Pairwise.imp _ (List.pairwise_lt_range _)
    intro a b hab p hp q hq
    simp only [List.mem_filterMap] at hp hq
    obtain ⟨x, -, hp⟩ := hp
    obtain ⟨x2, -, hq⟩ := hq
    split at hp <;> simp only [Option.some.injEq, reduceCtorEq] at hp
    split at hq <;> simp only [Option.some.injEq, reduceCtorEq] at hq
    subst hp hq
    exact Or.inl (by show (a : Int) < b; exact_mod_cast hab)

theorem QPoint.before_irrefl (p : QPoint) : ¬ p.before p := by
  unfold QPoint.before
  omega

theorem allNonBlankClips_head_range (d : TimelineDock) (p : QPoint)
    (h : (allNonBlankClips d).head? = some p) : p.y < d.m_model.trackList.length := by
  have hm : p ∈ allNonBlankClips d := List.mem_of_mem_head? h
  rw [mem_allNonBlankClips] at hm
  unfold designatesNonBlank at hm
  split at hm
  · simp at hm
  · rename_i t ht
    unfold MultitrackModel.track? at ht
    split at ht
    · have := (List.get?_eq_some.mp ht).1
      omega
    · simp at ht

/-- The arguments of a call of setSelection that runs to its end are stored,
when the call is one that changes the selection or the stored list is already
the new one. -/
theorem setSelection_stores_list (d : TimelineDock) (newSelection : List QPoint)
    (trackIndex : Int) (isMultitrack : Bool)
    (htracks : newSelection ≠ [] → d.m_model.trackList ≠ [])
    (hrange : ∀ p, newSelection.head? = some p → p.y < d.m_model.trackList.length)
    (hroot : d.rootObject ≠ none ∨ newSelection ≠ []) :
    ∃ d1, setSelection d newSelection trackIndex isMultitrack = .ok d1 ∧
      d1.m_selection.selectedClips = newSelection := by
  have hsame : ¬ selectionDiffers d newSelection trackIndex isMultitrack →
      d.m_selection.selectedClips = newSelection := by
    intro hd
    unfold selectionDiffers at hd
    have h1 : newSelection = selection d := by
      by_contra hne
      exact hd (Or.inl hne)
    unfold selection at h1
    cases hro : d.rootObject with
    | none =>
      rw [hro] at h1
      rcases hroot with h | h
      · exact absurd hro h
      · exact absurd h1 h
    | some r =>
      rw [hro] at h1
      exact h1.symm
  cases newSelection with
  | nil =>
    by_cases hd : selectionDiffers d [] trackIndex isMultitrack
    · unfold selectionDiffers at hd
      unfold setSelection setSelectionWith
      rw [if_pos hd]
      exact ⟨_, rfl, rfl⟩
    · refine ⟨d, ?_, hsame hd⟩
      unfold selectionDiffers at hd
      unfold setSelection setSelectionWith
      rw [if_neg hd]
      rfl
  | cons p ps =>
    exact setSelection_stores d (p :: ps) trackIndex isMultitrack (htracks (by simp)) hrange hsame

/-- C11. selectAll sets the selection to exactly the coordinates of all
non-blank clips of all tracks: the call runs to its end, the stored list is the
list built by the two loops, a coordinate is in it if and only if it designates
a non-blank clip of the model, no coordinate is in it twice, and the list is in
ascending track order and, within a track, in ascending clip order.  The QML
view is loaded or there is a clip to select: with a null root object a call
with nothing to select is taken for a call that changes nothing. -/
theorem selectAll_selects_all_non_blank (d : TimelineDock)
    (hroot : d.rootObject ≠ none ∨ allNonBlankClips d ≠ []) :
    ∃ d1, selectAll d = .ok d1 ∧
      d1.m_selection.selectedClips = allNonBlankClips d ∧
      (∀ p, p ∈ d1.m_selection.selectedClips ↔ designatesNonBlank d p = true) ∧
      d1.m_selection.selectedClips.Nodup ∧
      d1.m_selection.selectedClips.Pairwise QPoint.before := by
  obtain ⟨d1, h1, h2⟩ := setSelection_stores_list d (allNonBlankClips d) (-1) false
    (by
      intro hne h0
      obtain ⟨q, hq⟩ : ∃ q, (allNonBlankClips d).head? = some q := by
        cases hl : allNonBlankClips d with
        | nil => exact absurd hl hne
        | cons q qs => exact ⟨q, rfl⟩
      have hq0 : designatesNonBlank d q = true :=
        (mem_allNonBlankClips d q).mp (List.mem_of_mem_head? hq)
      unfold designatesNonBlank MultitrackModel.track? at hq0
      rw [h0] at hq0
      simp at hq0)
    (allNonBlankClips_head_range d) hroot
  refine ⟨d1, h1, h2, ?_, ?_, ?_⟩
  · intro p
    rw [h2]
    exact mem_allNonBlankClips d p
  · rw [h2]
    exact (allNonBlankClips_sorted d).imp_of_mem (fun {a b} _ _ hab hEq => by
      subst hEq
      exact QPoint.before_irrefl a hab)
  · rw [h2]
    exact allNonBlankClips_sorted d

/-- C11, witness.  Track 0 = [blank, A, B] and track 1 = [C, blank] yield the
(clip, track) list (1,0), (2,0), (0,1) in that order. -/
theorem selectAll_selects_all_non_blank_witness :
    (selectAllDock.rootObject ≠ none ∨ allNonBlankClips selectAllDock ≠ []) ∧
    ∃ d1, selectAll selectAllDock = .ok d1 ∧
      d1.m_selection.selectedClips = [⟨1, 0⟩, ⟨2, 0⟩, ⟨0, 1⟩] :=
  ⟨Or.inl (by decide), by
    obtain ⟨d1, h1, h2, -⟩ := selectAll_selects_all_non_blank selectAllDock (Or.inl (by decide))
    exact ⟨d1, h1, h2.trans (by decide)⟩⟩

/-! ### Save and restore of the selection -/

theorem getClipInfo_eq (d : TimelineDock) (trackIndex clipIndex : Int) (tr : Track)
    (htr : d.m_model.track? trackIndex = some tr) :
    getClipInfo d trackIndex clipIndex = .ok (tr.clip_info clipIndex) := by
  have h0 : 0 ≤ trackIndex := by
    unfold MultitrackModel.track? at htr
    by_contra hneg
    rw [if_neg hneg] at htr
    cases htr
  unfold getClipInfo
  by_cases hc : clipIndex ≥ 0 ∧ trackIndex ≥ 0
  · rw [if_pos hc, trackAt_of_track? d.m_model trackIndex tr htr]
    rfl
  · rw [if_neg hc]
    have hneg : ¬ 0 ≤ clipIndex := fun h => hc ⟨h, h0⟩
    unfold Track.clip_info
    rw [if_neg hneg]
    rfl

theorem firstSelectedTrack_range (d : TimelineDock)
    (h : firstSelectedTrack d < d.m_model.trackList.length) :
    (∀ p, (selection d).head? = some p → p.y < d.m_model.trackList.length) ∧
      (selection d = [] → currentTrack d < d.m_model.trackList.length) := by
  unfold firstSelectedTrack at h
  constructor
  · intro p hp
    cases hs : selection d with
    | nil => rw [hs] at hp; simp at hp
    | cons q qs =>
      rw [hs] at hp h
      simp only [List.head?_cons, Option.some.injEq] at hp
      subst hp
      simpa using h
  · intro hs
    rw [hs] at h
    simpa using h

theorem restoreSelection_eq (d : TimelineDock) (s : Selection)
    (h : d.m_savedSelection = some s) :
    restoreSelection d = emitSelectedFromSelection
      (TimelineDock.emit { d with m_selection := s } Event.selectionChanged) := by
  unfold restoreSelection
  split
  · rename_i hn
    rw [h] at hn
    cases hn
  · rename_i saved hsv
    rw [h] at hsv
    cases hsv
    rfl

/-- On a model with tracks, with the track it looks at below the track count,
emitSelectedFromSelection runs to its end, leaves the selection alone, and
emits the clip-selected notification of the announced producer, or nothing
when there is none. -/
theorem emitSelectedFromSelection_announced (d : TimelineDock)
    (hne : d.m_model.trackList.length ≠ 0)
    (hft : firstSelectedTrack d < d.m_model.trackList.length) :
    ∃ d1, emitSelectedFromSelection d = .ok d1 ∧ d1.m_selection = d.m_selection ∧
      (∀ pr, announcedProducer d = some pr →
        ∃ pr1, pr1.id = pr.id ∧
          pr1.multitrackItem = some (firstSelectedClip d, firstSelectedTrack d) ∧
          d1.emitted = d.emitted ++ [Event.selected (some (.clip pr1))]) ∧
      (announcedProducer d = none → d1.emitted = d.emitted) := by
  have hrun : emitSelectedFromSelection d = (do
      let info ← getClipInfo d (firstSelectedTrack d) (firstSelectedClip d)
      let d ← emitSelectedClip d (firstSelectedTrack d) (firstSelectedClip d) info
      pure { d with m_model := { tractor := d.m_model.tractor.map fun t =>
        { t with filterIn := some 0, filterOut := some (t.length - 1) } } }) := by
    unfold emitSelectedFromSelection
    rw [if_neg hne]
    rfl
  rw [hrun]
  unfold announcedProducer
  generalize firstSelectedTrack d = ti at hft ⊢
  generalize firstSelectedClip d = ci
  by_cases h0 : 0 ≤ ti
  · have hlt : ti.toNat < d.m_model.trackList.length := by omega
    have htr : d.m_model.track? ti = some (d.m_model.trackList.get ⟨ti.toNat, hlt⟩) := by
      unfold MultitrackModel.track?
      rw [if_pos h0, List.get?_eq_get hlt]
    generalize d.m_model.trackList.get ⟨ti.toNat, hlt⟩ = tr at htr
    rw [getClipInfo_eq d ti ci tr htr, htr]
    simp only [bind, Except.bind]
    cases hi : tr.clip_info ci with
    | none => exact ⟨_, rfl, rfl, (fun pr h => by cases h), fun _ => rfl⟩
    | some i =>
      unfold emitSelectedClip
      dsimp only
      cases hp : i.producer with
      | none => exact ⟨_, rfl, rfl, (fun pr h => by cases h), fun _ => rfl⟩
      | some p =>
        dsimp only
        by_cases hv : p.is_valid = true
        · rw [if_pos hv, if_pos hv]
          obtain ⟨a, ha⟩ := getClipInfo_total
            { d with m_updateCommand := some (UpdateCommand.mk ti ci i.start) } ti tr
            (trackAt_of_track? d.m_model ti tr htr) (ci - 1)
          obtain ⟨b, hb⟩ := getClipInfo_total
            { d with m_updateCommand := some (UpdateCommand.mk ti ci i.start) } ti tr
            (trackAt_of_track? d.m_model ti tr htr) (ci + 1)
          simp only [bind, Except.bind]
          rw [ha]
          dsimp only
          rw [hb]
          refine ⟨_, rfl, rfl, ?_, fun h => by cases h⟩
          intro pr hpr
          cases hpr
          refine ⟨_, ?_, ?_, rfl⟩
          · cases transitionNeighbour a <;> cases transitionNeighbour b <;> rfl
          · cases transitionNeighbour a <;> cases transitionNeighbour b <;> rfl
        · rw [if_neg hv, if_neg hv]
          exact ⟨_, rfl, rfl, (fun pr h => by cases h), fun _ => rfl⟩
  · have htr : d.m_model.track? ti = none := by
      unfold MultitrackModel.track?
      rw [if_neg h0]
    have hg : getClipInfo d ti ci = .ok none := by
      unfold getClipInfo
      rw [if_neg (fun h => h0 h.2)]
      rfl
    rw [hg, htr]
    exact ⟨_, rfl, rfl, (fun pr h => by cases h), fun _ => rfl⟩

/-- C12 (amended).  saveAndClearSelection stores the selection `s` of the dock
in `m_savedSelection`, leaves the current selection empty with selectedTrack =
-1 and isMultitrackSelected = false, and emits selectionChanged.  A later
restoreSelection, on a dock `d'` that still holds the saved selection, puts `s`
back, emits selectionChanged and runs emitSelectedFromSelection, with three
outcomes.  Without tractor the selection is `s` and the one further event is
nothing-selected.  With at least one track, and the track that is looked at
below the track count, the selection is `s`; the coordinate looked at is the
first restored coordinate, or (clip 0, active track) when `selection()` is
empty; the one further event is the clip-selected notification of the producer
of the clip there, tagged with the coordinate, when the coordinate designates
a clip with a valid producer, and there is no further event when it does not.
With a tractor and no track restoreSelection hands over to selectMultitrack:
unless `s` already reads as the multitrack selection, the selection becomes
`([], -1, true)` and the further events are selectionChanged,
nothing-selected, selectMultitrack and tractor-selected; when it does, the
selection stays `s` and the further events are selectMultitrack and
tractor-selected. -/
theorem saveAndClearSelection_restoreSelection (d d' : TimelineDock)
    (hsaved : d'.m_savedSelection = (saveAndClearSelection d).m_savedSelection) :
    (saveAndClearSelection d).m_selection = ⟨[], -1, false⟩ ∧
    (saveAndClearSelection d).m_savedSelection = some d.m_selection ∧
    (saveAndClearSelection d).emitted = d.emitted ++ [Event.selectionChanged] ∧
    (d'.m_model.tractor = none →
      ∃ d1, restoreSelection d' = .ok d1 ∧ d1.m_selection = d.m_selection ∧
        d1.emitted = d'.emitted ++ [Event.selectionChanged, Event.selected none]) ∧
    (d'.m_model.trackList ≠ [] →
      firstSelectedTrack { d' with m_selection := d.m_selection } < d'.m_model.trackList.length →
      ∃ d1, restoreSelection d' = .ok d1 ∧ d1.m_selection = d.m_selection ∧
        (∀ pr, announcedProducer { d' with m_selection := d.m_selection } = some pr →
          ∃ pr1, pr1.id = pr.id ∧
            pr1.multitrackItem = some (firstSelectedClip { d' with m_selection := d.m_selection },
              firstSelectedTrack { d' with m_selection := d.m_selection }) ∧
            d1.emitted = d'.emitted ++
              [Event.selectionChanged, Event.selected (some (.clip pr1))]) ∧
        (announcedProducer { d' with m_selection := d.m_selection } = none →
          d1.emitted = d'.emitted ++ [Event.selectionChanged])) ∧
    (d'.m_model.tractor ≠ none → d'.m_model.trackList = [] →
      ∃ d1, restoreSelection d' = .ok d1 ∧
        (selectionDiffers { d' with m_selection := d.m_selection } [] (-1) true →
          d1.m_selection = ⟨[], -1, true⟩ ∧
          d1.emitted = d'.emitted ++ [Event.selectionChanged, Event.selectionChanged,
            Event.selected none, Event.selectMultitrack, Event.selected (some .tractor)]) ∧
        (¬ selectionDiffers { d' with m_selection := d.m_selection } [] (-1) true →
          d1.m_selection = d.m_selection ∧
          d1.emitted = d'.emitted ++ [Event.selectionChanged, Event.selectMultitrack,
            Event.selected (some .tractor)])) := by
  refine ⟨rfl, rfl, rfl, ?_, ?_, ?_⟩
  all_goals
    have hs : d'.m_savedSelection = some d.m_selection := hsaved
    rw [restoreSelection_eq d' d.m_selection hs]
  · intro hnone
    have hrun : emitSelectedFromSelection
        (TimelineDock.emit { d' with m_selection := d.m_selection } Event.selectionChanged) =
        .ok ((TimelineDock.emit { d' with m_selection := d.m_selection }
          Event.selectionChanged).emit (.selected none)) := by
      unfold emitSelectedFromSelection
      have hlen : (TimelineDock.emit { d' with m_selection := d.m_selection }
          Event.selectionChanged).m_model.trackList.length = 0 := by
        show d'.m_model.trackList.length = 0
        unfold MultitrackModel.trackList
        rw [hnone]
        rfl
      rw [if_pos hlen]
      show (match d'.m_model.tractor with
        | some _ => _
        | none => _) = _
      rw [hnone]
      rfl
    refine ⟨_, hrun, rfl, ?_⟩
    show (d'.emitted ++ [Event.selectionChanged]) ++ [Event.selected none] = _
    simp
  · intro htracks hfirst
    have hne : (TimelineDock.emit { d' with m_selection := d.m_selection }
        Event.selectionChanged).m_model.trackList.length ≠ 0 :=
      fun h0 => htracks (List.length_eq_zero.mp h0)
    obtain ⟨d1, h1, h2, h3, h4⟩ := emitSelectedFromSelection_announced
      (TimelineDock.emit { d' with m_selection := d.m_selection } Event.selectionChanged)
      hne hfirst
    refine ⟨d1, h1, h2, ?_, ?_⟩
    · intro pr hpr
      obtain ⟨pr1, e1, e2, e3⟩ := h3 pr hpr
      refine ⟨pr1, e1, e2, ?_⟩
      rw [e3]
      show (d'.emitted ++ [Event.selectionChanged]) ++ _ = _
      simp
    · intro hpr
      rw [h4 hpr]
      rfl
  · intro htr hnil
    have hrun : emitSelectedFromSelection
        (TimelineDock.emit { d' with m_selection := d.m_selection } Event.selectionChanged) =
        selectMultitrack
          (TimelineDock.emit { d' with m_selection := d.m_selection } Event.selectionChanged) := by
      unfold emitSelectedFromSelection
      have hlen : (TimelineDock.emit { d' with m_selection := d.m_selection }
          Event.selectionChanged).m_model.trackList.length = 0 := by
        show d'.m_model.trackList.length = 0
        rw [hnil]
        rfl
      rw [if_pos hlen]
      show (match d'.m_model.tractor with
        | some _ => _
        | none => _) = _
      cases htt : d'.m_model.tractor with
      | none => exact absurd htt htr
      | some tt => rfl
    rw [hrun]
    unfold selectMultitrack setSelectionWith
    by_cases hd : selectionDiffers { d' with m_selection := d.m_selection } [] (-1) true
    · have hd2 : ([] : List QPoint) ≠ selection (TimelineDock.emit
          { d' with m_selection := d.m_selection } Event.selectionChanged) ∨
          (-1 : Int) ≠ (TimelineDock.emit { d' with m_selection := d.m_selection }
            Event.selectionChanged).m_selection.selectedTrack ∨
          true ≠ (TimelineDock.emit { d' with m_selection := d.m_selection }
            Event.selectionChanged).m_selection.isMultitrackSelected := hd
      rw [if_pos hd2]
      refine ⟨_, rfl, fun _ => ⟨rfl, ?_⟩, fun h => absurd hd h⟩
      simp [TimelineDock.emit]
    · have hd2 : ¬ (([] : List QPoint) ≠ selection (TimelineDock.emit
          { d' with m_selection := d.m_selection } Event.selectionChanged) ∨
          (-1 : Int) ≠ (TimelineDock.emit { d' with m_selection := d.m_selection }
            Event.selectionChanged).m_selection.selectedTrack ∨
          true ≠ (TimelineDock.emit { d' with m_selection := d.m_selection }
            Event.selectionChanged).m_selection.isMultitrackSelected) := hd
      rw [if_neg hd2]
      refine ⟨_, rfl, fun h => absurd h hd, fun _ => ⟨rfl, ?_⟩⟩
      simp [TimelineDock.emit]

/-- C12 (amended), witness.  Clip 3 of track 0 selected: after save and
restore the selection is the one saved, and the events are the selectionChanged
of the save, the selectionChanged of the restore and the clip-selected
notification of clip 3 (producer 4).  Nothing selected on the sample dock: the
selection comes back empty, and the restore emits the clip-selected
notification of clip 0 of the active track (producer 1).  Without tractor the
selection is the one saved and the restore emits nothing-selected. -/
theorem saveAndClearSelection_restoreSelection_witness :
    (∃ d1, restoreSelection (saveAndClearSelection rowsDock) = .ok d1 ∧
      d1.m_selection = ⟨[⟨3, 0⟩], -1, false⟩ ∧
      ∃ pr1, pr1.id = 4 ∧ pr1.multitrackItem = some (3, 0) ∧ d1.emitted =
        [Event.selectionChanged, Event.selectionChanged, Event.selected (some (.clip pr1))]) ∧
    sampleDock.m_selection = ⟨[], -1, false⟩ ∧
    (∃ d1, restoreSelection (saveAndClearSelection sampleDock) = .ok d1 ∧
      d1.m_selection = ⟨[], -1, false⟩ ∧
      ∃ pr1, pr1.id = 1 ∧ pr1.multitrackItem = some (0, 0) ∧ d1.emitted =
        [Event.selectionChanged, Event.selectionChanged, Event.selected (some (.clip pr1))]) ∧
    (∃ d1, restoreSelection (saveAndClearSelection tractorLessDock) = .ok d1 ∧
      d1.m_selection = ⟨[⟨3, 0⟩], -1, false⟩ ∧
      d1.emitted = [Event.selectionChanged, Event.selectionChanged, Event.selected none]) :=
  ⟨by
    obtain ⟨-, -, -, -, h, -⟩ :=
      saveAndClearSelection_restoreSelection rowsDock (saveAndClearSelection rowsDock) rfl
    obtain ⟨d1, h1, h2, h3, -⟩ := h (by decide) (by decide)
    obtain ⟨pr1, e1, e2, e3⟩ := h3 { id := 4 } rfl
    exact ⟨d1, h1, h2, pr1, e1, e2, e3⟩,
   rfl, by
    obtain ⟨-, -, -, -, h, -⟩ :=
      saveAndClearSelection_restoreSelection sampleDock (saveAndClearSelection sampleDock) rfl
    obtain ⟨d1, h1, h2, h3, -⟩ := h (by decide) (by decide)
    obtain ⟨pr1, e1, e2, e3⟩ := h3 { id := 1 } rfl
    exact ⟨d1, h1, h2, pr1, e1, e2, e3⟩,
   (saveAndClearSelection_restoreSelection tractorLessDock
      (saveAndClearSelection tractorLessDock) rfl).2.2.2.1 rfl⟩

/-- C12, counterexample.  On a model with a tractor and no track, the saved
selection `([], -1, false)` comes back as `([], -1, true)`: restoreSelection
ends in emitSelectedFromSelection, which hands over to selectMultitrack. -/
theorem saveAndClearSelection_restoreSelection_counterexample :
    trackLessDock.m_selection = ⟨[], -1, false⟩ ∧
    ∃ d1, restoreSelection (saveAndClearSelection trackLessDock) = .ok d1 ∧
      d1.m_selection = ⟨[], -1, true⟩ ∧
      d1.emitted = [Event.selectionChanged, Event.selectionChanged, Event.selectionChanged,
        Event.selected none, Event.selectMultitrack, Event.selected (some .tractor)] :=
  ⟨rfl, _, rfl, rfl, rfl⟩

/-! ### Invariant of the selection -/

theorem emitSelectedClip_saved (d d1 : TimelineDock) (trackIndex clipIndex : Int)
    (info : Option ClipInfo) (h : emitSelectedClip d trackIndex clipIndex info = .ok d1) :
    d1.m_savedSelection = d.m_savedSelection := by
  unfold emitSelectedClip at h
  cases info with
  | none => rw [pure_eq_ok] at h; subst h; rfl
  | some i =>
    dsimp only at h
    cases hp : i.producer with
    | none => rw [hp] at h; rw [pure_eq_ok] at h; subst h; rfl
    | some pr =>
      rw [hp] at h
      dsimp only at h
      split at h
      · obtain ⟨a, -, h⟩ := bind_eq_ok.mp h
        obtain ⟨b, -, h⟩ := bind_eq_ok.mp h
        rw [pure_eq_ok] at h
        subst h
        rfl
      · rw [pure_eq_ok] at h; subst h; rfl

/-- What a selection operation other than save and restore does to the selection
members: the saved selection is kept, and the current selection is kept or
replaced by one that satisfies the invariant. -/
theorem setSelectionWith_step (f : TimelineDock → Except Fault TimelineDock)
    (hf : ∀ a b, f a = .ok b → b.m_savedSelection = a.m_savedSelection ∧
      (b.m_selection = a.m_selection ∨ SelectionInvariant b.m_selection))
    (d d1 : TimelineDock) (newSelection : List QPoint) (trackIndex : Int) (isMultitrack : Bool)
    (hm : isMultitrack = true → newSelection = [] ∧ trackIndex = -1)
    (h : setSelectionWith f d newSelection trackIndex isMultitrack = .ok d1) :
    d1.m_savedSelection = d.m_savedSelection ∧
      (d1.m_selection = d.m_selection ∨ SelectionInvariant d1.m_selection) := by
  unfold setSelectionWith at h
  split at h
  · dsimp only at h
    split at h
    · obtain ⟨h1, h2⟩ := hf _ _ h
      refine ⟨h1, Or.inr ?_⟩
      rcases h2 with h2 | h2
      · rw [h2]
        exact hm
      · exact h2
    · rw [pure_eq_ok] at h
      subst h
      exact ⟨rfl, Or.inr hm⟩
  · rw [pure_eq_ok] at h
    subst h
    exact ⟨rfl, Or.inl rfl⟩

theorem selectMultitrack_step (d d1 : TimelineDock) (h : selectMultitrack d = .ok d1) :
    d1.m_savedSelection = d.m_savedSelection ∧
      (d1.m_selection = d.m_selection ∨ SelectionInvariant d1.m_selection) := by
  unfold selectMultitrack at h
  obtain ⟨d2, h2, h⟩ := bind_eq_ok.mp h
  rw [pure_eq_ok] at h
  subst h
  exact setSelectionWith_step pure
    (fun a b hab => by rw [pure_eq_ok] at hab; subst hab; exact ⟨rfl, Or.inl rfl⟩)
    d d2 [] (-1) true (fun _ => ⟨rfl, rfl⟩) h2

theorem emitSelectedFromSelection_step (d d1 : TimelineDock)
    (h : emitSelectedFromSelection d = .ok d1) :
    d1.m_savedSelection = d.m_savedSelection ∧
      (d1.m_selection = d.m_selection ∨ SelectionInvariant d1.m_selection) := by
  by_cases hne : d.m_model.trackList.length = 0
  · unfold emitSelectedFromSelection at h
    rw [if_pos hne] at h
    split at h
    · exact selectMultitrack_step d d1 h
    · rw [pure_eq_ok] at h
      subst h
      exact ⟨rfl, Or.inl rfl⟩
  · obtain ⟨e1, -, -⟩ := emitSelectedFromSelection_tracks d d1 hne h
    refine ⟨?_, Or.inl e1⟩
    unfold emitSelectedFromSelection at h
    rw [if_neg hne] at h
    obtain ⟨info, -, h⟩ := bind_eq_ok.mp h
    obtain ⟨d2, h2, h⟩ := bind_eq_ok.mp h
    rw [pure_eq_ok] at h
    subst h
    exact emitSelectedClip_saved d d2 _ _ info h2

theorem setSelection_step (d d1 : TimelineDock) (newSelection : List QPoint) (trackIndex : Int)
    (h : setSelection d newSelection trackIndex false = .ok d1) :
    d1.m_savedSelection = d.m_savedSelection ∧
      (d1.m_selection = d.m_selection ∨ SelectionInvariant d1.m_selection) :=
  setSelectionWith_step emitSelectedFromSelection emitSelectedFromSelection_step d d1
    newSelection trackIndex false (fun hf => by cases hf) h

/-- The invariant on the current and on the saved selection. -/
theorem selectionOp_preserves (ops : Collaborators) (d d1 : TimelineDock) (op : SelectionOp)
    (hinv : SelectionInvariant d.m_selection)
    (hsaved : ∀ s, d.m_savedSelection = some s → SelectionInvariant s)
    (hrun : op.run ops d = .ok d1) :
    SelectionInvariant d1.m_selection ∧
      ∀ s, d1.m_savedSelection = some s → SelectionInvariant s := by
  have key : ∀ a b : TimelineDock, SelectionInvariant a.m_selection →
      (∀ s, a.m_savedSelection = some s → SelectionInvariant s) →
      (b.m_savedSelection = a.m_savedSelection ∧
        (b.m_selection = a.m_selection ∨ SelectionInvariant b.m_selection)) →
      SelectionInvariant b.m_selection ∧
        ∀ s, b.m_savedSelection = some s → SelectionInvariant s := by
    intro a b ha hs hstep
    obtain ⟨h1, h2⟩ := hstep
    refine ⟨?_, fun s hs1 => hs s (h1 ▸ hs1)⟩
    rcases h2 with h2 | h2
    · rw [h2]; exact ha
    · exact h2
  cases op with
  | setSelectionFromJS list => exact key d d1 hinv hsaved (setSelection_step d d1 _ _ hrun)
  | selectClipUnderPlayhead =>
    apply key d d1 hinv hsaved
    simp only [SelectionOp.run] at hrun
    unfold Shotcut.selectClipUnderPlayhead at hrun
    dsimp only at hrun
    split at hrun
    · split at hrun
      · rw [pure_eq_ok] at hrun
        subst hrun
        exact ⟨rfl, Or.inl rfl⟩
      · split at hrun
        · exact setSelection_step d d1 _ _ hrun
        · exact setSelection_step d d1 _ _ hrun
    · have h := setSelection_step _ d1 _ _ hrun
      have e1 : ∀ t, (setCurrentTrack d t).m_selection = d.m_selection := by
        intro t; unfold setCurrentTrack; split <;> rfl
      have e2 : ∀ t, (setCurrentTrack d t).m_savedSelection = d.m_savedSelection := by
        intro t; unfold setCurrentTrack; split <;> rfl
      rw [e1, e2] at h
      exact h
  | selectTrackHead trackIndex =>
    apply key d d1 hinv hsaved
    simp only [SelectionOp.run] at hrun
    unfold Shotcut.selectTrackHead at hrun
    split at hrun
    · obtain ⟨d2, h2, hrun⟩ := bind_eq_ok.mp hrun
      obtain ⟨t, -, hrun⟩ := bind_eq_ok.mp hrun
      rw [pure_eq_ok] at hrun
      subst hrun
      exact setSelection_step d d2 _ _ h2
    · rw [pure_eq_ok] at hrun
      subst hrun
      exact ⟨rfl, Or.inl rfl⟩
  | selectMultitrack => exact key d d1 hinv hsaved (selectMultitrack_step d d1 hrun)
  | selectAll => exact key d d1 hinv hsaved (setSelection_step d d1 _ _ hrun)
  | saveAndClearSelection =>
    simp only [SelectionOp.run] at hrun
    rw [pure_eq_ok] at hrun
    subst hrun
    refine ⟨fun h => (by cases h), ?_⟩
    intro s hs
    have : some d.m_selection = some s := hs
    cases this
    exact hinv
  | restoreSelection =>
    simp only [SelectionOp.run] at hrun
    cases hsv : d.m_savedSelection with
    | none =>
      unfold Shotcut.restoreSelection at hrun
      rw [hsv] at hrun
      cases hrun
    | some s =>
      rw [restoreSelection_eq d s hsv] at hrun
      exact key (TimelineDock.emit { d with m_selection := s } Event.selectionChanged) d1
        (hsaved s hsv) hsaved (emitSelectedFromSelection_step _ d1 hrun)
  | clearSelectionIfInvalid =>
    apply key d d1 hinv hsaved
    simp only [SelectionOp.run] at hrun
    unfold Shotcut.clearSelectionIfInvalid at hrun
    obtain ⟨d2, h2, hrun⟩ := bind_eq_ok.mp hrun
    rw [pure_eq_ok] at hrun
    subst hrun
    exact setSelection_step d d2 _ _ h2
  | onRowsInserted parentRow first last =>
    apply key d d1 hinv hsaved
    simp only [SelectionOp.run] at hrun
    unfold Shotcut.onRowsInserted at hrun
    split at hrun
    · exact setSelection_step d d1 _ _ hrun
    · rw [pure_eq_ok] at hrun
      subst hrun
      exact ⟨rfl, Or.inl rfl⟩
  | onRowsRemoved parentRow first last =>
    apply key d d1 hinv hsaved
    simp only [SelectionOp.run] at hrun
    unfold Shotcut.onRowsRemoved at hrun
    split at hrun
    · exact setSelection_step d d1 _ _ hrun
    · rw [pure_eq_ok] at hrun
      subst hrun
      exact ⟨rfl, Or.inl rfl⟩
  | onInserted trackIndex clipIndex => exact key d d1 hinv hsaved (setSelection_step d d1 _ _ hrun)
  | onOverWritten trackIndex clipIndex =>
    exact key d d1 hinv hsaved (setSelection_step d d1 _ _ hrun)

theorem reachable_invariants (d : TimelineDock) (h : Reachable d) :
    SelectionInvariant d.m_selection ∧
      ∀ s, d.m_savedSelection = some s → SelectionInvariant s := by
  induction h with
  | initial d h =>
    obtain ⟨h1, h2⟩ := h
    rw [h1, h2]
    exact ⟨fun h => (by cases h), fun s hs => (by cases hs)⟩
  | step ops d d1 op _ hrun ih => exact selectionOp_preserves ops d d1 op ih.1 ih.2 hrun
  | environment d d1 _ hsel hsaved ih =>
    rw [hsel, hsaved]
    exact ih

/-- C13. Selection invariant: in every state reachable from the initial state
through the selection operations of the dock (setSelectionFromJS,
selectClipUnderPlayhead, selectTrackHead, selectMultitrack, selectAll,
saveAndClearSelection, restoreSelection, clearSelectionIfInvalid,
onRowsInserted, onRowsRemoved, onInserted, onOverWritten), interleaved with any
change of the dock that leaves the selection members alone, if
isMultitrackSelected is true then the selected-clip list is empty and
selectedTrack is -1; the same holds of the saved selection.  A call of
restoreSelection before any saveAndClearSelection reads members that the
constructor never wrote; it has no defined result and is no step. -/
theorem selection_invariant_reachable (d : TimelineDock) (h : Reachable d) :
    (d.m_selection.isMultitrackSelected = true →
      d.m_selection.selectedClips = [] ∧ d.m_selection.selectedTrack = -1) ∧
    ∀ s, d.m_savedSelection = some s → SelectionInvariant s :=
  reachable_invariants d h

/-- C13, witness.  From the initial state of a dock whose model has a tractor
and no track, selectMultitrack leads to a multitrack selection, which holds no
clip and no track. -/
theorem selection_invariant_reachable_witness :
    Reachable multitrackSelectedDock ∧
    multitrackSelectedDock.m_selection.isMultitrackSelected = true ∧
    (multitrackSelectedDock.m_selection.isMultitrackSelected = true →
      multitrackSelectedDock.m_selection.selectedClips = [] ∧
      multitrackSelectedDock.m_selection.selectedTrack = -1) ∧
    ∀ s, multitrackSelectedDock.m_savedSelection = some s → SelectionInvariant s :=
  have hreach : Reachable multitrackSelectedDock :=
    Reachable.step sampleOps trackLessDock multitrackSelectedDock SelectionOp.selectMultitrack
      (Reachable.initial trackLessDock (by decide)) rfl
  ⟨hreach, rfl, selection_invariant_reachable multitrackSelectedDock hreach⟩

/-! ### Coordinates stored by selectClipUnderPlayhead -/

/-- C14, the code at the failing input.  One unlocked active track
`[blank, A]`, the playhead inside the blank, nothing selected:
chooseClipAtPosition finds no clip and answers `(-1, -1)`, the clip index under
the playhead on the active track is 0, and selectClipUnderPlayhead stores the
coordinate (clip 0, track -1): the fallback takes the track index from the
answer of chooseClipAtPosition, not the active track 0. -/
theorem selectClipUnderPlayhead_fallback_track :
    blankUnderPlayheadDock.m_selection.selectedClips = [] ∧
    chooseClipAtPosition sampleOps blankUnderPlayheadDock blankUnderPlayheadDock.m_position
      (-1) (-1) = (-1, -1) ∧
    isTrackLocked blankUnderPlayheadDock (currentTrack blankUnderPlayheadDock) = false ∧
    currentTrack blankUnderPlayheadDock = 0 ∧
    clipIndexAtPlayhead sampleOps blankUnderPlayheadDock (-1) = 0 ∧
    ∃ d1, selectClipUnderPlayhead sampleOps blankUnderPlayheadDock = .ok d1 ∧
      d1.m_selection.selectedClips = [⟨0, -1⟩] ∧
      ¬ (∀ p ∈ d1.m_selection.selectedClips, 0 ≤ p.y ∧ 0 ≤ p.x) :=
  ⟨rfl, by decide, by decide, rfl, by decide, _, rfl, rfl, by decide⟩

/-! ### Edit coordinator: the lock step -/

theorem pulseLockButtonOnTrack_aborted (d : TimelineDock) (t : Int) :
    AbortedOnLock d (pulseLockButtonOnTrack d t) t := by
  refine ⟨rfl, rfl, rfl, ?_⟩
  simp [pulseLockButtonOnTrack, TimelineDock.emit]

theorem isTrackLocked_tracks (d : TimelineDock) (t : Int) (h : isTrackLocked d t = true) :
    d.m_model.trackList.length ≠ 0 := by
  unfold isTrackLocked MultitrackModel.track? at h
  intro h0
  rw [List.length_eq_zero.mp h0] at h
  split at h
  · simp at h
  · rename_i heq
    split at heq <;> simp at heq

theorem append_locked (ops : Collaborators) (d : TimelineDock) (trackIndex : Int)
    (h : isTrackLocked d (lockTarget d trackIndex) = true) :
    append ops d trackIndex = .ok (pulseLockButtonOnTrack d (lockTarget d trackIndex)) := by
  unfold lockTarget at h ⊢
  unfold append
  dsimp only
  rw [if_pos h]
  rfl

theorem insert_locked (ops : Collaborators) (d : TimelineDock) (trackIndex position : Int)
    (xml : Option Nat) (seek : Bool) (h : isTrackLocked d (lockTarget d trackIndex) = true) :
    insert ops d trackIndex position xml seek
      = .ok (pulseLockButtonOnTrack d (lockTarget d trackIndex)) := by
  unfold lockTarget at h ⊢
  unfold insert
  dsimp only
  rw [if_pos h]
  rfl

theorem overwrite_locked (ops : Collaborators) (d : TimelineDock) (trackIndex position : Int)
    (xml : Option Nat) (seek : Bool) (h : isTrackLocked d (lockTarget d trackIndex) = true) :
    overwrite ops d trackIndex position xml seek
      = .ok (pulseLockButtonOnTrack d (lockTarget d trackIndex)) := by
  unfold lockTarget at h ⊢
  unfold overwrite
  dsimp only
  rw [if_pos h]
  rfl

theorem remove_locked (d : TimelineDock) (t clipIndex : Int) (h : isTrackLocked d t = true) :
    remove d t clipIndex = .ok (pulseLockButtonOnTrack d t) := by
  unfold remove
  rw [if_neg (isTrackLocked_tracks d t h), if_pos h]
  rfl

theorem lift_locked (ops : Collaborators) (d : TimelineDock) (t clipIndex : Int)
    (h : isTrackLocked d t = true) :
    lift ops d t clipIndex = .ok (pulseLockButtonOnTrack d t) := by
  unfold lift
  rw [if_neg (isTrackLocked_tracks d t h), if_pos h]
  rfl

theorem fadeIn_locked (ops : Collaborators) (d : TimelineDock) (t clipIndex duration : Int)
    (h : isTrackLocked d t = true) :
    fadeIn ops d t clipIndex duration = pulseLockButtonOnTrack d t := by
  unfold fadeIn
  rw [if_pos h]

theorem fadeOut_locked (ops : Collaborators) (d : TimelineDock) (t clipIndex duration : Int)
    (h : isTrackLocked d t = true) :
    fadeOut ops d t clipIndex duration = pulseLockButtonOnTrack d t := by
  unfold fadeOut
  rw [if_pos h]

theorem appendFromPlaylist_locked (ops : Collaborators) (d : TimelineDock)
    (playlist : List ClipInfo) (h : isTrackLocked d (currentTrack d) = true) :
    appendFromPlaylist ops d playlist = .ok (pulseLockButtonOnTrack d (currentTrack d)) := by
  unfold appendFromPlaylist
  dsimp only
  rw [if_pos h]
  rfl

/-- C15. The lock step of append, insert, overwrite, remove, lift, fadeIn,
fadeOut and appendFromPlaylist.  Let `t` be the target track: the given track,
or the active track when the given index is negative.  If `t` is locked, then
append, insert and overwrite called with the given index, remove, lift, fadeIn
and fadeOut called on `t` (they take a non-negative track index), and
appendFromPlaylist when `t` is the active track, all abort: the dock that comes
back is the one they were called on with one track-locked notice raised for
`t`, so that no undo command is pushed, the model is not mutated and the
selection is unchanged. -/
theorem locked_track_aborts (ops : Collaborators) (d : TimelineDock)
    (trackIndex clipIndex position duration : Int) (xml : Option Nat) (seek : Bool)
    (playlist : List ClipInfo)
    (hlock : isTrackLocked d (lockTarget d trackIndex) = true) :
    AbortedOnLock d (pulseLockButtonOnTrack d (lockTarget d trackIndex)) (lockTarget d trackIndex) ∧
    append ops d trackIndex = .ok (pulseLockButtonOnTrack d (lockTarget d trackIndex)) ∧
    insert ops d trackIndex position xml seek
      = .ok (pulseLockButtonOnTrack d (lockTarget d trackIndex)) ∧
    overwrite ops d trackIndex position xml seek
      = .ok (pulseLockButtonOnTrack d (lockTarget d trackIndex)) ∧
    remove d (lockTarget d trackIndex) clipIndex
      = .ok (pulseLockButtonOnTrack d (lockTarget d trackIndex)) ∧
    lift ops d (lockTarget d trackIndex) clipIndex
      = .ok (pulseLockButtonOnTrack d (lockTarget d trackIndex)) ∧
    fadeIn ops d (lockTarget d trackIndex) clipIndex duration
      = pulseLockButtonOnTrack d (lockTarget d trackIndex) ∧
    fadeOut ops d (lockTarget d trackIndex) clipIndex duration
      = pulseLockButtonOnTrack d (lockTarget d trackIndex) ∧
    (lockTarget d trackIndex = currentTrack d →
      appendFromPlaylist ops d playlist
        = .ok (pulseLockButtonOnTrack d (lockTarget d trackIndex))) :=
  ⟨pulseLockButtonOnTrack_aborted d _,
    append_locked ops d trackIndex hlock,
    insert_locked ops d trackIndex position xml seek hlock,
    overwrite_locked ops d trackIndex position xml seek hlock,
    remove_locked d _ clipIndex hlock,
    lift_locked ops d _ clipIndex hlock,
    fadeIn_locked ops d _ clipIndex duration hlock,
    fadeOut_locked ops d _ clipIndex duration hlock,
    fun ht => by
      rw [ht] at hlock ⊢
      exact appendFromPlaylist_locked ops d playlist hlock⟩

/-- C15, witness.  The only track, the active one, is locked: append called
without track index comes back with the undo stack empty, the model and the
selection as they were, and the one notice of track 0. -/
theorem locked_track_aborts_witness :
    isTrackLocked lockedActiveDock (lockTarget lockedActiveDock (-1)) = true ∧
    lockTarget lockedActiveDock (-1) = 0 ∧
    ∃ d1, append sampleOps lockedActiveDock (-1) = .ok d1 ∧
      appendFromPlaylist sampleOps lockedActiveDock [] = .ok d1 ∧
      fadeIn sampleOps lockedActiveDock 0 0 10 = d1 ∧
      d1.undoStack = [] ∧ d1.m_model = lockedActiveDock.m_model ∧
      d1.m_selection = lockedActiveDock.m_selection ∧
      d1.emitted =
        [Event.pulseLockButtonOnTrack 0, Event.showStatusMessage StatusMessage.trackLocked] :=
  have h := locked_track_aborts sampleOps lockedActiveDock (-1) 0 0 10 none true []
    (by decide)
  ⟨by decide, by decide, _, h.2.1, h.2.2.2.2.2.2.2.2 (by decide), h.2.2.2.2.2.2.1,
    h.1.1, h.1.2.1, h.1.2.2.1, h.1.2.2.2⟩

/-! ### Edit coordinator: operations without lock step -/

theorem noLockNotice_of_append (d d1 : TimelineDock) (new : List Event)
    (h : d1.emitted = d.emitted ++ new) (hn : ∀ e ∈ new, e.isLockNotice = false) :
    NoLockNotice d d1 := by
  refine ⟨⟨new, h.symm⟩, ?_⟩
  unfold newEvents
  rw [h, List.drop_left]
  exact hn

theorem noLockNotice_of_eq (d d1 : TimelineDock) (h : d1.emitted = d.emitted) :
    NoLockNotice d d1 :=
  noLockNotice_of_append d d1 [] (by rw [h, List.append_nil]) (fun e he => by cases he)

theorem updateCommandSetPosition_emitted (ops : Collaborators) (d : TimelineDock)
    (t c nt nc : Int) (np : UpdateCommand → Int) :
    (updateCommandSetPosition ops d t c nt nc np).emitted = d.emitted ∧
    (updateCommandSetPosition ops d t c nt nc np).undoStack = d.undoStack := by
  unfold updateCommandSetPosition
  cases d.m_updateCommand with
  | none => exact ⟨rfl, rfl⟩
  | some u => by_cases hu : u.trackIndex = t ∧ u.clipIndex = c <;> simp [hu]

theorem ensureUndoHelper_emitted (d : TimelineDock) (ripple : Bool) :
    (ensureUndoHelper d ripple).emitted = d.emitted := by
  unfold ensureUndoHelper
  cases d.m_undoHelper <;> rfl

/-- A trim call emits at most the notification of a changed image duration and
pushes nothing. -/
theorem trimCall_run_emitted (ops : Collaborators) (d : TimelineDock) (call : TrimCall)
    (r : Bool × TimelineDock) (h : call.run ops d = .ok r) :
    (r.2.emitted = d.emitted ∨ r.2.emitted = d.emitted ++ [Event.imageDurationChanged]) ∧
      r.2.undoStack = d.undoStack := by
  cases call with
  | trimClipIn t c o δ rp =>
    have k := ensureUndoHelper_emitted d rp
    obtain ⟨-, -, k3⟩ := ensureUndoHelper_fields d rp
    simp only [TrimCall.run, trimClipIn] at h
    split_ifs at h with c1 c2 c3 c4
    · rw [pure_eq_ok] at h
      subst h
      exact ⟨Or.inl (updateCommandSetPosition_emitted _ _ _ _ _ _ _).1,
        (updateCommandSetPosition_emitted _ _ _ _ _ _ _).2⟩
    · rw [pure_eq_ok] at h
      subst h
      exact ⟨Or.inl (updateCommandSetPosition_emitted _ _ _ _ _ _ _).1,
        (updateCommandSetPosition_emitted _ _ _ _ _ _ _).2⟩
    · rw [pure_eq_ok] at h
      subst h
      exact ⟨Or.inl rfl, rfl⟩
    · obtain ⟨d1, he, h⟩ := bind_eq_ok.mp h
      rw [pure_eq_ok] at h
      subst h
      rw [(updateCommandSetPosition_emitted _ _ _ _ _ _ _).1,
        (updateCommandSetPosition_emitted _ _ _ _ _ _ _).2]
      rcases emitImageDurationChanged_ok _ _ _ _ _ he with rfl | rfl
      · exact ⟨Or.inl k, k3⟩
      · refine ⟨Or.inr ?_, k3⟩
        show (ensureUndoHelper d rp).emitted ++ _ = _
        rw [k]
    · rw [pure_eq_ok] at h
      subst h
      exact ⟨Or.inl rfl, rfl⟩
  | trimClipOut t c δ rp =>
    have k := ensureUndoHelper_emitted d rp
    obtain ⟨-, -, k3⟩ := ensureUndoHelper_fields d rp
    simp only [TrimCall.run, trimClipOut] at h
    split_ifs at h with c1 c2 c3 c4
    · rw [pure_eq_ok] at h
      subst h
      exact ⟨Or.inl (updateCommandSetPosition_emitted _ _ _ _ _ _ _).1,
        (updateCommandSetPosition_emitted _ _ _ _ _ _ _).2⟩
    · rw [pure_eq_ok] at h
      subst h
      exact ⟨Or.inl (updateCommandSetPosition_emitted _ _ _ _ _ _ _).1,
        (updateCommandSetPosition_emitted _ _ _ _ _ _ _).2⟩
    · rw [pure_eq_ok] at h
      subst h
      exact ⟨Or.inl rfl, rfl⟩
    · obtain ⟨d1, he, h⟩ := bind_eq_ok.mp h
      rw [pure_eq_ok] at h
      subst h
      rw [(updateCommandSetPosition_emitted _ _ _ _ _ _ _).1,
        (updateCommandSetPosition_emitted _ _ _ _ _ _ _).2]
      rcases emitImageDurationChanged_ok _ _ _ _ _ he with rfl | rfl
      · exact ⟨Or.inl k, k3⟩
      · refine ⟨Or.inr ?_, k3⟩
        show (ensureUndoHelper d rp).emitted ++ _ = _
        rw [k]
    · rw [pure_eq_ok] at h
      subst h
      exact ⟨Or.inl rfl, rfl⟩

theorem trimCall_run_noLockNotice (ops : Collaborators) (d : TimelineDock) (call : TrimCall)
    (r : Bool × TimelineDock) (h : call.run ops d = .ok r) :
    NoLockNotice d r.2 ∧ r.2.undoStack = d.undoStack := by
  obtain ⟨h1, h2⟩ := trimCall_run_emitted ops d call r h
  refine ⟨?_, h2⟩
  rcases h1 with h1 | h1
  · exact noLockNotice_of_eq d r.2 h1
  · exact noLockNotice_of_append d r.2 _ h1 (by simp [Event.isLockNotice])

theorem setCurrentTrack_fields (d : TimelineDock) (t : Int) :
    (setCurrentTrack d t).emitted = d.emitted ∧ (setCurrentTrack d t).undoStack = d.undoStack ∧
      (setCurrentTrack d t).m_model = d.m_model ∧
      (setCurrentTrack d t).m_position = d.m_position := by
  unfold setCurrentTrack
  cases d.rootObject <;> exact ⟨rfl, rfl, rfl, rfl⟩

theorem splitClip_noLockNotice (ops : Collaborators) (d d1 : TimelineDock)
    (trackIndex clipIndex : Int) (h : splitClip ops d trackIndex clipIndex = .ok d1) :
    NoLockNotice d d1 := by
  unfold splitClip at h
  dsimp only at h
  obtain ⟨k, -, -, -⟩ := setCurrentTrack_fields d (splitTarget ops d trackIndex clipIndex).1
  split at h
  · rw [pure_eq_ok] at h; subst h; exact noLockNotice_of_eq d d rfl
  · split at h
    · obtain ⟨track, -, h⟩ := bind_eq_ok.mp h
      split at h
      · obtain ⟨info, -, h⟩ := bind_eq_ok.mp h
        split at h
        · split at h
          · rw [pure_eq_ok] at h; subst h; exact noLockNotice_of_eq d _ k
          · rw [pure_eq_ok] at h; subst h; exact noLockNotice_of_eq d _ k
        · rw [pure_eq_ok] at h; subst h; exact noLockNotice_of_eq d _ k
      · rw [pure_eq_ok] at h
        subst h
        exact noLockNotice_of_append d _ [Event.showStatusMessage .cannotSplitTransition]
          (by show _ ++ _ = _; rw [k]) (by simp [Event.isLockNotice])
    · rw [pure_eq_ok] at h; subst h; exact noLockNotice_of_eq d _ k

theorem detachAudio_noLockNotice (ops : Collaborators) (d d1 : TimelineDock)
    (trackIndex clipIndex : Int) (h : detachAudio ops d trackIndex clipIndex = .ok d1) :
    NoLockNotice d d1 := by
  unfold detachAudio at h
  split at h
  · rw [pure_eq_ok] at h; subst h; exact noLockNotice_of_eq d d rfl
  · obtain ⟨info, -, h⟩ := bind_eq_ok.mp h
    split at h
    · split at h
      · split at h
        · split at h
          · rw [pure_eq_ok] at h; subst h; exact noLockNotice_of_eq d _ rfl
          · rw [pure_eq_ok] at h; subst h; exact noLockNotice_of_eq d d rfl
        · rw [pure_eq_ok] at h; subst h; exact noLockNotice_of_eq d d rfl
      · rw [pure_eq_ok] at h; subst h; exact noLockNotice_of_eq d d rfl
    · rw [pure_eq_ok] at h; subst h; exact noLockNotice_of_eq d d rfl

theorem moveUpdateCommand_fields (ops : Collaborators) (d : TimelineDock)
    (toTrack clipIndex position : Int) :
    (moveUpdateCommand ops d toTrack clipIndex position).emitted = d.emitted ∧
    (moveUpdateCommand ops d toTrack clipIndex position).undoStack = d.undoStack ∧
    (moveUpdateCommand ops d toTrack clipIndex position).m_model = d.m_model := by
  unfold moveUpdateCommand
  cases d.m_updateCommand <;> exact ⟨rfl, rfl, rfl⟩

theorem moveClip_noLockNotice (ops : Collaborators) (d : TimelineDock)
    (fromTrack toTrack clipIndex position : Int) (ripple : Bool) :
    NoLockNotice d (moveClip ops d fromTrack toTrack clipIndex position ripple).2 ∧
    (moveClip ops d fromTrack toTrack clipIndex position ripple).2.undoStack = d.undoStack ∧
    (moveClip ops d fromTrack toTrack clipIndex position ripple).2.m_model = d.m_model := by
  unfold moveClip
  split
  · obtain ⟨k1, k2, k3⟩ := moveUpdateCommand_fields ops
      (d.emit (.clipMoved fromTrack toTrack clipIndex position ripple)) toTrack clipIndex position
    exact ⟨noLockNotice_of_append d _ [Event.clipMoved fromTrack toTrack clipIndex position ripple]
      k1 (by simp [Event.isLockNotice]), k2, k3⟩
  · split
    · obtain ⟨k1, k2, k3⟩ := moveUpdateCommand_fields ops
        (d.emit (.transitionAdded fromTrack clipIndex position ripple)) toTrack clipIndex position
      exact ⟨noLockNotice_of_append d _ [Event.transitionAdded fromTrack clipIndex position ripple]
        k1 (by simp [Event.isLockNotice]), k2, k3⟩
    · exact ⟨noLockNotice_of_eq d d rfl, rfl, rfl⟩

/-- With the coordinate resolved on a track of the model, splitClip runs to
its end with the outcome `splitResolved`. -/
theorem splitClip_resolved (ops : Collaborators) (d : TimelineDock) (trackIndex clipIndex : Int)
    (tr : Track)
    (h0 : 0 ≤ (splitTarget ops d trackIndex clipIndex).1)
    (h1 : 0 ≤ (splitTarget ops d trackIndex clipIndex).2)
    (htr : d.m_model.track? (splitTarget ops d trackIndex clipIndex).1 = some tr) :
    splitClip ops d trackIndex clipIndex = .ok (splitResolved ops d tr
      (splitTarget ops d trackIndex clipIndex).1 (splitTarget ops d trackIndex clipIndex).2) := by
  unfold splitClip splitResolved
  dsimp only
  generalize splitTarget ops d trackIndex clipIndex = r at h0 h1 htr
  obtain ⟨-, -, km, kp⟩ := setCurrentTrack_fields d r.1
  have hat : trackAt (setCurrentTrack d r.1).m_model r.1 = .ok tr := by
    rw [km]
    exact trackAt_of_track? d.m_model r.1 tr htr
  have hinfo : getClipInfo (setCurrentTrack d r.1) r.1 r.2 = .ok (tr.clip_info r.2) := by
    unfold getClipInfo
    rw [if_pos ⟨h1, h0⟩, hat]
    rfl
  rw [if_neg (by omega), if_pos ⟨h1, h0⟩, hat]
  simp only [bind, Except.bind]
  cases htrans : tr.isTransition r.2 with
  | true => simp [pure, Except.pure]
  | false =>
    simp only [Bool.not_false, if_true, Bool.false_eq_true, if_false]
    rw [hinfo]
    dsimp only
    cases tr.clip_info r.2 with
    | none => rfl
    | some i =>
      dsimp only
      rw [kp]
      split <;> rfl

/-- Called with an explicit coordinate whose clip is not a transition and holds
the playhead strictly inside, splitClip pushes its split command. -/
theorem splitClip_explicit_pushes (ops : Collaborators) (d : TimelineDock)
    (trackIndex clipIndex : Int) (tr : Track) (i : ClipInfo)
    (h0 : 0 ≤ trackIndex) (h1 : 0 ≤ clipIndex)
    (htr : d.m_model.track? trackIndex = some tr)
    (hnt : tr.isTransition clipIndex = false) (hi : tr.clip_info clipIndex = some i)
    (hlo : i.start < d.m_position) (hhi : d.m_position < i.start + i.frame_count) :
    splitClip ops d trackIndex clipIndex = .ok ((setCurrentTrack d trackIndex).pushCommand ops
      (UndoCommand.SplitCommand trackIndex clipIndex d.m_position)) := by
  have ht : splitTarget ops d trackIndex clipIndex = (trackIndex, clipIndex) := by
    unfold splitTarget
    rw [if_neg (by omega)]
  have h := splitClip_resolved ops d trackIndex clipIndex tr (by rw [ht]; exact h0)
    (by rw [ht]; exact h1) (by rw [ht]; exact htr)
  rw [h, ht]
  unfold splitResolved
  dsimp only
  have hin : d.m_position > i.start ∧ d.m_position < i.start + i.frame_count := ⟨hlo, hhi⟩
  rw [hnt, hi]
  simp only [Bool.false_eq_true, if_false]
  rw [if_pos hin]

/-- On a clip with a valid producer that is not blank and has an audio stream,
detachAudio pushes its command. -/
theorem detachAudio_pushes (ops : Collaborators) (d : TimelineDock)
    (trackIndex clipIndex : Int) (tr : Track) (i : ClipInfo) (p : Producer) (a : Int)
    (htr : d.m_model.track? trackIndex = some tr)
    (hi : tr.clip_info clipIndex = some i) (hp : i.producer = some p)
    (hv : p.is_valid = true) (hb : p.is_blank = false)
    (ha : p.audio_index = some a) (h0 : 0 ≤ a) :
    detachAudio ops d trackIndex clipIndex = .ok (d.pushCommand ops
      (UndoCommand.DetachAudioCommand trackIndex clipIndex i.start
        (Xml.cut p i.frame_in i.frame_out))) := by
  unfold detachAudio
  have hlen : d.m_model.trackList.length ≠ 0 := by
    intro hz
    have hnil := List.length_eq_zero.mp hz
    unfold MultitrackModel.track? at htr
    rw [hnil] at htr
    split at htr <;> simp at htr
  rw [if_neg hlen, getClipInfo_eq d trackIndex clipIndex tr htr, hi]
  simp only [bind, Except.bind]
  rw [hp]
  dsimp only
  rw [ha]
  dsimp only
  rw [if_pos]
  · rfl
  · simp [hv, hb, h0]

/-- C16 (amended).  splitClip, detachAudio, trimClipIn, trimClipOut, moveClip
and the non-dry-run mergeClipWithNext have no lock step: whatever the lock
state of the track they are called on, they raise no track-locked notice.
splitClip, called with an explicit coordinate (both indices at least 0) of a
clip of the model that is not a transition and holds the playhead strictly
inside, makes the track the current track and pushes its split command at the
playhead.  detachAudio, called on a clip of the model whose producer is valid,
not blank and has an audio index of at least 0, pushes its detach-audio
command.  The non-dry-run mergeClipWithNext always pushes its merge command
and returns true.  trimClipIn, trimClipOut and moveClip push no undo command
of their own, and moveClip leaves the model alone. -/
theorem edit_operations_without_lock_step (ops : Collaborators) (d : TimelineDock)
    (trackIndex clipIndex oldClipIndex delta toTrack position : Int) (ripple : Bool) :
    (∀ d1, splitClip ops d trackIndex clipIndex = .ok d1 → NoLockNotice d d1) ∧
    (∀ tr i, 0 ≤ trackIndex → 0 ≤ clipIndex → d.m_model.track? trackIndex = some tr →
      tr.isTransition clipIndex = false → tr.clip_info clipIndex = some i →
      i.start < d.m_position → d.m_position < i.start + i.frame_count →
      splitClip ops d trackIndex clipIndex = .ok ((setCurrentTrack d trackIndex).pushCommand ops
        (UndoCommand.SplitCommand trackIndex clipIndex d.m_position))) ∧
    (∀ d1, detachAudio ops d trackIndex clipIndex = .ok d1 → NoLockNotice d d1) ∧
    (∀ tr i p a, d.m_model.track? trackIndex = some tr → tr.clip_info clipIndex = some i →
      i.producer = some p → p.is_valid = true → p.is_blank = false →
      p.audio_index = some a → 0 ≤ a →
      detachAudio ops d trackIndex clipIndex = .ok (d.pushCommand ops
        (UndoCommand.DetachAudioCommand trackIndex clipIndex i.start
          (Xml.cut p i.frame_in i.frame_out)))) ∧
    (∀ r, trimClipIn ops d trackIndex clipIndex oldClipIndex delta ripple = .ok r →
      NoLockNotice d r.2 ∧ r.2.undoStack = d.undoStack) ∧
    (∀ r, trimClipOut ops d trackIndex clipIndex delta ripple = .ok r →
      NoLockNotice d r.2 ∧ r.2.undoStack = d.undoStack) ∧
    (NoLockNotice d (moveClip ops d trackIndex toTrack clipIndex position ripple).2 ∧
      (moveClip ops d trackIndex toTrack clipIndex position ripple).2.undoStack = d.undoStack ∧
      (moveClip ops d trackIndex toTrack clipIndex position ripple).2.m_model = d.m_model) ∧
    mergeClipWithNext ops d trackIndex clipIndex false
      = (true, d.pushCommand ops (UndoCommand.MergeCommand trackIndex clipIndex)) ∧
    NoLockNotice d (mergeClipWithNext ops d trackIndex clipIndex false).2 :=
  ⟨fun d1 h => splitClip_noLockNotice ops d d1 trackIndex clipIndex h,
    fun tr i h0 h1 htr hnt hi hlo hhi =>
      splitClip_explicit_pushes ops d trackIndex clipIndex tr i h0 h1 htr hnt hi hlo hhi,
    fun d1 h => detachAudio_noLockNotice ops d d1 trackIndex clipIndex h,
    fun tr i p a htr hi hp hv hb ha h0 =>
      detachAudio_pushes ops d trackIndex clipIndex tr i p a htr hi hp hv hb ha h0,
    fun r h => trimCall_run_noLockNotice ops d
      (TrimCall.trimClipIn trackIndex clipIndex oldClipIndex delta ripple) r h,
    fun r h => trimCall_run_noLockNotice ops d
      (TrimCall.trimClipOut trackIndex clipIndex delta ripple) r h,
    moveClip_noLockNotice ops d trackIndex toTrack clipIndex position ripple,
    rfl, noLockNotice_of_eq d _ rfl⟩

/-- C16 (amended), witness.  On the locked track 0, splitClip pushes the split
command of clip 0 at the playhead 50, detachAudio pushes the detach-audio
command of clip 0, and trimClipIn runs to its end, raises no track-locked
notice and pushes nothing. -/
theorem edit_operations_without_lock_step_witness :
    isTrackLocked lockedActiveDock 0 = true ∧ isTrackLocked lockedAudioDock 0 = true ∧
    splitClip sampleOps lockedActiveDock 0 0 = .ok ((setCurrentTrack lockedActiveDock 0).pushCommand
      sampleOps (UndoCommand.SplitCommand 0 0 50)) ∧
    detachAudio sampleOps lockedAudioDock 0 0 = .ok (lockedAudioDock.pushCommand sampleOps
      (UndoCommand.DetachAudioCommand 0 0 0 (Xml.cut { id := 1, audio_index := some 0 } 0 99))) ∧
    (∃ r, trimClipIn sampleOps lockedActiveDock 0 0 0 5 false = .ok r ∧
      NoLockNotice lockedActiveDock r.2 ∧ r.2.undoStack = lockedActiveDock.undoStack) :=
  ⟨by decide, by decide,
    (edit_operations_without_lock_step sampleOps lockedActiveDock 0 0 0 5 0 0 false).2.1
      { clips := [sampleClip 1 0, sampleClip 2 100], locked := true } (sampleClip 1 0)
      (by decide) (by decide) rfl rfl rfl (by decide) (by decide),
    (edit_operations_without_lock_step sampleOps lockedAudioDock 0 0 0 5 0 0 false).2.2.2.1
      { clips := [sampleAudioClip 1 0, sampleClip 2 100], locked := true } (sampleAudioClip 1 0)
      { id := 1, audio_index := some 0 } 0 rfl rfl rfl rfl rfl rfl (by decide),
    ⟨_, rfl,
      (edit_operations_without_lock_step sampleOps lockedActiveDock 0 0 0 5 0 0 false).2.2.2.2.1
        _ rfl⟩⟩

/-- C16, counterexample.  Track 0 is locked, the playhead is inside its clip 0:
the non-dry-run mergeClipWithNext pushes a merge command, splitClip, called
with the explicit coordinate (track 0, clip 0), pushes a split command, and
detachAudio, called on clip 0 with its audio stream, pushes a detach-audio
command; no notice is raised. -/
theorem edit_operations_lock_step_counterexample :
    isTrackLocked lockedActiveDock 0 = true ∧
    (mergeClipWithNext sampleOps lockedActiveDock 0 0 false).2.undoStack =
      [UndoStackCall.push (UndoCommand.MergeCommand 0 0)] ∧
    (mergeClipWithNext sampleOps lockedActiveDock 0 0 false).2.emitted = [] ∧
    (∃ d1, splitClip sampleOps lockedActiveDock 0 0 = .ok d1 ∧
      d1.undoStack = [UndoStackCall.push (UndoCommand.SplitCommand 0 0 50)] ∧
      d1.emitted = []) ∧
    isTrackLocked lockedAudioDock 0 = true ∧
    (∃ d1, detachAudio sampleOps lockedAudioDock 0 0 = .ok d1 ∧
      d1.undoStack = [UndoStackCall.push (UndoCommand.DetachAudioCommand 0 0 0
        (Xml.cut { id := 1, audio_index := some 0 } 0 99))] ∧
      d1.emitted = []) :=
  ⟨by decide, rfl, rfl, ⟨_, rfl, rfl, rfl⟩, by decide, ⟨_, rfl, rfl, rfl⟩⟩

/-! ### Edit coordinator: policy violations -/

theorem fade_negative (ops : Collaborators) (d : TimelineDock) (t clipIndex duration : Int)
    (hlock : isTrackLocked d t = false) (hneg : duration < 0) :
    fadeIn ops d t clipIndex duration = d ∧ fadeOut ops d t clipIndex duration = d := by
  unfold fadeIn fadeOut
  rw [hlock]
  simp [hneg]

theorem nonSeekable_notice (ops : Collaborators) (d : TimelineDock) (trackIndex position : Int)
    (seek : Bool)
    (hlock : isTrackLocked d (lockTarget d trackIndex) = false)
    (hmine : ops.isSourceClipMyProject = false) (hseek : ops.isSeekableClip = false)
    (hsaved : d.savedProducer = none) :
    append ops d trackIndex = .ok (d.emit (.showStatusMessage .nonSeekable)) ∧
    insert ops d trackIndex position none seek = .ok (d.emit (.showStatusMessage .nonSeekable)) ∧
    overwrite ops d trackIndex position none seek
      = .ok (d.emit (.showStatusMessage .nonSeekable)) := by
  unfold lockTarget at hlock
  unfold append insert overwrite
  dsimp only
  rw [hlock, hmine, hseek, hsaved]
  simp [pure, Except.pure]

/-- C17 (amended).  Three of the four policy violations are surfaced as a
notice, the fourth is not.  (i) On a locked target track `t`, append, insert,
overwrite, remove, lift, fadeIn and fadeOut come back with the track-locked
notice as their only effect.  (ii) On an unlocked track, with a source that is
not the project itself and not seekable, no copied producer and no XML payload,
append, insert and overwrite come back with the non-seekable notice as their
only effect.  (iii) splitClip resolved on a transition emits the
cannot-split-a-transition notice, pushes nothing and leaves the model alone.
(iv) fadeIn and fadeOut with a negative duration on an unlocked track return
the dock unchanged: nothing is pushed and no notice is emitted. -/
theorem policy_violation_notices (ops : Collaborators) (d : TimelineDock)
    (trackIndex clipIndex position duration : Int) (seek : Bool) :
    (isTrackLocked d (lockTarget d trackIndex) = true →
      (∀ r ∈ [append ops d trackIndex, insert ops d trackIndex position none seek,
          overwrite ops d trackIndex position none seek,
          remove d (lockTarget d trackIndex) clipIndex,
          lift ops d (lockTarget d trackIndex) clipIndex,
          pure (fadeIn ops d (lockTarget d trackIndex) clipIndex duration),
          pure (fadeOut ops d (lockTarget d trackIndex) clipIndex duration)],
        r = .ok (pulseLockButtonOnTrack d (lockTarget d trackIndex))) ∧
      AbortedOnLock d (pulseLockButtonOnTrack d (lockTarget d trackIndex))
        (lockTarget d trackIndex)) ∧
    (isTrackLocked d (lockTarget d trackIndex) = false → ops.isSourceClipMyProject = false →
      ops.isSeekableClip = false → d.savedProducer = none →
      ∀ r ∈ [append ops d trackIndex, insert ops d trackIndex position none seek,
          overwrite ops d trackIndex position none seek],
        r = .ok (d.emit (.showStatusMessage .nonSeekable))) ∧
    (∀ tr, 0 ≤ (splitTarget ops d trackIndex clipIndex).1 →
      0 ≤ (splitTarget ops d trackIndex clipIndex).2 →
      d.m_model.track? (splitTarget ops d trackIndex clipIndex).1 = some tr →
      tr.isTransition (splitTarget ops d trackIndex clipIndex).2 = true →
      ∃ d1, splitClip ops d trackIndex clipIndex = .ok d1 ∧
        d1.emitted = d.emitted ++ [Event.showStatusMessage .cannotSplitTransition] ∧
        d1.undoStack = d.undoStack ∧ d1.m_model = d.m_model) ∧
    (isTrackLocked d trackIndex = false → duration < 0 →
      fadeIn ops d trackIndex clipIndex duration = d ∧
      fadeOut ops d trackIndex clipIndex duration = d) := by
  refine ⟨?_, ?_, ?_, ?_⟩
  · intro hlock
    refine ⟨?_, pulseLockButtonOnTrack_aborted d _⟩
    intro r hr
    simp only [List.mem_cons, List.mem_singleton, List.not_mem_nil, or_false] at hr
    rcases hr with rfl | rfl | rfl | rfl | rfl | rfl | rfl
    · exact append_locked ops d trackIndex hlock
    · exact insert_locked ops d trackIndex position none seek hlock
    · exact overwrite_locked ops d trackIndex position none seek hlock
    · exact remove_locked d _ clipIndex hlock
    · exact lift_locked ops d _ clipIndex hlock
    · rw [fadeIn_locked ops d _ clipIndex duration hlock]; rfl
    · rw [fadeOut_locked ops d _ clipIndex duration hlock]; rfl
  · intro hlock hmine hseek hsaved r hr
    obtain ⟨h1, h2, h3⟩ := nonSeekable_notice ops d trackIndex position seek hlock hmine hseek hsaved
    simp only [List.mem_cons, List.mem_singleton, List.not_mem_nil, or_false] at hr
    rcases hr with rfl | rfl | rfl
    · exact h1
    · exact h2
    · exact h3
  · intro tr h0 h1 htr htrans
    refine ⟨_, splitClip_resolved ops d trackIndex clipIndex tr h0 h1 htr, ?_⟩
    obtain ⟨k1, k2, k3, -⟩ := setCurrentTrack_fields d (splitTarget ops d trackIndex clipIndex).1
    unfold splitResolved
    rw [htrans, if_pos rfl]
    refine ⟨?_, k2, k3⟩
    show _ ++ _ = _
    rw [k1]
  · intro hlock hneg
    exact fade_negative ops d trackIndex clipIndex duration hlock hneg

/-- C17 (amended), witness.  One input for each of the four violations: append
on the locked active track, append of a non-seekable source, splitClip on the
transition under the playhead (clip 1 of track 0), and a fade-in of -1 frame. -/
theorem policy_violation_notices_witness :
    append sampleOps lockedActiveDock (-1) = .ok (pulseLockButtonOnTrack lockedActiveDock 0) ∧
    append nonSeekableOps sampleDock 0
      = .ok (sampleDock.emit (.showStatusMessage .nonSeekable)) ∧
    (∃ d1, splitClip sampleOps transitionDock 0 1 = .ok d1 ∧
      d1.emitted = [Event.showStatusMessage .cannotSplitTransition] ∧
      d1.undoStack = [] ∧ d1.m_model = transitionDock.m_model) ∧
    fadeIn sampleOps sampleDock 0 0 (-1) = sampleDock ∧
    fadeOut sampleOps sampleDock 0 0 (-1) = sampleDock :=
  ⟨((policy_violation_notices sampleOps lockedActiveDock (-1) 0 0 0 false).1 (by decide)).1 _
      (List.mem_cons_self _ _),
    (policy_violation_notices nonSeekableOps sampleDock 0 0 0 0 false).2.1 (by decide) rfl rfl rfl _
      (List.mem_cons_self _ _),
    (policy_violation_notices sampleOps transitionDock 0 1 0 0 false).2.2.1
      { clips := [sampleClip 1 0, sampleTransition 5 100, sampleClip 2 125] }
      (by decide) (by decide) (by decide) (by decide),
    (policy_violation_notices sampleOps sampleDock 0 0 0 (-1) false).2.2.2 (by decide) (by decide)⟩

/-- C17, counterexample.  A fade-in of -1 frame on an unlocked track: the dock
comes back as it was, no status notice among its events. -/
theorem policy_violation_notices_counterexample :
    isTrackLocked sampleDock 0 = false ∧
    fadeIn sampleOps sampleDock 0 0 (-1) = sampleDock ∧
    (fadeIn sampleOps sampleDock 0 0 (-1)).emitted = [] ∧
    (fadeOut sampleOps sampleDock 0 0 (-1)).emitted = [] :=
  ⟨by decide, by decide, by decide, by decide⟩

/-! ### Split -/

theorem splitClip_unresolved (ops : Collaborators) (d : TimelineDock) (trackIndex clipIndex : Int)
    (h : (splitTarget ops d trackIndex clipIndex).1 < 0 ∨
      (splitTarget ops d trackIndex clipIndex).2 < 0) :
    splitClip ops d trackIndex clipIndex = .ok d ∧ splitAllowed ops d trackIndex clipIndex = false := by
  constructor
  · unfold splitClip
    dsimp only
    rw [if_pos h]
    rfl
  · unfold splitAllowed
    split
    · rfl
    · rename_i tr htr
      have h0 : 0 ≤ (splitTarget ops d trackIndex clipIndex).1 := by
        unfold MultitrackModel.track? at htr
        by_contra hneg
        rw [if_neg hneg] at htr
        cases htr
      have h2 : (splitTarget ops d trackIndex clipIndex).2 < 0 := by omega
      unfold Track.clip_info
      rw [if_neg (by omega)]

/-- C18. splitClip pushes a split command if and only if a clip is resolved, it
is not a transition, and the playhead lies strictly inside its span.  With the
resolved track index below the track count (beyond it `QList::at` has no
defined behaviour), splitClip runs to its end; when the rule `splitAllowed`
holds, the undo stack gains exactly one split command for the resolved
coordinate, whose position is the playhead; when it does not hold, the undo
stack is unchanged: in particular with the playhead exactly at the clip start,
exactly at start + length, or on a transition. -/
theorem splitClip_pushes_iff (ops : Collaborators) (d : TimelineDock) (trackIndex clipIndex : Int)
    (hrange : (splitTarget ops d trackIndex clipIndex).1 < d.m_model.trackList.length) :
    ∃ d1, splitClip ops d trackIndex clipIndex = .ok d1 ∧
      d1.undoStack = (if splitAllowed ops d trackIndex clipIndex then
        d.undoStack ++ [UndoStackCall.push (UndoCommand.SplitCommand
          (splitTarget ops d trackIndex clipIndex).1 (splitTarget ops d trackIndex clipIndex).2
          d.m_position)]
        else d.undoStack) ∧
      (d1.undoStack ≠ d.undoStack ↔ splitAllowed ops d trackIndex clipIndex = true) ∧
      (∀ tr i, d.m_model.track? (splitTarget ops d trackIndex clipIndex).1 = some tr →
        tr.clip_info (splitTarget ops d trackIndex clipIndex).2 = some i →
        (d.m_position = i.start ∨ d.m_position = i.start + i.frame_count ∨
          tr.isTransition (splitTarget ops d trackIndex clipIndex).2 = true) →
        d1.undoStack = d.undoStack) := by
  have key : ∃ d1, splitClip ops d trackIndex clipIndex = .ok d1 ∧
      d1.undoStack = (if splitAllowed ops d trackIndex clipIndex then
        d.undoStack ++ [UndoStackCall.push (UndoCommand.SplitCommand
          (splitTarget ops d trackIndex clipIndex).1 (splitTarget ops d trackIndex clipIndex).2
          d.m_position)]
        else d.undoStack) := by
    by_cases hneg : (splitTarget ops d trackIndex clipIndex).1 < 0 ∨
        (splitTarget ops d trackIndex clipIndex).2 < 0
    · obtain ⟨h1, h2⟩ := splitClip_unresolved ops d trackIndex clipIndex hneg
      exact ⟨d, h1, by rw [h2]; rfl⟩
    · have h0 : 0 ≤ (splitTarget ops d trackIndex clipIndex).1 := by omega
      have h1 : 0 ≤ (splitTarget ops d trackIndex clipIndex).2 := by omega
      have hlt : (splitTarget ops d trackIndex clipIndex).1.toNat < d.m_model.trackList.length := by
        omega
      have htr : d.m_model.track? (splitTarget ops d trackIndex clipIndex).1
          = some (d.m_model.trackList.get ⟨_, hlt⟩) := by
        unfold MultitrackModel.track?
        rw [if_pos h0, List.get?_eq_get hlt]
      refine ⟨_, splitClip_resolved ops d trackIndex clipIndex _ h0 h1 htr, ?_⟩
      obtain ⟨-, k2, -, -⟩ := setCurrentTrack_fields d (splitTarget ops d trackIndex clipIndex).1
      unfold splitResolved splitAllowed
      rw [htr]
      dsimp only
      cases htrans : (d.m_model.trackList.get ⟨_, hlt⟩).isTransition
          (splitTarget ops d trackIndex clipIndex).2 with
      | true =>
        rw [if_pos rfl]
        cases (d.m_model.trackList.get ⟨_, hlt⟩).clip_info
            (splitTarget ops d trackIndex clipIndex).2 <;> simpa using k2
      | false =>
        rw [if_neg (by simp)]
        cases (d.m_model.trackList.get ⟨_, hlt⟩).clip_info
            (splitTarget ops d trackIndex clipIndex).2 with
        | none => simpa using k2
        | some i =>
          dsimp only
          by_cases hin : d.m_position > i.start ∧ d.m_position < i.start + i.frame_count
          · rw [if_pos hin]
            have hin2 : i.start < d.m_position ∧ d.m_position < i.start + i.frame_count := hin
            simp only [Bool.not_false, Bool.true_and, decide_eq_true_eq, hin2, and_self, if_true]
            show (setCurrentTrack d _).undoStack ++ _ = _
            rw [k2]
          · rw [if_neg hin]
            have hin2 : ¬ (i.start < d.m_position ∧ d.m_position < i.start + i.frame_count) := hin
            simp only [Bool.not_false, Bool.true_and, decide_eq_true_eq, hin2, if_false]
            exact k2
  obtain ⟨d1, h1, h2⟩ := key
  refine ⟨d1, h1, h2, ?_, ?_⟩
  · rw [h2]
    cases splitAllowed ops d trackIndex clipIndex <;> simp
  · intro tr i htr hi hb
    rw [h2]
    have : splitAllowed ops d trackIndex clipIndex = false := by
      unfold splitAllowed
      rw [htr]
      dsimp only
      rw [hi]
      dsimp only
      rcases hb with hb | hb | hb
      · simp [hb]
      · simp [hb]
      · simp [hb]
    rw [this]
    rfl

/-- C18, witness.  Clip 0 of track 0 spans the frames 0 to 99 (start 0, length
100): with the playhead at 50 one split command at position 50 is pushed, with
the playhead at 0 and at 100 nothing is pushed. -/
theorem splitClip_pushes_iff_witness :
    (∃ d1, splitClip sampleOps (sampleDockAt 50) 0 0 = .ok d1 ∧
      d1.undoStack = [UndoStackCall.push (UndoCommand.SplitCommand 0 0 50)]) ∧
    (∃ d1, splitClip sampleOps (sampleDockAt 0) 0 0 = .ok d1 ∧ d1.undoStack = []) ∧
    (∃ d1, splitClip sampleOps (sampleDockAt 100) 0 0 = .ok d1 ∧ d1.undoStack = []) :=
  ⟨(splitClip_pushes_iff sampleOps (sampleDockAt 50) 0 0 (by decide)).imp
      (fun _ h => ⟨h.1, h.2.1⟩),
    (splitClip_pushes_iff sampleOps (sampleDockAt 0) 0 0 (by decide)).imp
      (fun _ h => ⟨h.1, h.2.1⟩),
    (splitClip_pushes_iff sampleOps (sampleDockAt 100) 0 0 (by decide)).imp
      (fun _ h => ⟨h.1, h.2.1⟩)⟩

/-! ### Insert and overwrite -/

theorem insertPosition_cases (d : TimelineDock) (position : Int) :
    (d.m_model.trackList = [] → insertPosition d position = 0) ∧
    (d.m_model.trackList ≠ [] → 0 ≤ position → insertPosition d position = position) ∧
    (d.m_model.trackList ≠ [] → position < 0 → insertPosition d position = d.m_position) := by
  unfold insertPosition
  refine ⟨?_, ?_, ?_⟩
  · intro h
    simp [h]
  · intro h hp
    have hl : d.m_model.trackList.length ≠ 0 := fun h0 => h (List.length_eq_zero.mp h0)
    simp only [if_neg hl]
    rw [if_neg (by omega)]
  · intro h hp
    have hl : d.m_model.trackList.length ≠ 0 := fun h0 => h (List.length_eq_zero.mp h0)
    simp only [if_neg hl]
    rw [if_pos hp]

/-- C19 (amended).  For insert and overwrite on an unlocked target track, with a
source that is not the project itself and is acceptable (seekable, or a copied
producer, or an XML payload), exactly one command is pushed, for the target
track, and the position it carries is: 0 when the timeline has no track at all;
otherwise the given position when it is non-negative and the current playhead
when it is negative.  A target track that exists and holds no clip does not
force the position to 0 (see the counterexample). -/
theorem insert_overwrite_position (ops : Collaborators) (d : TimelineDock)
    (trackIndex position : Int) (xml : Option Nat) (seek : Bool)
    (hlock : isTrackLocked d (lockTarget d trackIndex) = false)
    (hmine : ops.isSourceClipMyProject = false)
    (hsource : ops.isSeekableClip = true ∨ d.savedProducer.isSome = true ∨ xml.isSome = true) :
    insert ops d trackIndex position xml seek = .ok (d.pushCommand ops
      (UndoCommand.InsertCommand (lockTarget d trackIndex) (insertPosition d position)
        (xmlToUse ops d xml) seek)) ∧
    overwrite ops d trackIndex position xml seek = .ok (d.pushCommand ops
      (UndoCommand.OverwriteCommand (lockTarget d trackIndex) (insertPosition d position)
        (xmlToUse ops d xml) seek)) ∧
    (d.m_model.trackList = [] → insertPosition d position = 0) ∧
    (d.m_model.trackList ≠ [] → 0 ≤ position → insertPosition d position = position) ∧
    (d.m_model.trackList ≠ [] → position < 0 → insertPosition d position = d.m_position) := by
  refine ⟨?_, ?_, insertPosition_cases d position⟩
  · unfold lockTarget at hlock ⊢
    unfold insert
    dsimp only
    rw [hlock, hmine]
    simp only [Bool.false_eq_true, if_false]
    rw [if_pos hsource]
    rfl
  · unfold lockTarget at hlock ⊢
    unfold overwrite
    dsimp only
    rw [hlock, hmine]
    simp only [Bool.false_eq_true, if_false]
    rw [if_pos hsource]
    rfl

/-- C19 (amended), witness.  Playhead at frame 30 on a timeline with one track:
an insert at position 50 carries 50, an overwrite without position carries the
playhead 30; on a timeline without track an insert at position 50 carries 0. -/
theorem insert_overwrite_position_witness :
    insert sampleOps (sampleDockAt 30) 0 50 (some 7) true = .ok ((sampleDockAt 30).pushCommand
      sampleOps (UndoCommand.InsertCommand 0 50 (Xml.text 7) true)) ∧
    overwrite sampleOps (sampleDockAt 30) 0 (-1) (some 7) true = .ok ((sampleDockAt 30).pushCommand
      sampleOps (UndoCommand.OverwriteCommand 0 30 (Xml.text 7) true)) ∧
    insert sampleOps trackLessDock 0 50 (some 7) true = .ok (trackLessDock.pushCommand
      sampleOps (UndoCommand.InsertCommand 0 0 (Xml.text 7) true)) :=
  ⟨(insert_overwrite_position sampleOps (sampleDockAt 30) 0 50 (some 7) true (by decide) rfl
      (Or.inl rfl)).1,
    (insert_overwrite_position sampleOps (sampleDockAt 30) 0 (-1) (some 7) true (by decide) rfl
      (Or.inl rfl)).2.1,
    (insert_overwrite_position sampleOps trackLessDock 0 50 (some 7) true (by decide) rfl
      (Or.inl rfl)).1⟩

/-- C19, counterexample.  The target track 0 exists and holds no clip, the
playhead is at frame 20: an insert at position 50 carries 50 and an insert
without position carries the playhead 20, not 0. -/
theorem insert_overwrite_position_counterexample :
    clipCount emptyTrackDock 0 = 0 ∧ isTrackLocked emptyTrackDock 0 = false ∧
    (∃ d1, insert sampleOps emptyTrackDock 0 50 (some 7) true = .ok d1 ∧
      d1.undoStack = [UndoStackCall.push (UndoCommand.InsertCommand 0 50 (Xml.text 7) true)]) ∧
    (∃ d1, insert sampleOps emptyTrackDock 0 (-1) (some 7) true = .ok d1 ∧
      d1.undoStack = [UndoStackCall.push (UndoCommand.InsertCommand 0 20 (Xml.text 7) true)]) ∧
    (∃ d1, overwrite sampleOps emptyTrackDock 0 50 (some 7) true = .ok d1 ∧
      d1.undoStack = [UndoStackCall.push (UndoCommand.OverwriteCommand 0 50 (Xml.text 7) true)]) :=
  ⟨by decide, by decide, ⟨_, rfl, rfl⟩, ⟨_, rfl, rfl⟩, ⟨_, rfl, rfl⟩⟩

/-! ### Fades -/

/-- C20. fadeIn and fadeOut on an unlocked track: a negative duration is
rejected, the dock comes back unchanged, with no undo command and no
fade-changed notification; every duration >= 0 appends to the undo stack
exactly one command carrying (track, clip, duration) and to the events exactly
one fade-changed notification carrying that same duration. -/
theorem fade_duration (ops : Collaborators) (d : TimelineDock)
    (trackIndex clipIndex duration : Int) (hlock : isTrackLocked d trackIndex = false) :
    (duration < 0 →
      fadeIn ops d trackIndex clipIndex duration = d ∧
      fadeOut ops d trackIndex clipIndex duration = d) ∧
    (0 ≤ duration →
      (fadeIn ops d trackIndex clipIndex duration).undoStack = d.undoStack ++
        [UndoStackCall.push (UndoCommand.FadeInCommand trackIndex clipIndex duration)] ∧
      (fadeIn ops d trackIndex clipIndex duration).emitted = d.emitted ++
        [Event.fadeInChanged duration] ∧
      (fadeOut ops d trackIndex clipIndex duration).undoStack = d.undoStack ++
        [UndoStackCall.push (UndoCommand.FadeOutCommand trackIndex clipIndex duration)] ∧
      (fadeOut ops d trackIndex clipIndex duration).emitted = d.emitted ++
        [Event.fadeOutChanged duration]) := by
  refine ⟨fun hneg => fade_negative ops d trackIndex clipIndex duration hlock hneg, ?_⟩
  intro hpos
  unfold fadeIn fadeOut
  rw [hlock]
  have hn : ¬ duration < 0 := by omega
  simp only [Bool.false_eq_true, if_false, if_neg hn]
  exact ⟨rfl, rfl, rfl, rfl⟩

/-- C20, witness.  On the unlocked track 0: a fade-in of -1 frame leaves the
dock as it was; a fade-in of 0 frames and a fade-out of 25 frames push one
command and emit one notification each. -/
theorem fade_duration_witness :
    isTrackLocked sampleDock 0 = false ∧
    fadeIn sampleOps sampleDock 0 1 (-1) = sampleDock ∧
    (fadeIn sampleOps sampleDock 0 1 0).undoStack =
      [UndoStackCall.push (UndoCommand.FadeInCommand 0 1 0)] ∧
    (fadeIn sampleOps sampleDock 0 1 0).emitted = [Event.fadeInChanged 0] ∧
    (fadeOut sampleOps sampleDock 0 1 25).undoStack =
      [UndoStackCall.push (UndoCommand.FadeOutCommand 0 1 25)] ∧
    (fadeOut sampleOps sampleDock 0 1 25).emitted = [Event.fadeOutChanged 25] :=
  ⟨by decide,
    ((fade_duration sampleOps sampleDock 0 1 (-1) (by decide)).1 (by decide)).1,
    ((fade_duration sampleOps sampleDock 0 1 0 (by decide)).2 (by decide)).1,
    ((fade_duration sampleOps sampleDock 0 1 0 (by decide)).2 (by decide)).2.1,
    ((fade_duration sampleOps sampleDock 0 1 25 (by decide)).2 (by decide)).2.2.1,
    ((fade_duration sampleOps sampleDock 0 1 25 (by decide)).2 (by decide)).2.2.2⟩

/-! ### Branches of a trim call -/

/-- The `if` chain of trimClipIn and trimClipOut picks the first applicable
branch of the strict priority order. -/
theorem trimCall_branch_eq_firstApplicable (ops : Collaborators) (m : MultitrackModel)
    (call : TrimCall) : call.branch ops m = call.firstApplicable ops m := by
  cases call with
  | trimClipIn t c o δ rp =>
    simp only [TrimCall.branch, TrimCall.firstApplicable, TrimBranch.order, List.find?,
      TrimCall.applicable]
    generalize ops.addTransitionByTrimInValid m t c δ = b1
    generalize ops.removeTransitionByTrimInValid m t c δ = b2
    generalize ops.trimTransitionOutValid m t c δ = b3
    generalize ops.trimClipInValid m t c δ rp = b4
    cases rp <;> cases b1 <;> cases b2 <;> cases b3 <;> cases b4 <;> rfl
  | trimClipOut t c δ rp =>
    simp only [TrimCall.branch, TrimCall.firstApplicable, TrimBranch.order, List.find?,
      TrimCall.applicable]
    generalize ops.addTransitionByTrimOutValid m t c δ = b1
    generalize ops.removeTransitionByTrimOutValid m t c δ = b2
    generalize ops.trimTransitionInValid m t c δ = b3
    generalize ops.trimClipOutValid m t c δ rp = b4
    cases rp <;> cases b1 <;> cases b2 <;> cases b3 <;> cases b4 <;> rfl

/-- What a trim call that runs to its end does, branch by branch. -/
theorem trimCall_run_effect (ops : Collaborators) (d : TimelineDock) (call : TrimCall)
    (r : Bool × TimelineDock) (h : call.run ops d = .ok r) :
    (call.branch ops d.m_model = none → r = (false, d)) ∧
    (∀ br, call.branch ops d.m_model = some br →
      r.1 = true ∧ r.2.m_model = call.mutation ops d.m_model br ∧
      (r.2.m_transitionDelta, r.2.m_trimDelta)
        = br.counters d.m_transitionDelta d.m_trimDelta call.delta ∧
      r.2.m_trimCommand = some (call.command r.2.m_transitionDelta r.2.m_trimDelta br)) := by
  have hu : ∀ (x : TimelineDock) (t c nt nc : Int) (np : UpdateCommand → Int),
      (updateCommandSetPosition ops x t c nt nc np).m_model = x.m_model ∧
      (updateCommandSetPosition ops x t c nt nc np).m_transitionDelta = x.m_transitionDelta ∧
      (updateCommandSetPosition ops x t c nt nc np).m_trimDelta = x.m_trimDelta ∧
      (updateCommandSetPosition ops x t c nt nc np).m_trimCommand = x.m_trimCommand := by
    intro x t c nt nc np
    unfold updateCommandSetPosition
    cases x.m_updateCommand with
    | none => exact ⟨rfl, rfl, rfl, rfl⟩
    | some u => by_cases hu : u.trackIndex = t ∧ u.clipIndex = c <;> simp [hu]
  have he : ∀ rp, (ensureUndoHelper d rp).m_model = d.m_model := by
    intro rp
    unfold ensureUndoHelper
    cases d.m_undoHelper <;> rfl
  cases call with
  | trimClipIn t c o δ rp =>
    obtain ⟨k1, k2, -⟩ := ensureUndoHelper_fields d rp
    simp only [TrimCall.run, trimClipIn] at h
    simp only [TrimCall.branch]
    split_ifs at h ⊢ with c1 c2 c3 c4
    · rw [pure_eq_ok] at h
      subst h
      refine ⟨fun hn => (by cases hn), fun br hbr => ?_⟩
      cases hbr
      obtain ⟨u1, u2, u3, u4⟩ := hu
        { d with m_model := ops.addTransitionByTrimIn d.m_model t c δ,
                 m_transitionDelta := d.m_transitionDelta + δ,
                 m_trimCommand := some (.AddTransitionByTrimInCommand t (c - 1)
                   (d.m_transitionDelta + δ) d.m_trimDelta false) } t c t c (fun _ => -1)
      exact ⟨rfl, u1, by rw [u2, u3]; rfl, by rw [u2, u3, u4]; rfl⟩
    · rw [pure_eq_ok] at h
      subst h
      refine ⟨fun hn => (by cases hn), fun br hbr => ?_⟩
      cases hbr
      obtain ⟨u1, u2, u3, u4⟩ := hu
        { d with m_model := (ops.trimClipIn (ops.liftClip d.m_model t (c - 1)) t c
                   (-(ops.durationRole d.m_model t (c - 1))) false).2,
                 m_trimDelta := d.m_trimDelta + δ,
                 m_trimCommand := some (.RemoveTransitionByTrimInCommand t (c - 1)
                   (d.m_trimDelta + δ) false) } t c t (c - 1) (fun _ => -1)
      exact ⟨rfl, u1, by rw [u2, u3]; rfl, by rw [u2, u3, u4]; rfl⟩
    · rw [pure_eq_ok] at h
      subst h
      refine ⟨fun hn => (by cases hn), fun br hbr => ?_⟩
      cases hbr
      exact ⟨rfl, rfl, rfl, rfl⟩
    · obtain ⟨d1, hd1, h⟩ := bind_eq_ok.mp h
      rw [pure_eq_ok] at h
      subst h
      refine ⟨fun hn => (by cases hn), fun br hbr => ?_⟩
      cases hbr
      have hd1' : d1 = { ensureUndoHelper d rp with
            m_model := (ops.trimClipIn (ensureUndoHelper d rp).m_model t c δ rp).2 } ∨
          d1 = TimelineDock.emit { ensureUndoHelper d rp with
            m_model := (ops.trimClipIn (ensureUndoHelper d rp).m_model t c δ rp).2 }
            Event.imageDurationChanged :=
        emitImageDurationChanged_ok _ _ _ _ _ hd1
      have f1 : d1.m_model = (ops.trimClipIn d.m_model t c δ rp).2 := by
        rcases hd1' with e | e <;> rw [e] <;> simp [TimelineDock.emit, he]
      have f2 : d1.m_transitionDelta = d.m_transitionDelta := by
        rcases hd1' with e | e <;> rw [e] <;> simp [TimelineDock.emit, k1]
      have f3 : d1.m_trimDelta = d.m_trimDelta := by
        rcases hd1' with e | e <;> rw [e] <;> simp [TimelineDock.emit, k2]
      obtain ⟨u1, u2, u3, u4⟩ := hu
        { d1 with m_trimDelta := d1.m_trimDelta + δ,
                  m_trimCommand := some (.TrimClipInCommand t o (d1.m_trimDelta + δ) rp false) }
        t (ops.trimClipIn (ensureUndoHelper d rp).m_model t c δ rp).1 t
        (ops.trimClipIn (ensureUndoHelper d rp).m_model t c δ rp).1 (fun u => u.position + δ)
      refine ⟨rfl, ?_, ?_, ?_⟩
      · rw [u1]; exact f1
      · rw [u2, u3]
        show (d1.m_transitionDelta, d1.m_trimDelta + δ) = _
        rw [f2, f3]; rfl
      · rw [u2, u3, u4]; rfl
    · rw [pure_eq_ok] at h
      subst h
      exact ⟨fun _ => rfl, fun br hbr => by cases hbr⟩
  | trimClipOut t c δ rp =>
    obtain ⟨k1, k2, -⟩ := ensureUndoHelper_fields d rp
    simp only [TrimCall.run, trimClipOut] at h
    simp only [TrimCall.branch]
    split_ifs at h ⊢ with c1 c2 c3 c4
    · rw [pure_eq_ok] at h
      subst h
      refine ⟨fun hn => (by cases hn), fun br hbr => ?_⟩
      cases hbr
      obtain ⟨u1, u2, u3, u4⟩ := hu
        { d with m_model := ops.addTransitionByTrimOut d.m_model t c δ,
                 m_transitionDelta := d.m_transitionDelta + δ,
                 m_trimCommand := some (.AddTransitionByTrimOutCommand t c
                   (d.m_transitionDelta + δ) d.m_trimDelta false) } t c t c (fun _ => -1)
      exact ⟨rfl, u1, by rw [u2, u3]; rfl, by rw [u2, u3, u4]; rfl⟩
    · rw [pure_eq_ok] at h
      subst h
      refine ⟨fun hn => (by cases hn), fun br hbr => ?_⟩
      cases hbr
      obtain ⟨u1, u2, u3, u4⟩ := hu
        { d with m_model := ops.trimClipOut (ops.liftClip d.m_model t (c + 1)) t c
                   (-(ops.durationRole d.m_model t (c + 1))) false,
                 m_trimDelta := d.m_trimDelta + δ,
                 m_trimCommand := some (.RemoveTransitionByTrimOutCommand t (c + 1)
                   (d.m_trimDelta + δ) false) } t c t c (fun _ => -1)
      exact ⟨rfl, u1, by rw [u2, u3]; rfl, by rw [u2, u3, u4]; rfl⟩
    · rw [pure_eq_ok] at h
      subst h
      refine ⟨fun hn => (by cases hn), fun br hbr => ?_⟩
      cases hbr
      exact ⟨rfl, rfl, rfl, rfl⟩
    · obtain ⟨d1, hd1, h⟩ := bind_eq_ok.mp h
      rw [pure_eq_ok] at h
      subst h
      refine ⟨fun hn => (by cases hn), fun br hbr => ?_⟩
      cases hbr
      have hd1' : d1 = { ensureUndoHelper d rp with
            m_model := ops.trimClipOut (ensureUndoHelper d rp).m_model t c δ rp } ∨
          d1 = TimelineDock.emit { ensureUndoHelper d rp with
            m_model := ops.trimClipOut (ensureUndoHelper d rp).m_model t c δ rp }
            Event.imageDurationChanged :=
        emitImageDurationChanged_ok _ _ _ _ _ hd1
      have f1 : d1.m_model = ops.trimClipOut d.m_model t c δ rp := by
        rcases hd1' with e | e <;> rw [e] <;> simp [TimelineDock.emit, he]
      have f2 : d1.m_transitionDelta = d.m_transitionDelta := by
        rcases hd1' with e | e <;> rw [e] <;> simp [TimelineDock.emit, k1]
      have f3 : d1.m_trimDelta = d.m_trimDelta := by
        rcases hd1' with e | e <;> rw [e] <;> simp [TimelineDock.emit, k2]
      obtain ⟨u1, u2, u3, u4⟩ := hu
        { d1 with m_trimDelta := d1.m_trimDelta + δ,
                  m_trimCommand := some (.TrimClipOutCommand t c (d1.m_trimDelta + δ) rp false) }
        t c t c (fun _ => -1)
      refine ⟨rfl, ?_, ?_, ?_⟩
      · rw [u1]; exact f1
      · rw [u2, u3]
        show (d1.m_transitionDelta, d1.m_trimDelta + δ) = _
        rw [f2, f3]; rfl
      · rw [u2, u3, u4]; rfl
    · rw [pure_eq_ok] at h
      subst h
      exact ⟨fun _ => rfl, fun br hbr => by cases hbr⟩

/-- Outside the plain-trim branch a trim call always runs to its end. -/
theorem trimCall_run_total (ops : Collaborators) (d : TimelineDock) (call : TrimCall)
    (h : call.branch ops d.m_model ≠ some .plainTrim) : ∃ r, call.run ops d = .ok r := by
  cases call with
  | trimClipIn t c o δ rp =>
    simp only [TrimCall.run, trimClipIn]
    simp only [TrimCall.branch] at h
    split_ifs at h ⊢ with c1 c2 c3 c4
    · exact ⟨_, rfl⟩
    · exact ⟨_, rfl⟩
    · exact ⟨_, rfl⟩
    · exact absurd rfl h
    · exact ⟨_, rfl⟩
  | trimClipOut t c δ rp =>
    simp only [TrimCall.run, trimClipOut]
    simp only [TrimCall.branch] at h
    split_ifs at h ⊢ with c1 c2 c3 c4
    · exact ⟨_, rfl⟩
    · exact ⟨_, rfl⟩
    · exact ⟨_, rfl⟩
    · exact absurd rfl h
    · exact ⟨_, rfl⟩

theorem firstApplicable_ripple (ops : Collaborators) (m : MultitrackModel) (call : TrimCall)
    (h : call.ripple = true) :
    call.firstApplicable ops m = some .plainTrim ∨ call.firstApplicable ops m = none := by
  cases call with
  | trimClipIn t c o δ rp =>
    simp only [TrimCall.ripple] at h
    subst h
    simp only [TrimCall.firstApplicable, TrimBranch.order, List.find?, TrimCall.applicable]
    cases ops.trimClipInValid m t c δ true <;> simp
  | trimClipOut t c δ rp =>
    simp only [TrimCall.ripple] at h
    subst h
    simp only [TrimCall.firstApplicable, TrimBranch.order, List.find?, TrimCall.applicable]
    cases ops.trimClipOutValid m t c δ true <;> simp

theorem emitImageDurationChanged_total (ops : Collaborators) (d : TimelineDock)
    (trackIndex clipIndex : Int) (hrange : trackIndex < d.m_model.trackList.length)
    (hnull : ops.isImageProducer none = false) :
    ∃ d1, emitImageDurationChanged ops d trackIndex clipIndex = .ok d1 := by
  unfold emitImageDurationChanged
  have hinfo : ∃ info, getClipInfo d trackIndex clipIndex = .ok info := by
    by_cases hc : clipIndex ≥ 0 ∧ trackIndex ≥ 0
    · obtain ⟨tr, htr⟩ := trackAt_ok d.m_model trackIndex hc.2 hrange
      exact getClipInfo_total d trackIndex tr htr clipIndex
    · exact ⟨none, by unfold getClipInfo; rw [if_neg hc]; rfl⟩
  obtain ⟨info, hi⟩ := hinfo
  rw [hi]
  simp only [bind, Except.bind]
  cases info with
  | none => exact ⟨_, rfl⟩
  | some i =>
    dsimp only
    cases hp : i.producer with
    | none => rw [hnull]; exact ⟨_, rfl⟩
    | some p =>
      dsimp only
      split
      · split <;> exact ⟨_, rfl⟩
      · exact ⟨_, rfl⟩

/-- The plain trim runs to its end when the track index is below the track
count of the trimmed model and a null producer is not taken for an image. -/
theorem trimCall_run_total_plain (ops : Collaborators) (d : TimelineDock) (call : TrimCall)
    (hrange : call.trackIndex < (call.mutation ops d.m_model .plainTrim).trackList.length)
    (hnull : ops.isImageProducer none = false) : ∃ r, call.run ops d = .ok r := by
  by_cases hb : call.branch ops d.m_model = some .plainTrim
  · have he : ∀ rp, (ensureUndoHelper d rp).m_model = d.m_model := by
      intro rp
      unfold ensureUndoHelper
      cases d.m_undoHelper <;> rfl
    cases call with
    | trimClipIn t c o δ rp =>
      simp only [TrimCall.run, trimClipIn]
      simp only [TrimCall.branch] at hb
      simp only [TrimCall.trackIndex, TrimCall.mutation] at hrange
      split_ifs at hb ⊢ with c1 c2 c3 c4
      · cases hb
      · cases hb
      · cases hb
      · obtain ⟨d1, h1⟩ := emitImageDurationChanged_total ops
          { ensureUndoHelper d rp with
            m_model := (ops.trimClipIn (ensureUndoHelper d rp).m_model t c δ rp).2 } t
          (ops.trimClipIn (ensureUndoHelper d rp).m_model t c δ rp).1
          (by rw [he]; exact hrange) hnull
        simp only [bind, Except.bind]
        rw [h1]
        exact ⟨_, rfl⟩
    | trimClipOut t c δ rp =>
      simp only [TrimCall.run, trimClipOut]
      simp only [TrimCall.branch] at hb
      simp only [TrimCall.trackIndex, TrimCall.mutation] at hrange
      split_ifs at hb ⊢ with c1 c2 c3 c4
      · cases hb
      · cases hb
      · cases hb
      · obtain ⟨d1, h1⟩ := emitImageDurationChanged_total ops
          { ensureUndoHelper d rp with
            m_model := ops.trimClipOut (ensureUndoHelper d rp).m_model t c δ rp } t c
          (by rw [he]; exact hrange) hnull
        simp only [bind, Except.bind]
        rw [h1]
        exact ⟨_, rfl⟩
  · exact trimCall_run_total ops d call hb

/-- C21. For each trim delta, trimClipIn and trimClipOut apply exactly one
branch, the first applicable in the strict order create-transition,
remove-transition, resize-transition, plain trim.  A call that runs to its end
returns true with the model mutated by that branch alone, the pending command
replaced by the command of that branch, and the delta added to the transition
counter only (create-transition) or to the trim counter only (the other three
branches); with no applicable branch it returns false.  With ripple set only
the plain-trim branch can be chosen, whatever the transition predicates say.
Outside the plain-trim branch the call always runs to its end; the plain trim
looks up the trimmed clip and runs to its end when the track index is below the
track count of the trimmed model (beyond it `QList::at` has no defined
behaviour) and a null producer is not taken for an image. -/
theorem trim_applies_first_applicable_branch (ops : Collaborators) (d : TimelineDock)
    (call : TrimCall) :
    (∀ r, call.run ops d = .ok r →
      ∀ br, call.firstApplicable ops d.m_model = some br →
        r.1 = true ∧ r.2.m_model = call.mutation ops d.m_model br ∧
        (r.2.m_transitionDelta, r.2.m_trimDelta)
          = br.counters d.m_transitionDelta d.m_trimDelta call.delta ∧
        r.2.m_trimCommand = some (call.command r.2.m_transitionDelta r.2.m_trimDelta br)) ∧
    (call.firstApplicable ops d.m_model ≠ some .plainTrim → ∃ r, call.run ops d = .ok r) ∧
    (call.trackIndex < (call.mutation ops d.m_model .plainTrim).trackList.length →
      ops.isImageProducer none = false → ∃ r, call.run ops d = .ok r) ∧
    (call.ripple = true →
      call.firstApplicable ops d.m_model = some .plainTrim ∨
      call.firstApplicable ops d.m_model = none) := by
  refine ⟨?_, ?_, trimCall_run_total_plain ops d call, firstApplicable_ripple ops d.m_model call⟩
  · intro r h br hbr
    rw [← trimCall_branch_eq_firstApplicable] at hbr
    exact (trimCall_run_effect ops d call r h).2 br hbr
  · intro h
    rw [← trimCall_branch_eq_firstApplicable] at h
    exact trimCall_run_total ops d call h

/-- C21, witness.  A trim-in of clip 1 by 3 frames: without ripple the
create-transition branch takes it and the transition counter becomes 3; with
ripple the plain trim takes it and the trim counter becomes 3. -/
theorem trim_applies_first_applicable_branch_witness :
    (TrimCall.trimClipIn 0 1 1 3 false).firstApplicable sampleOps sampleDock.m_model
      = some .createTransition ∧
    (∃ r, trimClipIn sampleOps sampleDock 0 1 1 3 false = .ok r ∧ r.1 = true ∧
      (r.2.m_transitionDelta, r.2.m_trimDelta) = (3, 0) ∧
      r.2.m_trimCommand = some (.AddTransitionByTrimInCommand 0 0 3 0 false)) ∧
    (TrimCall.trimClipIn 0 1 1 3 true).firstApplicable sampleOps sampleDock.m_model
      = some .plainTrim ∧
    (∃ r, trimClipIn sampleOps sampleDock 0 1 1 3 true = .ok r ∧ r.1 = true ∧
      (r.2.m_transitionDelta, r.2.m_trimDelta) = (0, 3) ∧
      r.2.m_trimCommand = some (.TrimClipInCommand 0 1 3 true false)) :=
  ⟨rfl,
    ⟨_, rfl,
      ((trim_applies_first_applicable_branch sampleOps sampleDock
        (TrimCall.trimClipIn 0 1 1 3 false)).1 _ rfl _ rfl).1,
      ((trim_applies_first_applicable_branch sampleOps sampleDock
        (TrimCall.trimClipIn 0 1 1 3 false)).1 _ rfl _ rfl).2.2.1,
      ((trim_applies_first_applicable_branch sampleOps sampleDock
        (TrimCall.trimClipIn 0 1 1 3 false)).1 _ rfl _ rfl).2.2.2⟩,
    rfl,
    ⟨_, rfl,
      ((trim_applies_first_applicable_branch sampleOps sampleDock
        (TrimCall.trimClipIn 0 1 1 3 true)).1 _ rfl _ rfl).1,
      ((trim_applies_first_applicable_branch sampleOps sampleDock
        (TrimCall.trimClipIn 0 1 1 3 true)).1 _ rfl _ rfl).2.2.1,
      ((trim_applies_first_applicable_branch sampleOps sampleDock
        (TrimCall.trimClipIn 0 1 1 3 true)).1 _ rfl _ rfl).2.2.2⟩⟩

/-- C22. trimClipIn and trimClipOut return false if and only if none of the
four branches is applicable for the delta.  In that case the call runs to its
end and the dock is the one it was called on: both counters, the pending
command, the captured undo snapshot, the pending clip-update and the model are
as before.  Whenever they return true exactly one counter grew by the delta,
the other being unchanged. -/
theorem trim_rejected_iff_no_branch (ops : Collaborators) (d : TimelineDock) (call : TrimCall) :
    (call.firstApplicable ops d.m_model = none → call.run ops d = .ok (false, d)) ∧
    (∀ r, call.run ops d = .ok r →
      (r.1 = false ↔ call.firstApplicable ops d.m_model = none) ∧
      (r.1 = false → r.2 = d) ∧
      (r.1 = true →
        (r.2.m_transitionDelta = d.m_transitionDelta + call.delta ∧
          r.2.m_trimDelta = d.m_trimDelta) ∨
        (r.2.m_transitionDelta = d.m_transitionDelta ∧
          r.2.m_trimDelta = d.m_trimDelta + call.delta))) := by
  rw [← trimCall_branch_eq_firstApplicable]
  constructor
  · intro hnone
    obtain ⟨r, hr⟩ := trimCall_run_total ops d call (by rw [hnone]; exact fun h => by cases h)
    rw [hr, (trimCall_run_effect ops d call r hr).1 hnone]
  · intro r hr
    obtain ⟨e1, e2⟩ := trimCall_run_effect ops d call r hr
    cases hb : call.branch ops d.m_model with
    | none =>
      have := e1 hb
      subst this
      exact ⟨⟨fun _ => rfl, fun _ => rfl⟩, fun _ => rfl, fun h => (by cases h)⟩
    | some br =>
      obtain ⟨f1, -, f3, -⟩ := e2 br hb
      refine ⟨⟨fun h => (by rw [f1] at h; cases h), fun h => (by cases h)⟩,
        fun h => (by rw [f1] at h; cases h), fun _ => ?_⟩
      cases br <;> simp only [TrimBranch.counters, Prod.mk.injEq] at f3
      · exact Or.inl f3
      · exact Or.inr f3
      · exact Or.inr f3
      · exact Or.inr f3

/-- C22, witness.  With collaborators that reject a plain trim of 50 frames or
more, a trim-out of 60 frames returns false and leaves the dock as it was; a
trim-out of 5 frames returns true and the trim counter grows by 5. -/
theorem trim_rejected_iff_no_branch_witness :
    (TrimCall.trimClipOut 0 0 60 false).firstApplicable strictOps sampleDock.m_model = none ∧
    trimClipOut strictOps sampleDock 0 0 60 false = .ok (false, sampleDock) ∧
    (∃ r, trimClipOut strictOps sampleDock 0 0 5 false = .ok r ∧ r.1 = true ∧
      ((r.2.m_transitionDelta = 0 + 5 ∧ r.2.m_trimDelta = 0) ∨
        (r.2.m_transitionDelta = 0 ∧ r.2.m_trimDelta = 0 + 5))) :=
  ⟨rfl,
    (trim_rejected_iff_no_branch strictOps sampleDock (TrimCall.trimClipOut 0 0 60 false)).1 rfl,
    ⟨_, rfl, rfl,
      ((trim_rejected_iff_no_branch strictOps sampleDock
        (TrimCall.trimClipOut 0 0 5 false)).2 _ rfl).2.2 rfl⟩⟩

/-! ### Range of the chosen clip index -/

/-- C25, the code at the failing input.  One unlocked track of two clips (the
frames 0 to 199), which is the active track, and the position 250 past its end:
the position lookup answers 2, the clip count of the track.  With the active
track as hint, as in trimClipAtPlayhead, chooseClipAtPosition answers (track 0,
clip 2): the hint branch takes the lookup as it is, and the coordinate, which
designates no clip, is not blank.  Without hint the active-track branch clamps
the lookup to the last clip and answers (track 0, clip 1). -/
theorem chooseClipAtPosition_hint_past_end :
    currentTrack (sampleDockAt 250) = 0 ∧ clipCount (sampleDockAt 250) 0 = 2 ∧
    clipIndexAtPosition sampleOps (sampleDockAt 250) 0 250 = 2 ∧
    isBlank (sampleDockAt 250) 0 2 = false ∧
    chooseClipAtPosition sampleOps (sampleDockAt 250) 250 0 (-1) = (0, 2) ∧
    ¬ ((chooseClipAtPosition sampleOps (sampleDockAt 250) 250 0 (-1)).2
        ≤ clipCount (sampleDockAt 250) 0 - 1) ∧
    getClipInfo (sampleDockAt 250) 0 2 = .ok none ∧
    chooseClipAtPosition sampleOps (sampleDockAt 250) 250 (-1) (-1) = (0, 1) :=
  ⟨rfl, by decide, by decide, by decide, by decide, by decide, rfl, by decide⟩

/-! ### Selection after a change of the model -/

/-- C26, the code at the failing input.  Tracks `[A]` and `[B, C, D]`.  With
track 0 active and the selection {(clip 0, track 0), (clip 2, track 1)}, both
valid on their own track, clearSelectionIfInvalid drops (clip 2, track 1): the
clip index is compared with the clip count 1 of the active track.  With track
1 active and the selection {(clip 2, track 0)}, which designates no clip of
track 0, the coordinate is kept. -/
theorem clearSelectionIfInvalid_active_track_count :
    clipCount (unevenDock 0 []) 0 = 1 ∧ clipCount (unevenDock 0 []) 1 = 3 ∧
    (∃ d1, clearSelectionIfInvalid (unevenDock 0 [⟨0, 0⟩, ⟨2, 1⟩]) = .ok d1 ∧
      d1.m_selection.selectedClips = [⟨0, 0⟩]) ∧
    (∃ d1, clearSelectionIfInvalid (unevenDock 1 [⟨2, 0⟩]) = .ok d1 ∧
      d1.m_selection.selectedClips = [⟨2, 0⟩]) :=
  ⟨by decide, by decide, ⟨_, rfl, rfl⟩, ⟨_, rfl, rfl⟩⟩

/-! ### Lifting the selection -/

/-- C24, the code at the failing input.  Track `[blank, A, blank, L, R, blank,
Z]`, the clips A (index 1), R (index 4) and L (index 3) selected in that click
order.  Lifting A, with a blank on both sides, records (1, 0) twice and leaves
`[blank, L, R, blank, Z]`; R is lifted at index 4 - 2 = 2, which records (2, 0)
for its blank right neighbour and leaves `[blank, L, blank, Z]`; for L the three
recorded coordinates all have an index below 3, so the lift call is made at
index 3 - 3 = 0, a blank, while L sits at index 1.  Two lift commands are
pushed and L stays on the track. -/
theorem liftSelection_misses_clip :
    clipsOfTrack0 (liftDock [⟨1, 0⟩, ⟨4, 0⟩, ⟨3, 0⟩]) = [1, 2, 3, 4] ∧
    removeAdjustment ⟨4, 0⟩ [⟨1, 0⟩, ⟨1, 0⟩] = -2 ∧
    removeAdjustment ⟨3, 0⟩ [⟨1, 0⟩, ⟨1, 0⟩, ⟨2, 0⟩] = -3 ∧
    ∃ d1, liftSelection liftOps (liftDock [⟨1, 0⟩, ⟨4, 0⟩, ⟨3, 0⟩]) = .ok d1 ∧
      d1.undoStack = [UndoStackCall.beginLiftMacro 3,
        UndoStackCall.push (UndoCommand.LiftCommand 0 1 (some { id := 1 })),
        UndoStackCall.push (UndoCommand.LiftCommand 0 2 (some { id := 3 })),
        UndoStackCall.endMacro] ∧
      clipsOfTrack0 d1 = [2, 4] ∧
      designatedClip d1 ⟨1, 0⟩ = some 2 ∧ isBlank d1 0 0 = true :=
  ⟨by decide, by decide, by decide, _, rfl, by decide, by decide, by decide⟩

/-! ### Image sequence: the digits of the file name -/

theorem rdropWhile_append_rtakeWhile {α : Type} (p : α → Bool) (l : List α) :
    l.rdropWhile p ++ l.rtakeWhile p = l := by
  unfold List.rdropWhile List.rtakeWhile
  rw [← List.reverse_append, List.takeWhile_append_dropWhile, List.reverse_reverse]

theorem mem_rtakeWhile_imp {α : Type} (p : α → Bool) (l : List α) (x : α)
    (h : x ∈ l.rtakeWhile p) : p x = true := by
  unfold List.rtakeWhile at h
  rw [List.mem_reverse] at h
  exact List.mem_takeWhile_imp h

theorem skipToLastDigit_eq (isDigit : Char → Bool) (xs : List Char) :
    ∀ ys, skipToLastDigit isDigit (xs ++ ys) xs.length
      = (xs.rdropWhile fun c => !isDigit c).length := by
  induction xs using List.reverseRecOn with
  | nil => intro ys; simp [skipToLastDigit]
  | append_singleton l a ih =>
    intro ys
    rw [List.length_append, List.length_singleton]
    unfold skipToLastDigit
    have hget : (l ++ [a] ++ ys).getD l.length ' ' = a := by
      rw [List.append_assoc, List.getD_append_right _ _ _ _ (le_refl _)]
      simp
    rw [hget]
    by_cases hd : isDigit a = true
    · rw [if_neg (by simp [hd]), List.rdropWhile_concat_neg _ _ _ (by simp [hd])]
      simp
    · rw [if_pos (by simp [hd]), List.rdropWhile_concat_pos _ _ _ (by simp [hd]),
        List.append_assoc]
      exact ih _

theorem collectDigits_eq (isDigit : Char → Bool) (xs : List Char) :
    ∀ ys begin count, collectDigits isDigit (xs ++ ys) xs.length begin count
      = ((xs.rdropWhile isDigit).length, xs.rtakeWhile isDigit ++ begin,
          count + (xs.rtakeWhile isDigit).length) := by
  induction xs using List.reverseRecOn with
  | nil => intro ys begin count; simp [collectDigits]
  | append_singleton l a ih =>
    intro ys begin count
    rw [List.length_append, List.length_singleton]
    unfold collectDigits
    have hget : (l ++ [a] ++ ys).getD l.length ' ' = a := by
      rw [List.append_assoc, List.getD_append_right _ _ _ _ (le_refl _)]
      simp
    rw [hget]
    by_cases hd : isDigit a = true
    · rw [if_pos hd, List.rdropWhile_concat_pos _ _ _ hd, List.rtakeWhile_concat_pos _ _ _ hd,
        List.append_assoc, ih]
      simp
      omega
    · rw [if_neg hd, List.rdropWhile_concat_neg _ _ _ hd, List.rtakeWhile_concat_neg _ _ _ hd]
      simp

/-- The two loops of on_sequenceCheckBox_clicked find the last maximal run of
digits of the file name: `i` is the number of characters before the run,
`begin` the run and `count` its length. -/
theorem scanDigits_eq (isDigit : Char → Bool) (name : List Char) :
    scanDigits isDigit name = ((beforeLastDigitRun isDigit name).length,
      lastDigitRun isDigit name, (lastDigitRun isDigit name).length) := by
  unfold scanDigits beforeLastDigitRun lastDigitRun
  have h1 := skipToLastDigit_eq isDigit name []
  rw [List.append_nil] at h1
  rw [h1]
  have h2 := collectDigits_eq isDigit (name.rdropWhile fun c => !isDigit c)
    (name.rtakeWhile fun c => !isDigit c) [] 0
  rw [rdropWhile_append_rtakeWhile] at h2
  rw [h2]
  simp

/-- The file name is made of the characters before the run, the run, and the
characters after it; the run holds digits only, no digit comes after it, and
the character before it, if any, is not a digit. -/
theorem lastDigitRun_spec (isDigit : Char → Bool) (name : List Char) :
    name = beforeLastDigitRun isDigit name ++ lastDigitRun isDigit name
      ++ afterLastDigit isDigit name ∧
    (∀ c ∈ lastDigitRun isDigit name, isDigit c = true) ∧
    (∀ c ∈ afterLastDigit isDigit name, isDigit c = false) ∧
    (∀ c, (beforeLastDigitRun isDigit name).getLast? = some c → isDigit c = false) := by
  unfold beforeLastDigitRun lastDigitRun afterLastDigit
  refine ⟨?_, ?_, ?_, ?_⟩
  · rw [rdropWhile_append_rtakeWhile, rdropWhile_append_rtakeWhile]
  · intro c hc
    exact mem_rtakeWhile_imp _ _ c hc
  · intro c hc
    have := mem_rtakeWhile_imp _ _ c hc
    simpa using this
  · intro c hc
    have hne : (List.rdropWhile isDigit (List.rdropWhile (fun c => !isDigit c) name)) ≠ [] := by
      intro h0
      rw [h0] at hc
      cases hc
    have h := List.rdropWhile_last_not isDigit _ hne
    rw [List.getLast?_eq_getLast _ hne] at hc
    cases hc
    simpa using h

theorem lastDigitRun_ne_nil_iff (isDigit : Char → Bool) (name : List Char) :
    lastDigitRun isDigit name ≠ [] ↔ ∃ c ∈ name, isDigit c = true := by
  unfold lastDigitRun
  constructor
  · intro h
    obtain ⟨c, hc⟩ := List.exists_mem_of_ne_nil _ h
    refine ⟨c, ?_, mem_rtakeWhile_imp _ _ c hc⟩
    exact (List.rdropWhile_prefix (fun c => !isDigit c) name).subset
      ((List.rtakeWhile_suffix isDigit _).subset hc)
  · rintro ⟨c, hc, hd⟩ h
    rw [List.rtakeWhile_eq_nil_iff] at h
    have hne : List.rdropWhile (fun c => !isDigit c) name ≠ [] := by
      intro h0
      rw [List.rdropWhile_eq_nil_iff] at h0
      have := h0 c hc
      simp [hd] at this
    have h1 := List.rdropWhile_last_not (fun c => !isDigit c) name hne
    have h2 := h hne
    simp at h1
    exact h2 h1

theorem replaceAt_lastDigitRun (isDigit : Char → Bool) (name after : List Char) :
    replaceAt name (beforeLastDigitRun isDigit name).length (lastDigitRun isDigit name).length
      after = beforeLastDigitRun isDigit name ++ after ++ afterLastDigit isDigit name := by
  have h := (lastDigitRun_spec isDigit name).1
  generalize beforeLastDigitRun isDigit name = pre at h ⊢
  generalize lastDigitRun isDigit name = run at h ⊢
  generalize afterLastDigit isDigit name = post at h ⊢
  subst h
  unfold replaceAt
  have e1 : List.take pre.length (pre ++ run ++ post) = pre := by
    rw [List.append_assoc, List.take_left]
  have e2 : List.drop (pre.length + run.length) (pre ++ run ++ post) = post := by
    rw [← List.length_append, List.drop_left]
  rw [e1, e2]

theorem recreateProducer_producer (ops : WidgetCollaborators) (w : ImageProducerWidget)
    (m : Producer) (hm : w.m_producer = some m) :
    ∃ w1, recreateProducer ops w = .ok w1 ∧ w1.m_producer = some (prefixService m) := by
  unfold recreateProducer
  rw [hm]
  dsimp only
  refine ⟨_, rfl, ?_⟩
  unfold handOver
  split <;> rfl

theorem prefixService_fields (m : Producer) :
    (prefixService m).begin = m.begin ∧ (prefixService m).mlt_service = m.mlt_service ∧
    (prefixService m).resource =
      (if hasServicePrefix (m.resource.getD []) = false ∧ m.mlt_service.getD [] ≠ [] then
        some (m.mlt_service.getD [] ++ ':' :: m.resource.getD [])
      else m.resource) := by
  unfold prefixService
  dsimp only
  cases hpre : hasServicePrefix (m.resource.getD []) with
  | true => simp
  | false =>
    by_cases hs : m.mlt_service.getD [] = []
    · simp [hs]
    · simp [hs]

theorem sequenceChecked_fields (w : ImageProducerWidget) (m : Producer) :
    (sequenceChecked w m).begin = m.begin ∧ (sequenceChecked w m).resource = m.resource ∧
    (sequenceChecked w m).mlt_service = m.mlt_service := by
  unfold sequenceChecked
  dsimp only
  split <;> exact ⟨rfl, rfl, rfl⟩

theorem on_sequenceCheckBox_clicked_true (ops : WidgetCollaborators) (w : ImageProducerWidget)
    (m : Producer) (hm : w.m_producer = some m) :
    on_sequenceCheckBox_clicked ops w true =
      (if (lastDigitRun ops.isDigit (ops.fileName (m.resource.getD []))).length ≠ 0 then
        recreateProducer ops (makeSequence ops
          { w with repeatSpinBoxEnabled := true, m_producer := some (sequenceChecked w m) }
          (sequenceChecked w m) (m.resource.getD [])
          (beforeLastDigitRun ops.isDigit (ops.fileName (m.resource.getD []))).length
          (lastDigitRun ops.isDigit (ops.fileName (m.resource.getD [])))
          (lastDigitRun ops.isDigit (ops.fileName (m.resource.getD []))).length)
      else recreateProducer ops
        { w with repeatSpinBoxEnabled := true, m_producer := some (sequenceChecked w m) }) := by
  unfold on_sequenceCheckBox_clicked sequenceChecked
  rw [hm]
  simp only [scanDigits_eq, true_and, if_true]

theorem makeSequence_producer (ops : WidgetCollaborators) (w : ImageProducerWidget) (m : Producer)
    (resource : List Char) (i : Nat) (begin : List Char) (count : Nat) :
    ∃ m1, (makeSequence ops w m resource i begin count).m_producer = some m1 ∧
      m1.begin = some (ops.toLatin1 begin) ∧ m1.mlt_service = m.mlt_service ∧
      m1.resource = some (if m.mlt_service.getD [] ≠ [] then
          m.mlt_service.getD [] ++ ':' :: ops.path resource ++ '/' ::
            replaceAt (ops.fileName resource) i count ('%' :: begin ++ ['d'])
        else ops.path resource ++ '/' ::
            replaceAt (ops.fileName resource) i count ('%' :: begin ++ ['d'])) :=
  ⟨_, rfl, rfl, rfl, rfl⟩

/-- C27 (amended).  on_sequenceCheckBox_clicked(true) on the producer `m` runs
to its end and leaves in `m` (the producer the widget pointed to when it was
called): for a file name with at least one digit, the property 'begin' set to
the Latin-1 text of the last maximal run of consecutive digits of the file
name, and a resource made of service prefixes, the path, a slash and the
sequence pattern, which is the file name with exactly that run replaced by '%',
the run and 'd', every character before and after the run being unchanged; for
a file name without any digit, 'begin' unchanged and the resource as
recreateProducer leaves it: unchanged when it starts with "qimage:" or
"pixbuf:" or when the service name is empty, and else with the service name and
a colon in front. -/
theorem sequence_begin_and_pattern (ops : WidgetCollaborators) (w : ImageProducerWidget)
    (m : Producer) (hm : w.m_producer = some m) :
    ∃ w1 m1, on_sequenceCheckBox_clicked ops w true = .ok w1 ∧ w1.m_producer = some m1 ∧
      (ops.fileName (m.resource.getD []) =
          beforeLastDigitRun ops.isDigit (ops.fileName (m.resource.getD []))
            ++ lastDigitRun ops.isDigit (ops.fileName (m.resource.getD []))
            ++ afterLastDigit ops.isDigit (ops.fileName (m.resource.getD [])) ∧
        (∀ c ∈ lastDigitRun ops.isDigit (ops.fileName (m.resource.getD [])),
          ops.isDigit c = true) ∧
        (∀ c ∈ afterLastDigit ops.isDigit (ops.fileName (m.resource.getD [])),
          ops.isDigit c = false) ∧
        (∀ c, (beforeLastDigitRun ops.isDigit (ops.fileName (m.resource.getD []))).getLast?
          = some c → ops.isDigit c = false)) ∧
      ((∃ c ∈ ops.fileName (m.resource.getD []), ops.isDigit c = true) →
        m1.begin = some (ops.toLatin1
          (lastDigitRun ops.isDigit (ops.fileName (m.resource.getD [])))) ∧
        ∃ pre, m1.resource = some (pre ++ ops.path (m.resource.getD []) ++ '/' ::
            sequencePattern ops.isDigit (ops.fileName (m.resource.getD []))) ∧
          (pre = [] ∨ pre = m.mlt_service.getD [] ++ [':'] ∨
            pre = m.mlt_service.getD [] ++ ':' :: m.mlt_service.getD [] ++ [':']) ∧
          (m.mlt_service.getD [] = [] → pre = [])) ∧
      ((∀ c ∈ ops.fileName (m.resource.getD []), ops.isDigit c = false) →
        m1.begin = m.begin ∧ m1.resource = (prefixService m).resource ∧
        ((hasServicePrefix (m.resource.getD []) = true ∨ m.mlt_service.getD [] = []) →
          m1.resource = m.resource)) := by
  rw [on_sequenceCheckBox_clicked_true ops w m hm]
  obtain ⟨s1, s2, s3⟩ := sequenceChecked_fields w m
  by_cases hrun : lastDigitRun ops.isDigit (ops.fileName (m.resource.getD [])) = []
  · -- no digit
    have hlen : ¬ (lastDigitRun ops.isDigit (ops.fileName (m.resource.getD []))).length ≠ 0 := by
      rw [hrun]; simp
    rw [if_neg hlen]
    obtain ⟨w1, h1, h2⟩ := recreateProducer_producer ops
      { w with repeatSpinBoxEnabled := true, m_producer := some (sequenceChecked w m) }
      (sequenceChecked w m) rfl
    obtain ⟨p1, p2, p3⟩ := prefixService_fields (sequenceChecked w m)
    obtain ⟨q1, q2, q3⟩ := prefixService_fields m
    refine ⟨w1, _, h1, h2, lastDigitRun_spec _ _, ?_, ?_⟩
    · intro hd
      exact absurd hrun ((lastDigitRun_ne_nil_iff _ _).mpr hd)
    · intro _
      have e : (prefixService (sequenceChecked w m)).resource = (prefixService m).resource := by
        rw [p3, q3, s2, s3]
      refine ⟨by rw [p1, s1], e, ?_⟩
      intro hcase
      rw [e, q3]
      rcases hcase with hc | hc
      · rw [if_neg (by simp [hc])]
      · rw [if_neg (by simp [hc])]
  · -- a digit
    have hlen : (lastDigitRun ops.isDigit (ops.fileName (m.resource.getD []))).length ≠ 0 := by
      intro h0
      exact hrun (List.length_eq_zero.mp h0)
    rw [if_pos hlen]
    obtain ⟨m2, k0, k1, k2, k3⟩ := makeSequence_producer ops
      { w with repeatSpinBoxEnabled := true, m_producer := some (sequenceChecked w m) }
      (sequenceChecked w m) (m.resource.getD [])
      (beforeLastDigitRun ops.isDigit (ops.fileName (m.resource.getD []))).length
      (lastDigitRun ops.isDigit (ops.fileName (m.resource.getD [])))
      (lastDigitRun ops.isDigit (ops.fileName (m.resource.getD []))).length
    obtain ⟨w1, h1, h2⟩ := recreateProducer_producer ops _ m2 k0
    obtain ⟨p1, p2, p3⟩ := prefixService_fields m2
    refine ⟨w1, _, h1, h2, lastDigitRun_spec _ _, ?_, ?_⟩
    · intro _
      refine ⟨by rw [p1, k1], ?_⟩
      have hpat : beforeLastDigitRun ops.isDigit (ops.fileName (m.resource.getD [])) ++
          ('%' :: lastDigitRun ops.isDigit (ops.fileName (m.resource.getD [])) ++ ['d']) ++
          afterLastDigit ops.isDigit (ops.fileName (m.resource.getD []))
          = sequencePattern ops.isDigit (ops.fileName (m.resource.getD [])) := by
        unfold sequencePattern
        simp
      rw [replaceAt_lastDigitRun, hpat, s3] at k3
      rw [p3, k2, s3, k3]
      generalize m.mlt_service.getD [] = sv
      generalize ops.path (m.resource.getD []) = pth
      generalize sequencePattern ops.isDigit (ops.fileName (m.resource.getD [])) = pat
      by_cases hs : sv = []
      · refine ⟨[], ?_, Or.inl rfl, fun _ => rfl⟩
        rw [if_neg (fun h => h.2 hs), if_neg (fun h => h hs)]
        rfl
      · rw [if_pos hs, Option.getD_some]
        by_cases hp : hasServicePrefix (sv ++ ':' :: pth ++ '/' :: pat) = true
        · refine ⟨sv ++ [':'], ?_, Or.inr (Or.inl rfl), fun h => absurd h hs⟩
          rw [if_neg (fun h => by rw [hp] at h; cases h.1)]
          simp
        · refine ⟨sv ++ ':' :: sv ++ [':'], ?_, Or.inr (Or.inr rfl), fun h => absurd h hs⟩
          rw [if_pos ⟨by simpa using hp, hs⟩]
          simp
    · intro hnone
      obtain ⟨c', hc', hd'⟩ := (lastDigitRun_ne_nil_iff _ _).mp hrun
      rw [hnone c' hc'] at hd'
      cases hd'

/-- C27 (amended), witness.  The image "/p/img_0007.png" of the service
"qimage": 'begin' becomes "0007" and the resource ends in the path, a slash and
the pattern "img_%0007d.png". -/
theorem sequence_begin_and_pattern_witness :
    ∃ w1 m1, on_sequenceCheckBox_clicked sampleWidgetOps
        (sampleWidget "/p/img_0007.png" "qimage") true = .ok w1 ∧
      w1.m_producer = some m1 ∧ m1.begin = some "0007".toList ∧
      ∃ pre, m1.resource = some (pre ++ "/p/img_%0007d.png".toList) := by
  obtain ⟨w1, m1, h1, h2, -, h4, -⟩ := sequence_begin_and_pattern sampleWidgetOps
    (sampleWidget "/p/img_0007.png" "qimage") (sampleImage "/p/img_0007.png" "qimage") rfl
  obtain ⟨hb, pre, hr, -, -⟩ := h4 ⟨'0', by decide, by decide⟩
  refine ⟨w1, m1, h1, h2, hb.trans (by decide), pre, ?_⟩
  rw [hr, List.append_assoc]
  exact congrArg (fun t => some (pre ++ t)) (by decide)

/-- C27, counterexample.  The image "/p/image.png" of the service "qimage",
a file name without any digit: 'begin' stays unset, and the resource of the
producer becomes "qimage:/p/image.png" in the closing recreateProducer. -/
theorem sequence_begin_and_pattern_counterexample :
    (∀ c ∈ sampleWidgetOps.fileName "/p/image.png".toList, sampleWidgetOps.isDigit c = false) ∧
    ∃ w1 m1, on_sequenceCheckBox_clicked sampleWidgetOps
        (sampleWidget "/p/image.png" "qimage") true = .ok w1 ∧
      w1.m_producer = some m1 ∧ m1.begin = none ∧
      m1.resource = some "qimage:/p/image.png".toList ∧
      m1.resource ≠ some "/p/image.png".toList :=
  ⟨by decide, _, _, rfl, rfl, rfl, by decide, by decide⟩

/-! ### Reset of the image producer -/

/-- C28, the code at the failing input.  An image producer with the resource
"/p/image.png" and no saved original resource: on_resetButton_clicked reads the
saved original resource, finds it null, reads the same property again, and
builds the replacement producer from the null text; the property 'resource' of
the producer is not looked at. -/
theorem on_resetButton_clicked_null_resource :
    (∃ m, (sampleWidget "/p/image.png" "qimage").m_producer = some m ∧
      m.resource = some "/p/image.png".toList ∧ m.shotcutResource = none) ∧
    on_resetButton_clicked sampleWidgetOps (sampleWidget "/p/image.png" "qimage") =
      .ok { sampleWidget "/p/image.png" "qimage" with
            emitted := [WidgetEvent.reopen (sampleWidgetOps.newMltProducer none)] } ∧
    (sampleWidgetOps.newMltProducer none).resource = none :=
  ⟨⟨_, rfl, rfl, rfl⟩, rfl, rfl⟩

/-! ### Filter window of the selected clip -/

/-- The producer announced for the first selected clip: the clip producer with
the filter window and the playlist start set from the neighbours. -/
theorem emitSelectedFromSelection_window (d : TimelineDock) (p : QPoint) (rest : List QPoint)
    (tr : Track) (i : ClipInfo) (pr : Producer) (hs : selection d = p :: rest)
    (htr : d.m_model.track? p.y = some tr) (hi : tr.clip_info p.x = some i)
    (hp : i.producer = some pr) (hv : pr.is_valid = true) :
    ∃ d1 pr1, emitSelectedFromSelection d = .ok d1 ∧
      d1.emitted = d.emitted ++ [Event.selected (some (.clip pr1))] ∧ pr1.id = pr.id ∧
      pr1.filterIn = some (i.frame_in - transitionDuration (leftTransition tr p.x)) ∧
      pr1.playlistStart = some
        (match leftTransition tr p.x with
          | some i2 => i2.start
          | none => i.start) ∧
      pr1.filterOut = some (i.frame_out + transitionDuration (rightTransition tr p.x)) := by
  have hlen : d.m_model.trackList.length ≠ 0 := by
    intro h0
    have hnil := List.length_eq_zero.mp h0
    unfold MultitrackModel.track? at htr
    rw [hnil] at htr
    split at htr <;> simp at htr
  have hinfo := getClipInfo_eq d p.y p.x tr htr
  rw [hi] at hinfo
  have ha := getClipInfo_eq
    { d with m_updateCommand := some (UpdateCommand.mk p.y p.x i.start) } p.y (p.x - 1) tr htr
  have hb := getClipInfo_eq
    { d with m_updateCommand := some (UpdateCommand.mk p.y p.x i.start) } p.y (p.x + 1) tr htr
  unfold emitSelectedFromSelection
  rw [if_neg hlen, hs]
  simp only [List.isEmpty_cons, Bool.false_eq_true, if_false, List.head?_cons, Option.map_some',
    Option.getD_some, bind, Except.bind]
  rw [hinfo]
  dsimp only
  unfold emitSelectedClip
  dsimp only
  rw [hp]
  dsimp only
  rw [if_pos hv]
  simp only [bind, Except.bind]
  rw [ha]
  dsimp only
  rw [hb]
  unfold leftTransition rightTransition transitionDuration
  refine ⟨_, _, rfl, rfl, ?_, ?_, ?_, ?_⟩
  · cases transitionNeighbour (tr.clip_info (p.x - 1)) <;>
      cases transitionNeighbour (tr.clip_info (p.x + 1)) <;> rfl
  · cases transitionNeighbour (tr.clip_info (p.x - 1)) <;>
      cases transitionNeighbour (tr.clip_info (p.x + 1)) <;> simp
  · cases transitionNeighbour (tr.clip_info (p.x - 1)) <;>
      cases transitionNeighbour (tr.clip_info (p.x + 1)) <;> rfl
  · cases transitionNeighbour (tr.clip_info (p.x - 1)) <;>
      cases transitionNeighbour (tr.clip_info (p.x + 1)) <;> simp

/-- C23. When a clip with a valid producer becomes the first selected clip,
emitSelectedFromSelection announces its producer with the filter window set
from the neighbours: filter-in = frame_in minus the duration of the left
neighbour and playlist-start = the start of the left neighbour if the immediate
left neighbour is a transition, otherwise filter-in = frame_in and
playlist-start = the start of the clip; filter-out = frame_out plus the duration
of the right neighbour if the immediate right neighbour is a transition,
otherwise frame_out.  Hence the window length filter-out - filter-in + 1, which
is the duration that updateDuration shows for that producer, equals the length
frame_out - frame_in + 1 of the clip plus the durations of its adjacent
transitions.  A neighbour counts as a transition when its producer is valid and
has the transition property; its duration is its frame count. -/
theorem selected_clip_filter_window (d : TimelineDock) (p : QPoint) (rest : List QPoint)
    (tr : Track) (i : ClipInfo) (pr : Producer) (hs : selection d = p :: rest)
    (htr : d.m_model.track? p.y = some tr) (hi : tr.clip_info p.x = some i)
    (hp : i.producer = some pr) (hv : pr.is_valid = true) :
    ∃ d1 pr1 filterIn filterOut, emitSelectedFromSelection d = .ok d1 ∧
      d1.emitted = d.emitted ++ [Event.selected (some (.clip pr1))] ∧ pr1.id = pr.id ∧
      pr1.filterIn = some filterIn ∧ pr1.filterOut = some filterOut ∧
      filterIn = i.frame_in - transitionDuration (leftTransition tr p.x) ∧
      filterOut = i.frame_out + transitionDuration (rightTransition tr p.x) ∧
      pr1.playlistStart = some
        (match leftTransition tr p.x with
          | some i2 => i2.start
          | none => i.start) ∧
      (leftTransition tr p.x = none → filterIn = i.frame_in) ∧
      (rightTransition tr p.x = none → filterOut = i.frame_out) ∧
      filterOut - filterIn + 1 = (i.frame_out - i.frame_in + 1)
        + transitionDuration (leftTransition tr p.x)
        + transitionDuration (rightTransition tr p.x) ∧
      ∃ w1, updateDuration (widgetOn pr1) = .ok w1 ∧
        w1.durationSpinBox = (i.frame_out - i.frame_in + 1)
          + transitionDuration (leftTransition tr p.x)
          + transitionDuration (rightTransition tr p.x) := by
  obtain ⟨d1, pr1, h1, h2, h3, h4, h5, h6⟩ :=
    emitSelectedFromSelection_window d p rest tr i pr hs htr hi hp hv
  refine ⟨d1, pr1, _, _, h1, h2, h3, h4, h6, rfl, rfl, h5, ?_, ?_, by ring, ?_⟩
  · intro h; rw [h]; simp [transitionDuration]
  · intro h; rw [h]; simp [transitionDuration]
  · unfold updateDuration widgetOn
    dsimp only
    rw [h6]
    dsimp only
    rw [h4]
    exact ⟨_, rfl, by simp only [Option.getD_some]; ring⟩

/-- C23, witness.  Track `[A, transition, B]`, the transition of 25 frames,
clip B (frames 0 to 99 of its source, at frame 125 of the track) selected: the
filter window of B runs from -25 to 99, the playlist start is the start 100 of
the transition, and the duration shown is 100 + 25 = 125. -/
theorem selected_clip_filter_window_witness :
    ∃ d1 pr1, emitSelectedFromSelection transitionSelectedDock = .ok d1 ∧
      d1.emitted = [Event.selected (some (.clip pr1))] ∧ pr1.id = 2 ∧
      pr1.filterIn = some (-25) ∧ pr1.filterOut = some 99 ∧ pr1.playlistStart = some 100 ∧
      ∃ w1, updateDuration (widgetOn pr1) = .ok w1 ∧ w1.durationSpinBox = 125 := by
  obtain ⟨d1, pr1, fi, fo, h1, h2, h3, h4, h5, h6, h7, h8, -, -, -, h12⟩ :=
    selected_clip_filter_window transitionSelectedDock ⟨2, 0⟩ []
      { clips := [sampleClip 1 0, sampleTransition 5 100, sampleClip 2 125] }
      (sampleClip 2 125) { id := 2 } rfl (by decide) (by decide) rfl rfl
  subst h6 h7
  exact ⟨d1, pr1, h1, h2, h3, h4, h5, h8, h12⟩

end Shotcut
